import Mathlib

set_option maxHeartbeats 2000000
set_option maxRecDepth 20000

/-!
Verification of the scene-DSL pipeline: the structural validator
`validateDSL`, the default-filling normalizer `normalizeDSL`, the JSON-text
parser and serializer of `DSLParser`, and the Three.js code generator
(`generateScene`, `generateHTML`).

JavaScript runtime values that can appear in this pipeline are modelled by
the JSON-like type `Jval` (numbers as exact rationals); `undefined` is
modelled as `Option.none` at property-access results, and operations that
can raise a `TypeError` (property access on `null`/`undefined`, calling
`.join`/`.map` on a non-array) return `Except String`.
-/

/-- A JSON-like JavaScript value: `null`, booleans, numbers (modelled as
exact rationals), strings, arrays, and objects with ordered key-value
lists. -/
inductive Jval where
  | null
  | bool (b : Bool)
  | num (q : Rat)
  | str (s : String)
  | arr (xs : List Jval)
  | obj (kvs : List (String × Jval))
deriving Repr

/-- JavaScript truthiness of a value. -/
def truthy : Jval → Bool
  | .null => false
  | .bool b => b
  | .num q => !(q == 0)
  | .str s => !(s == "")
  | .arr _ => true
  | .obj _ => true

/-- `typeof v === 'object'` in JavaScript (`null`, arrays and objects). -/
def typeofObject : Jval → Bool
  | .null => true
  | .arr _ => true
  | .obj _ => true
  | _ => false

/-- First-occurrence lookup in an ordered key-value list. -/
def lookupKV (k : String) : List (String × Jval) → Option Jval
  | [] => none
  | (k', v) :: rest => if k' = k then some v else lookupKV k rest

/-- Property read `v[k]`; `none` models the JavaScript `undefined` result
for missing keys and non-object receivers. -/
def getProp? : Jval → String → Option Jval
  | .obj kvs, k => lookupKV k kvs
  | _, _ => none

/-- Property read through a possibly-`undefined` receiver (short-circuit
use sites guard it behind a truthiness check). -/
def getPropO (o : Option Jval) (k : String) : Option Jval :=
  o.bind (fun v => getProp? v k)

/-- Truthiness of a possibly-`undefined` value. -/
def truthyO : Option Jval → Bool
  | none => false
  | some v => truthy v

/-- `Array.isArray` on a possibly-`undefined` value. -/
def isArrO : Option Jval → Bool
  | some (.arr _) => true
  | _ => false

/-- Is the value exactly `null`? -/
def isNull : Jval → Bool
  | .null => true
  | _ => false

/-- Property access `v[k]` that raises `TypeError` when the receiver is
`null` (as JavaScript does); the payload distinguishes a present value
from `undefined`. -/
def propAcc (v : Jval) (k : String) : Except String (Option Jval) :=
  if isNull v then .error "TypeError" else .ok (getProp? v k)

/-- The character for a decimal digit. -/
def digitChar : Nat → Char
  | 0 => '0' | 1 => '1' | 2 => '2' | 3 => '3' | 4 => '4'
  | 5 => '5' | 6 => '6' | 7 => '7' | 8 => '8' | 9 => '9'
  | _ => '*'

/-- Fuel-driven big-endian decimal digit accumulation. -/
def natDigsCore : Nat → Nat → List Char → List Char
  | 0, _, acc => acc
  | fuel + 1, n, acc =>
      if n < 10 then digitChar n :: acc
      else natDigsCore fuel (n / 10) (digitChar (n % 10) :: acc)

/-- Big-endian decimal digits of a natural number. -/
def natDigs (n : Nat) : List Char := natDigsCore (n + 1) n []

/-- The decimal-string property key for an array or string index. -/
def natKey (n : Nat) : String := ⟨natDigs n⟩

/-- The own enumerable key-value pairs produced by object-spreading a
value (`{...v}`): objects give their pairs, arrays and strings give
index-keyed entries, primitives give nothing. -/
def objSpread : Jval → List (String × Jval)
  | .obj kvs => kvs
  | .arr xs => xs.enum.map (fun p => (natKey p.1, p.2))
  | .str s => s.data.enum.map (fun p => (natKey p.1, Jval.str (String.singleton p.2)))
  | _ => []

/-- Spread of a possibly-`undefined` value (`{...undefined}` is `{}`). -/
def objSpreadO : Option Jval → List (String × Jval)
  | none => []
  | some v => objSpread v

/-- Does the ordered key-value list contain the key? -/
def hasKey (kvs : List (String × Jval)) (k : String) : Bool :=
  kvs.any (fun p => p.1 = k)

/-- JavaScript object-literal property assignment: update every existing
entry for the key in place, else append. -/
def insertKV (kvs : List (String × Jval)) (k : String) (v : Jval) : List (String × Jval) :=
  if hasKey kvs k then kvs.map (fun p => if p.1 = k then (k, v) else p)
  else kvs ++ [(k, v)]

/-- Sequential object-literal assignment of a list of pairs into a base
list (the semantics of spreading into an object literal). -/
def assigns (base : List (String × Jval)) (l : List (String × Jval)) :
    List (String × Jval) :=
  l.foldl (fun acc p => insertKV acc p.1 p.2) base

/-- JavaScript `a || d` where `a` may be `undefined`. -/
def jsOr (a : Option Jval) (d : Jval) : Jval :=
  match a with
  | some v => if truthy v then v else d
  | none => d

/-- `validateDSL` from `types/dsl.ts`: the shallow structural gate. -/
def validateDSL (dsl : Jval) : Bool :=
  if !truthy dsl || !typeofObject dsl then false
  else
    let cam := getProp? dsl "camera"
    if !truthyO cam || !isArrO (getPropO cam "position")
        || !isArrO (getPropO cam "lookAt") then false
    else if !isArrO (getProp? dsl "lights") then false
    else if !isArrO (getProp? dsl "objects") then false
    else true

/-- Element-wise effectful map over a list, propagating the first raised
exception (the behavior of `Array.prototype.map` when the callback
throws). -/
def mapME {A B : Type} (f : A → Except String B) : List A → Except String (List B)
  | [] => .ok []
  | x :: xs => do
      let y ← f x
      let ys ← mapME f xs
      .ok (y :: ys)

/-- The object-level defaults `{rotation:[0,0,0], scale:[1,1,1]}` spread
first in `normalizeDSL`'s per-object literal. -/
def rotScaleDefaults : List (String × Jval) :=
  [("rotation", .arr [.num 0, .num 0, .num 0]),
   ("scale", .arr [.num 1, .num 1, .num 1])]

/-- The material defaults `{type:'standard', metalness:0.5, roughness:0.5,
wireframe:false}` spread first in `normalizeDSL`'s material literal. -/
def matDefaults : List (String × Jval) :=
  [("type", .str "standard"), ("metalness", .num 0.5),
   ("roughness", .num 0.5), ("wireframe", .bool false)]

/-- The camera default `{fov:75}` spread first in `normalizeDSL`'s camera
literal. -/
def fovDefault : List (String × Jval) := [("fov", .num 75)]

/-- The per-object branch of `DSLParser.normalizeDSL`:
`{rotation:[0,0,0], scale:[1,1,1], ...obj, material:{type:'standard',
metalness:0.5, roughness:0.5, wireframe:false, ...obj.material}}`.
Raises `TypeError` when the element is `null` (the `obj.material`
access). -/
def normObj (o : Jval) : Except String Jval :=
  if isNull o then .error "TypeError"
  else
    .ok (.obj (insertKV
      (assigns rotScaleDefaults (objSpread o))
      "material"
      (.obj (assigns matDefaults (objSpreadO (getProp? o "material"))))))

/-- `DSLParser.normalizeDSL`: `{...dsl, camera:{fov:75, ...dsl.camera},
background: dsl.background || '#000000', objects: dsl.objects.map(...)}`. -/
def normalizeDSL (dsl : Jval) : Except String Jval :=
  if isNull dsl then .error "TypeError"
  else
    let camObj : Jval := .obj (assigns fovDefault (objSpreadO (getProp? dsl "camera")))
    let bg : Jval := jsOr (getProp? dsl "background") (.str "#000000")
    match getProp? dsl "objects" with
    | some (.arr xs) => do
        let objs ← mapME normObj xs
        .ok (.obj (insertKV (insertKV (insertKV (objSpread dsl)
          "camera" camObj) "background" bg) "objects" (.arr objs)))
    | _ => .error "TypeError"

/-! ### Number-to-string conversion (exact decimal printing) -/

/-- The least exponent `k ≤ den` with `den ∣ 10^k`, when one exists
(i.e. when the denominator is 10-smooth). -/
def decExp (den : Nat) : Option Nat :=
  (List.range (den + 1)).find? (fun k => 10 ^ k % den = 0)

/-- The sign prefix of a printed number. -/
def printSign (q : Rat) : List Char := if q.num < 0 then ['-'] else []

/-- Exact decimal printing of a rational (the JavaScript number-to-string
conversion for the dyadic values JavaScript numbers can take). -/
def printNum (q : Rat) : List Char :=
  match decExp q.den with
  | some k =>
      if k = 0 then printSign q ++ natDigs (q.num.natAbs * (10 ^ k / q.den))
      else
        printSign q ++ natDigs (q.num.natAbs * (10 ^ k / q.den) / 10 ^ k) ++ '.' ::
          (List.replicate (k - (natDigs (q.num.natAbs * (10 ^ k / q.den) % 10 ^ k)).length) '0'
            ++ natDigs (q.num.natAbs * (10 ^ k / q.den) % 10 ^ k))
  | none => printSign q ++ natDigs q.num.natAbs ++ '/' :: natDigs q.den

/-- String form of a number value. -/
def numToString (q : Rat) : String := ⟨printNum q⟩

example : numToString 75 = "75" := by with_unfolding_all rfl
example : numToString 0.5 = "0.5" := by with_unfolding_all rfl
example : numToString 7.5 = "7.5" := by with_unfolding_all rfl
example : numToString (-2.5) = "-2.5" := by with_unfolding_all rfl
example : numToString 0 = "0" := by with_unfolding_all rfl
example : numToString (1/3) = "1/3" := by with_unfolding_all rfl

/-! ### JavaScript string conversion and the scene generator -/

mutual

/-- JavaScript `String(v)` (with `Array.prototype.toString` joining
elements by `,` and rendering `null` elements as empty). -/
def jsToString : Jval → String
  | .null => "null"
  | .bool true => "true"
  | .bool false => "false"
  | .num q => numToString q
  | .str s => s
  | .arr xs => jsArrString xs
  | .obj _ => "[object Object]"

def jsArrString : List Jval → String
  | [] => ""
  | [.null] => ""
  | [x] => jsToString x
  | .null :: xs => "," ++ jsArrString xs
  | x :: xs => jsToString x ++ "," ++ jsArrString xs

end

/-- String conversion of a possibly-`undefined` value in a template
literal. -/
def jsToStringU : Option Jval → String
  | none => "undefined"
  | some v => jsToString v

/-- One element of `Array.prototype.join` output (`null` renders empty). -/
def jsElemStr : Jval → String
  | .null => ""
  | v => jsToString v

/-- `Array.prototype.join(sep)` on an element list. -/
def joinElems (sep : String) : List Jval → String
  | [] => ""
  | [x] => jsElemStr x
  | x :: xs => jsElemStr x ++ sep ++ joinElems sep xs

/-- `v.join(sep)`: raises `TypeError` unless the receiver is an array. -/
def jsJoinV (v : Jval) (sep : String) : Except String String :=
  match v with
  | .arr xs => .ok (joinElems sep xs)
  | _ => .error "TypeError"

/-- `o.join(sep)` on a possibly-`undefined` receiver. -/
def jsJoinO (o : Option Jval) (sep : String) : Except String String :=
  match o with
  | some v => jsJoinV v sep
  | none => .error "TypeError"

/-- `SceneGenerator.generateImports`. -/
def generateImports : String :=
  "import * as THREE from 'three';\nimport \x7b OrbitControls \x7d from 'three/examples/jsm/controls/OrbitControls.js';"

/-- `SceneGenerator.generateSceneSetup`. -/
def generateSceneSetup (dsl : Jval) : Except String String := do
  let bg ← propAcc dsl "background"
  .ok ("// Create scene\nconst scene = new THREE.Scene();\nscene.background = new THREE.Color('"
    ++ jsToString (jsOr bg (.str "#000000")) ++ "');")

/-- `SceneGenerator.generateCamera`: destructures
`{position, lookAt, fov = 75}` from `dsl.camera`. -/
def generateCamera (dsl : Jval) : Except String String := do
  let cam ← propAcc dsl "camera"
  match cam with
  | none => .error "TypeError"
  | some c =>
      if isNull c then .error "TypeError"
      else
        let fov : Jval := (getProp? c "fov").getD (.num 75)
        let pj ← jsJoinO (getProp? c "position") ", "
        let lj ← jsJoinO (getProp? c "lookAt") ", "
        .ok ("// Create camera\nconst camera = new THREE.PerspectiveCamera(\n  "
          ++ jsToString fov
          ++ ",\n  window.innerWidth / window.innerHeight,\n  0.1,\n  1000\n);\ncamera.position.set("
          ++ pj ++ ");\ncamera.lookAt(" ++ lj ++ ");")

/-- `SceneGenerator.generateLight`: one block per light, switching on
`light.type` with per-variant position fallbacks. -/
def generateLight (light : Jval) (index : Nat) : Except String String := do
  let ty ← propAcc light "type"
  let varName := jsToStringU ty ++ "Light" ++ toString index
  match ty with
  | some (.str "ambient") =>
      .ok ("const " ++ varName ++ " = new THREE.AmbientLight('"
        ++ jsToStringU (getProp? light "color") ++ "', "
        ++ jsToStringU (getProp? light "intensity") ++ ");\nscene.add(" ++ varName ++ ");")
  | some (.str "directional") => do
      let pj ← jsJoinV (jsOr (getProp? light "position") (.arr [.num 5, .num 10, .num 7.5])) ", "
      .ok ("const " ++ varName ++ " = new THREE.DirectionalLight('"
        ++ jsToStringU (getProp? light "color") ++ "', "
        ++ jsToStringU (getProp? light "intensity") ++ ");\n"
        ++ varName ++ ".position.set(" ++ pj ++ ");\nscene.add(" ++ varName ++ ");")
  | some (.str "point") => do
      let pj ← jsJoinV (jsOr (getProp? light "position") (.arr [.num 0, .num 5, .num 0])) ", "
      .ok ("const " ++ varName ++ " = new THREE.PointLight('"
        ++ jsToStringU (getProp? light "color") ++ "', "
        ++ jsToStringU (getProp? light "intensity") ++ ");\n"
        ++ varName ++ ".position.set(" ++ pj ++ ");\nscene.add(" ++ varName ++ ");")
  | some (.str "spot") => do
      let pj ← jsJoinV (jsOr (getProp? light "position") (.arr [.num 0, .num 10, .num 0])) ", "
      .ok ("const " ++ varName ++ " = new THREE.SpotLight('"
        ++ jsToStringU (getProp? light "color") ++ "', "
        ++ jsToStringU (getProp? light "intensity") ++ ");\n"
        ++ varName ++ ".position.set(" ++ pj ++ ");\nscene.add(" ++ varName ++ ");")
  | _ => .ok ""

/-- `SceneGenerator.generateLights`: maps `generateLight` over
`dsl.lights` with 0-based indices and joins blocks by blank lines. -/
def generateLights (dsl : Jval) : Except String String := do
  match ← propAcc dsl "lights" with
  | some (.arr ls) => do
      let blocks ← mapME (fun p => generateLight p.2 p.1) ls.enum
      .ok ("// Add lights\n" ++ String.intercalate "\n\n" blocks)
  | _ => .error "TypeError"

/-- Whitespace for JavaScript string trimming. -/
def isWsChar (c : Char) : Bool :=
  c = ' ' || c = '\n' || c = '\t' || c = '\r'

/-- Decimal digit test. -/
def isDigitChar (c : Char) : Bool := '0' ≤ c && c ≤ '9'

/-- Split off a maximal run of leading decimal digits. -/
def digitsSpan : List Char → List Char × List Char
  | [] => ([], [])
  | c :: r =>
      if isDigitChar c then
        let p := digitsSpan r
        (c :: p.1, p.2)
      else ([], c :: r)

/-- Decimal value of a digit run. -/
def parseNatChars (l : List Char) : Nat :=
  l.foldl (fun a c => a * 10 + (c.toNat - 48)) 0

/-- JavaScript `Number(string)` for plain decimal forms (`none` is `NaN`). -/
def strToNumber (s : String) : Option Rat :=
  let l := ((s.data.dropWhile isWsChar).reverse.dropWhile isWsChar).reverse
  match l with
  | [] => some 0
  | _ =>
    let (neg, l1) : Bool × List Char :=
      match l with
      | '-' :: r => (true, r)
      | '+' :: r => (false, r)
      | _ => (false, l)
    let (ip, r1) := digitsSpan l1
    let sgn : Rat → Rat := fun q => if neg then -q else q
    match r1 with
    | [] => if ip = [] then none else some (sgn (parseNatChars ip))
    | '.' :: r2 =>
        let (fp, r3) := digitsSpan r2
        if r3 = [] && (ip ≠ [] || fp ≠ []) then
          some (sgn ((parseNatChars ip : Rat) + mkRat (parseNatChars fp) (10 ^ fp.length)))
        else none
    | _ => none

/-- JavaScript `Number(v)` coercion (`none` is `NaN`). -/
def jsToNumber : Jval → Option Rat
  | .null => some 0
  | .bool b => some (if b then 1 else 0)
  | .num q => some q
  | .str s => strToNumber s
  | .arr xs => strToNumber (jsArrString xs)
  | .obj _ => none

/-- String form of `v * c` under JavaScript numeric coercion. -/
def jsMulStr (v : Jval) (c : Rat) : String :=
  match jsToNumber v with
  | some x => numToString (x * c)
  | none => "NaN"

/-- A geometry parameter with its falsy-triggered default
(`obj.k || d`). -/
def geoNum (o : Jval) (k : String) (d : Rat) : Jval :=
  jsOr (getProp? o k) (.num d)

/-- `SceneGenerator.generateGeometry`: switches on `obj.type` with
per-variant parameter defaults and a unit-cube fallback. -/
def generateGeometry (o : Jval) : Except String String := do
  let ty ← propAcc o "type"
  match ty with
  | some (.str "cube") =>
      .ok ("new THREE.BoxGeometry(" ++ jsToString (geoNum o "width" 1) ++ ", "
        ++ jsToString (geoNum o "height" 1) ++ ", "
        ++ jsToString (geoNum o "depth" 1) ++ ")")
  | some (.str "sphere") =>
      .ok ("new THREE.SphereGeometry(" ++ jsToString (geoNum o "radius" 1) ++ ", "
        ++ jsToString (geoNum o "segments" 32) ++ ", "
        ++ jsToString (geoNum o "segments" 32) ++ ")")
  | some (.str "plane") =>
      .ok ("new THREE.PlaneGeometry(" ++ jsToString (geoNum o "width" 10) ++ ", "
        ++ jsToString (geoNum o "height" 10) ++ ")")
  | some (.str "cylinder") =>
      .ok ("new THREE.CylinderGeometry(" ++ jsToString (geoNum o "radius" 1) ++ ", "
        ++ jsToString (geoNum o "radius" 1) ++ ", "
        ++ jsToString (geoNum o "height" 2) ++ ", 32)")
  | some (.str "cone") =>
      .ok ("new THREE.ConeGeometry(" ++ jsToString (geoNum o "radius" 1) ++ ", "
        ++ jsToString (geoNum o "height" 2) ++ ", 32)")
  | some (.str "torus") =>
      .ok ("new THREE.TorusGeometry(" ++ jsToString (geoNum o "radius" 1) ++ ", "
        ++ jsMulStr (geoNum o "radius" 1) 0.4 ++ ", 16, 100)")
  | _ => .ok "new THREE.BoxGeometry(1, 1, 1)"

/-- `SceneGenerator.generateMaterial`: builds the parameter list
(`color` always; `metalness`/`roughness` when defined; `wireframe` when
truthy) and switches on `material.type` with a standard fallback. -/
def generateMaterial (o : Jval) : Except String String := do
  let mat ← propAcc o "material"
  match mat with
  | none => .error "TypeError"
  | some m =>
      if isNull m then .error "TypeError"
      else
        let params : List String :=
          ["color: '" ++ jsToStringU (getProp? m "color") ++ "'"]
          ++ (match getProp? m "metalness" with
              | some v => ["metalness: " ++ jsToString v]
              | none => [])
          ++ (match getProp? m "roughness" with
              | some v => ["roughness: " ++ jsToString v]
              | none => [])
          ++ (if truthyO (getProp? m "wireframe") then
                ["wireframe: " ++ jsToStringU (getProp? m "wireframe")]
              else [])
        let body := "\x7b " ++ String.intercalate ", " params ++ " \x7d"
        match getProp? m "type" with
        | some (.str "basic") => .ok ("new THREE.MeshBasicMaterial(" ++ body ++ ")")
        | some (.str "standard") => .ok ("new THREE.MeshStandardMaterial(" ++ body ++ ")")
        | some (.str "phong") => .ok ("new THREE.MeshPhongMaterial(" ++ body ++ ")")
        | some (.str "lambert") => .ok ("new THREE.MeshLambertMaterial(" ++ body ++ ")")
        | _ => .ok ("new THREE.MeshStandardMaterial(" ++ body ++ ")")

/-- `SceneGenerator.generateObject`: geometry, material and mesh
statements plus position/rotation/scale setters for `mesh{index}`. -/
def generateObject (o : Jval) (index : Nat) : Except String String := do
  let geometry ← generateGeometry o
  let material ← generateMaterial o
  let varName := "mesh" ++ toString index
  let pj ← jsJoinO (getProp? o "position") ", "
  let rj ← jsJoinV (jsOr (getProp? o "rotation") (.arr [.num 0, .num 0, .num 0])) ", "
  let sj ← jsJoinV (jsOr (getProp? o "scale") (.arr [.num 1, .num 1, .num 1])) ", "
  .ok ("const geometry" ++ toString index ++ " = " ++ geometry
    ++ ";\nconst material" ++ toString index ++ " = " ++ material
    ++ ";\nconst " ++ varName ++ " = new THREE.Mesh(geometry" ++ toString index
    ++ ", material" ++ toString index ++ ");\n"
    ++ varName ++ ".position.set(" ++ pj ++ ");\n"
    ++ varName ++ ".rotation.set(" ++ rj ++ ");\n"
    ++ varName ++ ".scale.set(" ++ sj ++ ");\nscene.add(" ++ varName ++ ");")

/-- `SceneGenerator.generateObjects`: maps `generateObject` over
`dsl.objects` with 0-based indices and joins blocks by blank lines. -/
def generateObjects (dsl : Jval) : Except String String := do
  match ← propAcc dsl "objects" with
  | some (.arr os) => do
      let blocks ← mapME (fun p => generateObject p.2 p.1) os.enum
      .ok ("// Add objects\n" ++ String.intercalate "\n\n" blocks)
  | _ => .error "TypeError"

/-- `SceneGenerator.generateRenderer` (static boilerplate). -/
def generateRenderer : String :=
  "// Create renderer\nconst renderer = new THREE.WebGLRenderer(\x7b antialias: true \x7d);\nrenderer.setSize(window.innerWidth, window.innerHeight);\nrenderer.setPixelRatio(window.devicePixelRatio);\ndocument.body.appendChild(renderer.domElement);\n\n// Add orbit controls\nconst controls = new OrbitControls(camera, renderer.domElement);\ncontrols.enableDamping = true;\ncontrols.dampingFactor = 0.05;\n\n// Handle window resize\nwindow.addEventListener('resize', () => \x7b\n  camera.aspect = window.innerWidth / window.innerHeight;\n  camera.updateProjectionMatrix();\n  renderer.setSize(window.innerWidth, window.innerHeight);\n\x7d);"

/-- `SceneGenerator.generateAnimateFunction` (static boilerplate). -/
def generateAnimateFunction : String :=
  "// Animation loop\nfunction animate() \x7b\n  requestAnimationFrame(animate);\n  controls.update();\n  renderer.render(scene, camera);\n\x7d\n\nanimate();"

/-- `SceneGenerator.generateScene`: the seven blocks joined by blank
lines in fixed order. -/
def generateScene (dsl : Jval) : Except String String := do
  let sceneSetup ← generateSceneSetup dsl
  let camera ← generateCamera dsl
  let lights ← generateLights dsl
  let objects ← generateObjects dsl
  .ok (generateImports ++ "\n\n" ++ sceneSetup ++ "\n\n" ++ camera ++ "\n\n"
    ++ lights ++ "\n\n" ++ objects ++ "\n\n" ++ generateRenderer ++ "\n\n"
    ++ generateAnimateFunction)

/-- The document text before the embedded module code in
`SceneGenerator.generateHTML`. -/
def htmlPrefix (title : String) : String :=
  "<!DOCTYPE html>\n<html lang=\"en\">\n<head>\n  <meta charset=\"UTF-8\">\n  <meta name=\"viewport\" content=\"width=device-width, initial-scale=1.0\">\n  <title>" ++ title ++ "</title>\n  <style>\n    body \x7b\n      margin: 0;\n      overflow: hidden;\n      font-family: Arial, sans-serif;\n    \x7d\n    #info \x7b\n      position: absolute;\n      top: 10px;\n      left: 10px;\n      color: white;\n      background: rgba(0, 0, 0, 0.7);\n      padding: 10px;\n      border-radius: 5px;\n      font-size: 14px;\n    \x7d\n  </style>\n</head>\n<body>\n  <div id=\"info\">\n    <strong>" ++ title ++ "</strong><br>\n    Left click + drag to rotate<br>\n    Right click + drag to pan<br>\n    Scroll to zoom\n  </div>\n  \n  <script type=\"importmap\">\n    \x7b\n      \"imports\": \x7b\n        \"three\": \"https://cdn.jsdelivr.net/npm/three@0.160.0/build/three.module.js\",\n        \"three/examples/jsm/controls/OrbitControls.js\": \"https://cdn.jsdelivr.net/npm/three@0.160.0/examples/jsm/controls/OrbitControls.js\"\n      \x7d\n    \x7d\n  </script>\n  \n  <script type=\"module\">\n"

/-- The document text after the embedded module code in
`SceneGenerator.generateHTML`. -/
def htmlSuffix : String :=
  "\n  </script>\n</body>\n</html>"

/-- `SceneGenerator.generateHTML`: the standalone document embedding
the generated scene code. -/
def generateHTML (dsl : Jval) (title : String) : Except String String := do
  let sceneCode ← generateScene dsl
  .ok (htmlPrefix title ++ sceneCode ++ htmlSuffix)

/-! ### Infrastructure: induction principle and assoc-list lemmas -/

/-- Nested induction principle for `Jval`. -/
theorem Jval.induct (P : Jval → Prop)
    (hnull : P .null) (hbool : ∀ b, P (.bool b)) (hnum : ∀ q, P (.num q))
    (hstr : ∀ s, P (.str s))
    (harr : ∀ xs, (∀ x ∈ xs, P x) → P (.arr xs))
    (hobj : ∀ kvs, (∀ p ∈ kvs, P p.2) → P (.obj kvs)) : ∀ v, P v := by
  have H : ∀ (n : Nat) (v : Jval), sizeOf v ≤ n → P v := by
    intro n
    induction n with
    | zero => intro v hv; cases v <;> simp at hv
    | succ n ih =>
        intro v hv
        cases v with
        | null => exact hnull
        | bool b => exact hbool b
        | num q => exact hnum q
        | str s => exact hstr s
        | arr xs =>
            refine harr xs (fun x hx => ih x ?_)
            have h1 := List.sizeOf_lt_of_mem hx
            simp only [Jval.arr.sizeOf_spec] at hv
            omega
        | obj kvs =>
            refine hobj kvs (fun p hp => ih p.2 ?_)
            have h1 := List.sizeOf_lt_of_mem hp
            have h2 : sizeOf p.2 < sizeOf p := by
              cases p with | mk a b => simp
            simp only [Jval.obj.sizeOf_spec] at hv
            omega
  exact fun v => H (sizeOf v) v le_rfl

theorem lookupKV_nil (k : String) : lookupKV k [] = none := rfl

theorem lookupKV_cons (k k' : String) (v : Jval) (rest : List (String × Jval)) :
    lookupKV k ((k', v) :: rest) = if k' = k then some v else lookupKV k rest := rfl

theorem lookupKV_append (k : String) (a b : List (String × Jval)) :
    lookupKV k (a ++ b) =
      match lookupKV k a with
      | some v => some v
      | none => lookupKV k b := by
  induction a with
  | nil => simp [lookupKV]
  | cons p rest ih =>
      cases p with | mk k' v =>
      by_cases h : k' = k <;> simp [lookupKV, h, ih]

theorem lookupKV_eq_none_of_not_mem (k : String) :
    ∀ (l : List (String × Jval)), (∀ p ∈ l, p.1 ≠ k) → lookupKV k l = none
  | [], _ => rfl
  | (k', v) :: rest, h => by
      have hk : k' ≠ k := h (k', v) (by simp)
      rw [lookupKV_cons, if_neg hk]
      exact lookupKV_eq_none_of_not_mem k rest (fun p hp => h p (by simp [hp]))

theorem hasKey_nil (k : String) : hasKey [] k = false := rfl

theorem hasKey_cons (p : String × Jval) (rest : List (String × Jval)) (k : String) :
    hasKey (p :: rest) k = ((p.1 = k : Bool) || hasKey rest k) := by
  simp [hasKey, List.any_cons]

theorem hasKey_eq_false_iff (l : List (String × Jval)) (k : String) :
    hasKey l k = false ↔ ∀ p ∈ l, p.1 ≠ k := by
  simp [hasKey, List.any_eq_true]

theorem lookupKV_eq_none_iff (k : String) :
    ∀ (l : List (String × Jval)), (lookupKV k l = none ↔ hasKey l k = false)
  | [] => by simp [lookupKV, hasKey]
  | (k', v) :: rest => by
      have ih := lookupKV_eq_none_iff k rest
      by_cases h : k' = k
      · simp [lookupKV, hasKey, h]
      · simpa [lookupKV, hasKey, h] using ih

theorem hasKey_append (a b : List (String × Jval)) (k : String) :
    hasKey (a ++ b) k = (hasKey a k || hasKey b k) := by
  simp [hasKey, List.any_append]

/-- Membership test in a list of keys. -/
def anyKey (ks : List String) (k : String) : Bool :=
  ks.any (fun s => s = k)

/-- No-duplicate check for a list of keys. -/
def nodupK : List String → Bool
  | [] => true
  | s :: r => !(anyKey r s) && nodupK r

/-- No-duplicate check for the keys of an ordered key-value list. -/
def nodupKeysB (l : List (String × Jval)) : Bool :=
  nodupK (l.map Prod.fst)

theorem hasKey_eq_anyKey (l : List (String × Jval)) (k : String) :
    hasKey l k = anyKey (l.map Prod.fst) k := by
  induction l with
  | nil => rfl
  | cons p rest ih =>
      cases p with | mk k' v =>
      simp only [hasKey, anyKey, List.any_cons, List.map_cons] at *
      rw [ih]

theorem nodupKeysB_cons (p : String × Jval) (rest : List (String × Jval)) :
    nodupKeysB (p :: rest) = (!hasKey rest p.1 && nodupKeysB rest) := by
  simp only [nodupKeysB, List.map_cons, nodupK, hasKey_eq_anyKey]

theorem lookupKV_map_update (k' k : String) (v : Jval) :
    ∀ (l : List (String × Jval)),
      lookupKV k (l.map (fun p => if p.1 = k' then (k', v) else p)) =
        if k' = k then (if hasKey l k' then some v else none) else lookupKV k l
  | [] => by by_cases h : k' = k <;> simp [lookupKV, hasKey, h]
  | (a, b) :: rest => by
      have ih := lookupKV_map_update k' k v rest
      by_cases h2 : a = k' <;> by_cases h3 : a = k
      · subst h2; subst h3
        rw [List.map_cons, if_pos (show ((a, b) : String × Jval).1 = a from rfl),
          lookupKV_cons, if_pos rfl, if_pos rfl, hasKey_cons]
        simp
      · subst h2
        rw [List.map_cons, if_pos (show ((a, b) : String × Jval).1 = a from rfl),
          lookupKV_cons, if_neg h3, ih, if_neg h3, if_neg h3,
          lookupKV_cons, if_neg h3]
      · subst h3
        have hne : k' ≠ a := fun hh => h2 hh.symm
        rw [List.map_cons, if_neg (show ¬ ((a, b) : String × Jval).1 = k' from h2),
          lookupKV_cons, if_pos rfl, if_neg hne, lookupKV_cons, if_pos rfl]
      · rw [List.map_cons, if_neg (show ¬ ((a, b) : String × Jval).1 = k' from h2),
          lookupKV_cons, if_neg h3, ih]
        by_cases hkk : k' = k
        · rw [if_pos hkk, if_pos hkk, hasKey_cons]
          simp [h2]
        · rw [if_neg hkk, if_neg hkk, lookupKV_cons, if_neg h3]

theorem lookupKV_insertKV (l : List (String × Jval)) (k' k : String) (v : Jval) :
    lookupKV k (insertKV l k' v) = if k' = k then some v else lookupKV k l := by
  by_cases h : hasKey l k' = true
  · unfold insertKV
    rw [if_pos h, lookupKV_map_update]
    by_cases hk : k' = k
    · rw [if_pos hk, if_pos hk, if_pos h]
    · rw [if_neg hk, if_neg hk]
  · have h' : hasKey l k' = false := by simpa using h
    unfold insertKV
    rw [if_neg h, lookupKV_append]
    by_cases hk : k' = k
    · subst hk
      have h0 : lookupKV k' l = none := (lookupKV_eq_none_iff k' l).mpr h'
      simp [h0, lookupKV]
    · cases hl : lookupKV k l <;> simp [hl, lookupKV, hk]

theorem keys_map_update (k : String) (v : Jval) (l : List (String × Jval)) :
    (l.map (fun p => if p.1 = k then (k, v) else p)).map Prod.fst = l.map Prod.fst := by
  induction l with
  | nil => rfl
  | cons p rest ih =>
      cases p with | mk a b =>
      by_cases h : a = k
      · subst h; simp [ih]
      · simp [h, ih]

theorem keys_insertKV (l : List (String × Jval)) (k : String) (v : Jval) :
    (insertKV l k v).map Prod.fst =
      if hasKey l k then l.map Prod.fst else l.map Prod.fst ++ [k] := by
  by_cases h : hasKey l k = true
  · unfold insertKV
    rw [if_pos h, if_pos h, keys_map_update]
  · unfold insertKV
    rw [if_neg h, if_neg h]
    simp

theorem insertKV_cons_ne (p : String × Jval) (l : List (String × Jval))
    (k : String) (v : Jval) (h : p.1 ≠ k) :
    insertKV (p :: l) k v = p :: insertKV l k v := by
  unfold insertKV
  rw [hasKey_cons]
  cases p with | mk a b =>
  simp only at h
  cases hl : hasKey l k with
  | true => simp [h]
  | false => simp [h]

theorem map_update_id (l : List (String × Jval)) (k : String) (v : Jval)
    (h : hasKey l k = false) :
    l.map (fun p => if p.1 = k then (k, v) else p) = l := by
  have hne := (hasKey_eq_false_iff l k).mp h
  induction l with
  | nil => rfl
  | cons p rest ih =>
      cases p with | mk a b =>
      have ha : a ≠ k := hne (a, b) (by simp)
      simp only [List.map_cons, ha, if_false]
      rw [ih ?h1 ?h2]
      case h1 => simpa [hasKey, List.any_cons, ha] using h
      case h2 => exact fun p hp => hne p (by simp [hp])

theorem insertKV_head (k : String) (w v : Jval) (l : List (String × Jval))
    (h : hasKey l k = false) :
    insertKV ((k, w) :: l) k v = (k, v) :: l := by
  unfold insertKV
  rw [hasKey_cons]
  simp [map_update_id l k v h]

theorem insertKV_fresh (l : List (String × Jval)) (k : String) (v : Jval)
    (h : hasKey l k = false) : insertKV l k v = l ++ [(k, v)] := by
  simp [insertKV, h]

theorem insertKV_self (l : List (String × Jval)) (k : String) (v : Jval)
    (hmem : hasKey l k = true) (hval : ∀ p ∈ l, p.1 = k → p.2 = v) :
    insertKV l k v = l := by
  unfold insertKV
  rw [if_pos hmem]
  have : ∀ p ∈ l, (if p.1 = k then (k, v) else p) = p := by
    intro p hp
    by_cases h : p.1 = k
    · obtain ⟨a, b⟩ := p
      simp only at h
      subst h
      have hb := hval (a, b) hp rfl
      simp only at hb
      simp [hb]
    · simp [h]
  exact (List.map_congr_left this).trans (List.map_id l)

theorem insertKV_val_at_key (l : List (String × Jval)) (k : String) (v : Jval) :
    ∀ p ∈ insertKV l k v, p.1 = k → p.2 = v := by
  intro p hp hk
  unfold insertKV at hp
  by_cases h : hasKey l k = true
  · rw [if_pos h] at hp
    obtain ⟨q, hq, hqe⟩ := List.mem_map.mp hp
    by_cases hq1 : q.1 = k
    · rw [if_pos hq1] at hqe
      rw [← hqe]
    · rw [if_neg hq1] at hqe
      exact absurd (hqe ▸ hk) hq1
  · rw [if_neg h] at hp
    rcases List.mem_append.mp hp with h1 | h1
    · have := (hasKey_eq_false_iff l k).mp (by simpa using h) p h1
      exact absurd hk this
    · simp at h1
      simp [h1]

theorem insertKV_val_preserve (l : List (String × Jval)) (k k' : String)
    (v v' : Jval) (hne : k' ≠ k) (h : ∀ p ∈ l, p.1 = k → p.2 = v) :
    ∀ p ∈ insertKV l k' v', p.1 = k → p.2 = v := by
  intro p hp hk
  unfold insertKV at hp
  by_cases hh : hasKey l k' = true
  · rw [if_pos hh] at hp
    obtain ⟨q, hq, hqe⟩ := List.mem_map.mp hp
    by_cases hq1 : q.1 = k'
    · rw [if_pos hq1] at hqe
      rw [← hqe] at hk
      exact absurd hk hne
    · rw [if_neg hq1] at hqe
      exact h p (hqe ▸ hq) hk
  · rw [if_neg hh] at hp
    rcases List.mem_append.mp hp with h1 | h1
    · exact h p h1 hk
    · simp at h1
      subst h1
      exact absurd hk hne

theorem hasKey_insertKV_self (l : List (String × Jval)) (k : String) (v : Jval) :
    hasKey (insertKV l k v) k = true := by
  rw [hasKey_eq_anyKey, keys_insertKV]
  by_cases h : hasKey l k = true
  · rw [if_pos h]
    rw [hasKey_eq_anyKey] at h
    exact h
  · rw [if_neg h]
    simp [anyKey, List.any_append]

theorem hasKey_insertKV_preserve (l : List (String × Jval)) (k k' : String)
    (v : Jval) (h : hasKey l k' = true) :
    hasKey (insertKV l k v) k' = true := by
  rw [hasKey_eq_anyKey, keys_insertKV]
  rw [hasKey_eq_anyKey] at h
  by_cases hh : hasKey l k = true
  · rw [if_pos hh]; exact h
  · rw [if_neg hh]
    simp only [anyKey, List.any_append] at *
    simp [h]

theorem anyKey_append (a b : List String) (k : String) :
    anyKey (a ++ b) k = (anyKey a k || anyKey b k) := by
  simp [anyKey, List.any_append]

theorem nodupK_append_singleton (l : List String) (k : String)
    (h : nodupK l = true) (hk : anyKey l k = false) :
    nodupK (l ++ [k]) = true := by
  induction l with
  | nil => simp [nodupK, anyKey]
  | cons s r ih =>
      simp only [nodupK, Bool.and_eq_true, Bool.not_eq_true'] at h
      rw [anyKey, List.any_cons] at hk
      simp only [Bool.or_eq_false_iff, decide_eq_false_iff_not] at hk
      simp only [List.cons_append, nodupK, Bool.and_eq_true, Bool.not_eq_true']
      constructor
      · show anyKey (r ++ [k]) s = false
        rw [anyKey_append]
        simp only [Bool.or_eq_false_iff]
        refine ⟨h.1, ?_⟩
        simp only [anyKey, List.any_cons, List.any_nil, Bool.or_false,
          decide_eq_false_iff_not]
        exact fun hh => hk.1 hh.symm
      · show nodupK (r ++ [k]) = true
        exact ih h.2 hk.2

theorem nodupKeysB_insertKV (l : List (String × Jval)) (k : String) (v : Jval)
    (h : nodupKeysB l = true) : nodupKeysB (insertKV l k v) = true := by
  unfold nodupKeysB at *
  rw [keys_insertKV]
  by_cases hh : hasKey l k = true
  · rw [if_pos hh]; exact h
  · rw [if_neg hh]
    have hk : anyKey (l.map Prod.fst) k = false := by
      rw [← hasKey_eq_anyKey]
      simpa using hh
    exact nodupK_append_singleton _ k h hk

theorem nodupKeysB_assigns (base : List (String × Jval))
    (h : nodupKeysB base = true) :
    ∀ l, nodupKeysB (assigns base l) = true := by
  intro l
  induction l generalizing base with
  | nil => exact h
  | cons p rest ih =>
      exact ih (insertKV base p.1 p.2) (nodupKeysB_insertKV base p.1 p.2 h)

theorem assigns_nil (base : List (String × Jval)) : assigns base [] = base := rfl

theorem assigns_cons_unfold (base : List (String × Jval)) (p : String × Jval)
    (l : List (String × Jval)) :
    assigns base (p :: l) = assigns (insertKV base p.1 p.2) l := rfl

theorem assigns_disjoint (l : List (String × Jval)) :
    ∀ (acc : List (String × Jval)), nodupKeysB l = true →
      (∀ p ∈ l, hasKey acc p.1 = false) → assigns acc l = acc ++ l := by
  induction l with
  | nil => intro acc _ _; simp [assigns_nil]
  | cons p rest ih =>
      intro acc hnd hdisj
      rw [assigns_cons_unfold,
        insertKV_fresh acc p.1 p.2 (hdisj p (by simp))]
      rw [nodupKeysB_cons] at hnd
      simp only [Bool.and_eq_true, Bool.not_eq_true'] at hnd
      have step := ih (acc ++ [(p.1, p.2)]) hnd.2 ?_
      · obtain ⟨a, b⟩ := p
        simpa [List.append_assoc] using step
      · intro q hq
        rw [hasKey_append]
        have h1 : hasKey acc q.1 = false := hdisj q (by simp [hq])
        have h2 : q.1 ≠ p.1 := by
          intro hh
          have := (hasKey_eq_false_iff rest p.1).mp hnd.1 q hq
          exact this hh
        rw [h1]
        simp only [Bool.false_or]
        rw [hasKey_cons]
        simp only [hasKey_nil, Bool.or_false, decide_eq_false_iff_not]
        exact fun hh => h2 hh.symm

theorem assigns_cons_head (p : String × Jval) (base l : List (String × Jval))
    (h : ∀ q ∈ l, q.1 ≠ p.1) :
    assigns (p :: base) l = p :: assigns base l := by
  induction l generalizing base with
  | nil => simp [assigns_nil]
  | cons q rest ih =>
      rw [assigns_cons_unfold, insertKV_cons_ne p base q.1 q.2 ?hne,
        assigns_cons_unfold]
      case hne =>
        intro hh
        exact h q (by simp) (hh.symm ▸ rfl)
      exact ih (insertKV base q.1 q.2) (fun r hr => h r (by simp [hr]))

theorem assigns_self : ∀ (base L : List (String × Jval)),
    nodupKeysB L = true → nodupKeysB base = true →
    (L.map Prod.fst).take base.length = base.map Prod.fst →
    assigns base L = L := by
  intro base
  induction base with
  | nil =>
      intro L hL _ _
      rw [show assigns [] L = assigns [] L from rfl]
      have := assigns_disjoint L [] hL (fun p _ => rfl)
      simpa using this
  | cons b base' ih =>
      intro L hL hbase hpre
      cases L with
      | nil => simp at hpre
      | cons p L' =>
          obtain ⟨bk, bv⟩ := b
          obtain ⟨pk, pv⟩ := p
          simp only [List.map_cons, List.length_cons, List.take_succ_cons,
            List.cons.injEq] at hpre
          have hkeq : pk = bk := hpre.1
          subst hkeq
          rw [nodupKeysB_cons] at hL hbase
          simp only [Bool.and_eq_true, Bool.not_eq_true'] at hL hbase
          rw [assigns_cons_unfold]
          rw [show ((pk, pv) : String × Jval).1 = pk from rfl,
            show ((pk, pv) : String × Jval).2 = pv from rfl]
          rw [insertKV_head pk bv pv base' (by simpa using hbase.1)]
          rw [assigns_cons_head (pk, pv) base' L' ?hdisj]
          case hdisj =>
            intro q hq hh
            have := (hasKey_eq_false_iff L' pk).mp (by simpa using hL.1) q hq
            exact this hh
          rw [ih L' hL.2 hbase.2 hpre.2]

theorem keys_assigns_extend : ∀ (l base : List (String × Jval)),
    ((assigns base l).map Prod.fst).take base.length = base.map Prod.fst ∧
      base.length ≤ (assigns base l).length := by
  intro l
  induction l with
  | nil =>
      intro base
      constructor
      · rw [assigns_nil]
        have hl : (base.map Prod.fst).length = base.length := by simp
        rw [← hl, List.take_length]
      · rw [assigns_nil]
  | cons p rest ih =>
      intro base
      rw [assigns_cons_unfold]
      have h2 := ih (insertKV base p.1 p.2)
      have hk := keys_insertKV base p.1 p.2
      by_cases hh : hasKey base p.1 = true
      · rw [if_pos hh] at hk
        have hlen : (insertKV base p.1 p.2).length = base.length := by
          have := congrArg List.length hk
          simpa using this
        rw [hlen, hk] at h2
        exact h2
      · rw [if_neg hh] at hk
        have hlen : (insertKV base p.1 p.2).length = base.length + 1 := by
          have := congrArg List.length hk
          simpa using this
        rw [hlen, hk] at h2
        constructor
        · have e1 : (((assigns (insertKV base p.1 p.2) rest).map Prod.fst).take
              (base.length + 1)).take base.length
              = ((assigns (insertKV base p.1 p.2) rest).map Prod.fst).take base.length := by
            rw [List.take_take]
            congr 1
            omega
          rw [← e1, h2.1]
          have hl : (base.map Prod.fst).length = base.length := by simp
          rw [← hl, List.take_left]
        · have := h2.2
          omega

theorem lookupKV_assigns : ∀ (l base : List (String × Jval)) (k : String),
    lookupKV k (assigns base l) =
      match lookupKV k l.reverse with
      | some v => some v
      | none => lookupKV k base := by
  intro l
  induction l with
  | nil => intro base k; simp [assigns_nil, lookupKV]
  | cons p rest ih =>
      intro base k
      rw [assigns_cons_unfold, ih]
      rw [List.reverse_cons, lookupKV_append]
      cases hr : lookupKV k rest.reverse with
      | some v => rfl
      | none =>
          simp only
          rw [lookupKV_insertKV]
          obtain ⟨pk, pv⟩ := p
          rw [lookupKV_cons, lookupKV_nil]
          by_cases h : pk = k
          · rw [if_pos h, if_pos h]
          · rw [if_neg h, if_neg h]

theorem lookupKV_reverse_nodup : ∀ (l : List (String × Jval)),
    nodupKeysB l = true → ∀ k, lookupKV k l.reverse = lookupKV k l := by
  intro l
  induction l with
  | nil => intro _ k; rfl
  | cons p rest ih =>
      intro hnd k
      rw [nodupKeysB_cons] at hnd
      simp only [Bool.and_eq_true, Bool.not_eq_true'] at hnd
      rw [List.reverse_cons, lookupKV_append]
      obtain ⟨pk, pv⟩ := p
      rw [lookupKV_cons]
      by_cases h : pk = k
      · subst h
        have h0 : lookupKV pk rest = none :=
          (lookupKV_eq_none_iff pk rest).mpr (by simpa using hnd.1)
        rw [ih hnd.2, h0, if_pos rfl]
        simp [lookupKV]
      · rw [ih hnd.2]
        cases hr : lookupKV k rest with
        | some v => simp [lookupKV, h, hr]
        | none => simp [lookupKV, h, hr]

theorem assigns_assigns_self (base X : List (String × Jval))
    (h : nodupKeysB base = true) :
    assigns base (assigns base X) = assigns base X :=
  assigns_self base _ (nodupKeysB_assigns base h X) h ((keys_assigns_extend X base).1)

theorem keys_take_insertKV (A : List (String × Jval)) (k : String) (v : Jval)
    (n : Nat) (hn : n ≤ A.length) :
    ((insertKV A k v).map Prod.fst).take n = (A.map Prod.fst).take n := by
  rw [keys_insertKV]
  by_cases h : hasKey A k = true
  · rw [if_pos h]
  · rw [if_neg h]
    rw [List.take_append_of_le_length (by simpa using hn)]

theorem jsOr_truthy (a : Option Jval) (d : Jval) (hd : truthy d = true) :
    truthy (jsOr a d) = true := by
  cases a with
  | none => exact hd
  | some v =>
      show truthy (if truthy v = true then v else d) = true
      by_cases h : truthy v = true
      · rw [if_pos h]; exact h
      · rw [if_neg h]; exact hd

/-- The output of `normObj` is a fixed point of `normObj`. -/
theorem normObj_fixpoint (o o' : Jval) (h : normObj o = .ok o') :
    normObj o' = .ok o' := by
  unfold normObj at h
  by_cases hn : isNull o = true
  · rw [if_pos hn] at h
    exact absurd h (by simp)
  · rw [if_neg hn] at h
    have ho' : o' = .obj (insertKV
        (assigns rotScaleDefaults (objSpread o))
        "material"
        (.obj (assigns matDefaults (objSpreadO (getProp? o "material"))))) := by
      cases h
      rfl
    set A := assigns rotScaleDefaults (objSpread o) with hA
    set M : Jval := .obj (assigns matDefaults (objSpreadO (getProp? o "material"))) with hM
    have hndRS : nodupKeysB rotScaleDefaults = true := by decide
    have hndMD : nodupKeysB matDefaults = true := by decide
    have hndA : nodupKeysB A = true := nodupKeysB_assigns _ hndRS _
    have hndP : nodupKeysB (insertKV A "material" M) = true :=
      nodupKeysB_insertKV _ _ _ hndA
    unfold normObj
    rw [if_neg (by rw [ho']; simp [isNull])]
    rw [ho']
    congr 1
    congr 1
    have hmat : getProp? (Jval.obj (insertKV A "material" M)) "material" = some M := by
      show lookupKV "material" (insertKV A "material" M) = some M
      rw [lookupKV_insertKV, if_pos rfl]
    rw [hmat]
    have hQ : objSpreadO (some M) = assigns matDefaults (objSpreadO (getProp? o "material")) := by
      rw [hM]
      rfl
    rw [hQ]
    rw [assigns_assigns_self _ _ hndMD]
    have hspread : objSpread (Jval.obj (insertKV A "material" M)) = insertKV A "material" M := rfl
    rw [hspread]
    have htake : ((insertKV A "material" M).map Prod.fst).take rotScaleDefaults.length
        = (A.map Prod.fst).take rotScaleDefaults.length := by
      apply keys_take_insertKV
      exact (keys_assigns_extend (objSpread o) rotScaleDefaults).2
    have hAtake : ((insertKV A "material" M).map Prod.fst).take rotScaleDefaults.length
        = rotScaleDefaults.map Prod.fst := by
      rw [htake, hA]
      exact (keys_assigns_extend (objSpread o) rotScaleDefaults).1
    rw [assigns_self rotScaleDefaults _ hndP hndRS hAtake]
    apply insertKV_self
    · exact hasKey_insertKV_self _ _ _
    · exact insertKV_val_at_key _ _ _

theorem mapME_cons {A B : Type} (f : A → Except String B) (x : A) (xs : List A) :
    mapME f (x :: xs) = (f x).bind (fun y =>
      (mapME f xs).bind (fun ys => .ok (y :: ys))) := rfl

theorem mapME_normObj_fixpoint : ∀ (xs objs : List Jval),
    mapME normObj xs = .ok objs → mapME normObj objs = .ok objs := by
  intro xs
  induction xs with
  | nil =>
      intro objs h
      cases h
      rfl
  | cons x rest ih =>
      intro objs h
      rw [mapME_cons] at h
      cases hx : normObj x with
      | error e => rw [hx] at h; exact absurd h (by simp [Except.bind])
      | ok y =>
          rw [hx] at h
          cases hrest : mapME normObj rest with
          | error e =>
              rw [hrest] at h
              exact absurd h (by simp [Except.bind])
          | ok ys =>
              rw [hrest] at h
              simp only [Except.bind] at h
              injection h with h2
              subst h2
              rw [mapME_cons, normObj_fixpoint x y hx, ih ys hrest]
              rfl

theorem normalizeDSL_eq (v : Jval) (hn : isNull v = false) (xs : List Jval)
    (hobjs : getProp? v "objects" = some (.arr xs)) :
    normalizeDSL v = (mapME normObj xs).bind (fun objs =>
      .ok (.obj (insertKV (insertKV (insertKV (objSpread v)
        "camera" (.obj (assigns fovDefault (objSpreadO (getProp? v "camera")))))
        "background" (jsOr (getProp? v "background") (.str "#000000")))
        "objects" (.arr objs)))) := by
  unfold normalizeDSL
  rw [if_neg (by simp [hn]), hobjs]
  rfl

theorem normalizeDSL_eq_err (v : Jval) (hn : isNull v = false)
    (hobjs : ∀ xs, getProp? v "objects" ≠ some (.arr xs)) :
    normalizeDSL v = .error "TypeError" := by
  unfold normalizeDSL
  rw [if_neg (by simp [hn])]
  cases hov : getProp? v "objects" with
  | none => rfl
  | some ov =>
      cases ov with
      | arr xs => exact absurd hov (hobjs xs)
      | null => rfl
      | bool b => rfl
      | num q => rfl
      | str s => rfl
      | obj kvs => rfl

/-- The output of `normalizeDSL` is a fixed point of `normalizeDSL`. -/
theorem normalizeDSL_fixpoint (v D : Jval) (h : normalizeDSL v = .ok D) :
    normalizeDSL D = .ok D := by
  by_cases hn : isNull v = true
  · unfold normalizeDSL at h
    rw [if_pos hn] at h
    exact absurd h (by simp)
  · have hn' : isNull v = false := by simpa using hn
    cases hov : getProp? v "objects" with
    | none =>
        rw [normalizeDSL_eq_err v hn' (by simp [hov])] at h
        exact absurd h (by simp)
    | some ov =>
        cases ov with
        | null =>
            rw [normalizeDSL_eq_err v hn' (by simp [hov])] at h
            exact absurd h (by simp)
        | bool b =>
            rw [normalizeDSL_eq_err v hn' (by simp [hov])] at h
            exact absurd h (by simp)
        | num q =>
            rw [normalizeDSL_eq_err v hn' (by simp [hov])] at h
            exact absurd h (by simp)
        | str s =>
            rw [normalizeDSL_eq_err v hn' (by simp [hov])] at h
            exact absurd h (by simp)
        | obj kvs =>
            rw [normalizeDSL_eq_err v hn' (by simp [hov])] at h
            exact absurd h (by simp)
        | arr xs =>
            rw [normalizeDSL_eq v hn' xs hov] at h
            cases hm : mapME normObj xs with
            | error e =>
                rw [hm] at h
                exact absurd h (by simp [Except.bind])
            | ok objs =>
                rw [hm] at h
                simp only [Except.bind] at h
                set C : Jval :=
                  .obj (assigns fovDefault (objSpreadO (getProp? v "camera"))) with hC
                set B : Jval := jsOr (getProp? v "background") (.str "#000000") with hB
                set T : List (String × Jval) :=
                  insertKV (insertKV (insertKV (objSpread v)
                    "camera" C) "background" B) "objects" (.arr objs) with hT
                have hD : D = .obj T := by
                  injection h with h2
                  exact h2.symm
                subst hD
                have hBt : truthy B = true :=
                  jsOr_truthy _ _ (by decide)
                have hCamT : lookupKV "camera" T = some C := by
                  rw [hT, lookupKV_insertKV, if_neg (by decide),
                    lookupKV_insertKV, if_neg (by decide),
                    lookupKV_insertKV, if_pos rfl]
                have hBgT : lookupKV "background" T = some B := by
                  rw [hT, lookupKV_insertKV, if_neg (by decide),
                    lookupKV_insertKV, if_pos rfl]
                have hObjsT : lookupKV "objects" T = some (.arr objs) := by
                  rw [hT, lookupKV_insertKV, if_pos rfl]
                rw [normalizeDSL_eq (.obj T) (by simp [isNull]) objs hObjsT,
                  mapME_normObj_fixpoint xs objs hm]
                simp only [Except.bind]
                show Except.ok (Jval.obj (insertKV (insertKV (insertKV T
                  "camera" (.obj (assigns fovDefault (objSpreadO (lookupKV "camera" T)))))
                  "background" (jsOr (lookupKV "background" T) (.str "#000000")))
                  "objects" (.arr objs))) = .ok (.obj T)
                rw [hCamT, hBgT]
                have hC' : Jval.obj (assigns fovDefault (objSpreadO (some C))) = C := by
                  rw [hC]
                  show Jval.obj (assigns fovDefault
                    (assigns fovDefault (objSpreadO (getProp? v "camera")))) = _
                  rw [assigns_assigns_self _ _ (by decide)]
                have hB' : jsOr (some B) (.str "#000000") = B := by
                  show (if truthy B = true then B else (.str "#000000")) = B
                  rw [if_pos hBt]
                rw [hC', hB']
                have hKeyCam : hasKey T "camera" = true := by
                  rw [hT]
                  apply hasKey_insertKV_preserve
                  apply hasKey_insertKV_preserve
                  exact hasKey_insertKV_self _ _ _
                have hValCam : ∀ p ∈ T, p.1 = "camera" → p.2 = C := by
                  rw [hT]
                  apply insertKV_val_preserve _ _ _ _ _ (by decide)
                  apply insertKV_val_preserve _ _ _ _ _ (by decide)
                  exact insertKV_val_at_key _ _ _
                have hKeyBg : hasKey T "background" = true := by
                  rw [hT]
                  apply hasKey_insertKV_preserve
                  exact hasKey_insertKV_self _ _ _
                have hValBg : ∀ p ∈ T, p.1 = "background" → p.2 = B := by
                  rw [hT]
                  apply insertKV_val_preserve _ _ _ _ _ (by decide)
                  exact insertKV_val_at_key _ _ _
                rw [insertKV_self T "camera" C hKeyCam hValCam,
                  insertKV_self T "background" B hKeyBg hValBg,
                  insertKV_self T "objects" (.arr objs)
                    (hasKey_insertKV_self _ _ _)
                    (by rw [hT]; exact insertKV_val_at_key _ _ _)]

/-! ### Claim theorems -/

/-- C3: for every validator-accepted description `v`, normalization is
idempotent: running `normalizeDSL` on the result of `normalizeDSL v`
(propagating exceptions) gives the same result as `normalizeDSL v`. -/
theorem c3_normalize_idempotent (v : Jval) (_hval : validateDSL v = true) :
    (normalizeDSL v).bind normalizeDSL = normalizeDSL v := by
  cases h : normalizeDSL v with
  | error e => rfl
  | ok D =>
      simp only [Except.bind]
      exact normalizeDSL_fixpoint v D h

/-- A small validator-accepted scene description used as a concrete
witness input. -/
def witnessDSL : Jval :=
  .obj [("camera", .obj [("position", .arr [.num 0, .num 5, .num 10]),
                         ("lookAt", .arr [.num 0, .num 0, .num 0])]),
        ("lights", .arr [.obj [("type", .str "ambient"), ("color", .str "#ffffff"),
                               ("intensity", .num 0.5)]]),
        ("objects", .arr [.obj [("type", .str "cube"),
                                ("position", .arr [.num 0, .num 0, .num 0]),
                                ("material", .obj [("type", .str "basic"),
                                                   ("color", .str "#ff0000")])]])]

theorem c3_witness :
    validateDSL witnessDSL = true ∧
      (normalizeDSL witnessDSL).bind normalizeDSL = normalizeDSL witnessDSL :=
  ⟨by with_unfolding_all rfl,
   c3_normalize_idempotent witnessDSL (by with_unfolding_all rfl)⟩

/-- The acceptance condition exactly as the specification words it: the
candidate is an object possessing `camera` (whose `position` and `lookAt`
are array-typed), an array-typed `lights`, and an array-typed `objects`;
element validity is never examined. -/
def specAccepts (v : Jval) : Bool :=
  match v with
  | .obj kvs =>
      match lookupKV "camera" kvs with
      | some cam =>
          isArrO (getProp? cam "position") && isArrO (getProp? cam "lookAt")
            && isArrO (lookupKV "lights" kvs) && isArrO (lookupKV "objects" kvs)
      | none => false
  | _ => false

theorem getProp?_obj (kvs : List (String × Jval)) (k : String) :
    getProp? (.obj kvs) k = lookupKV k kvs := rfl

theorem getPropO_some (v : Jval) (k : String) :
    getPropO (some v) k = getProp? v k := rfl

theorem truthyO_some (v : Jval) : truthyO (some v) = truthy v := rfl

theorem validateDSL_eq_specAccepts (v : Jval) : validateDSL v = specAccepts v := by
  cases v with
  | null => rfl
  | bool b => cases b <;> rfl
  | num q =>
      unfold validateDSL specAccepts
      simp [typeofObject]
  | str s =>
      unfold validateDSL specAccepts
      simp [typeofObject]
  | arr xs =>
      unfold validateDSL specAccepts
      simp [truthy, typeofObject, getProp?, truthyO]
  | obj kvs =>
      unfold validateDSL specAccepts
      simp only [truthy, typeofObject, Bool.not_true, Bool.false_or,
        Bool.or_self, if_false, getProp?_obj]
      cases hcam : lookupKV "camera" kvs with
      | none => simp [truthyO]
      | some cam =>
          simp only [truthyO_some, getPropO_some]
          by_cases ht : truthy cam = true
          · simp only [ht, Bool.not_true, Bool.false_or]
            by_cases h1 : isArrO (getProp? cam "position") = true <;>
              by_cases h2 : isArrO (getProp? cam "lookAt") = true <;>
                by_cases h3 : isArrO (lookupKV "lights" kvs) = true <;>
                  by_cases h4 : isArrO (lookupKV "objects" kvs) = true <;>
                    simp [h1, h2, h3, h4]
          · have hp : getProp? cam "position" = none := by
              cases cam <;> first | rfl | (simp [truthy] at ht)
            have ht' : truthy cam = false := by simpa using ht
            simp [hp, ht', isArrO]

theorem propAcc_nonnull (v : Jval) (k : String) (hn : isNull v = false) :
    propAcc v k = .ok (getProp? v k) := by
  simp [propAcc, hn]

theorem generateGeometry_eq (o : Jval) (hn : isNull o = false) :
    generateGeometry o =
      match getProp? o "type" with
      | some (.str "cube") =>
          .ok ("new THREE.BoxGeometry(" ++ jsToString (geoNum o "width" 1) ++ ", "
            ++ jsToString (geoNum o "height" 1) ++ ", "
            ++ jsToString (geoNum o "depth" 1) ++ ")")
      | some (.str "sphere") =>
          .ok ("new THREE.SphereGeometry(" ++ jsToString (geoNum o "radius" 1) ++ ", "
            ++ jsToString (geoNum o "segments" 32) ++ ", "
            ++ jsToString (geoNum o "segments" 32) ++ ")")
      | some (.str "plane") =>
          .ok ("new THREE.PlaneGeometry(" ++ jsToString (geoNum o "width" 10) ++ ", "
            ++ jsToString (geoNum o "height" 10) ++ ")")
      | some (.str "cylinder") =>
          .ok ("new THREE.CylinderGeometry(" ++ jsToString (geoNum o "radius" 1) ++ ", "
            ++ jsToString (geoNum o "radius" 1) ++ ", "
            ++ jsToString (geoNum o "height" 2) ++ ", 32)")
      | some (.str "cone") =>
          .ok ("new THREE.ConeGeometry(" ++ jsToString (geoNum o "radius" 1) ++ ", "
            ++ jsToString (geoNum o "height" 2) ++ ", 32)")
      | some (.str "torus") =>
          .ok ("new THREE.TorusGeometry(" ++ jsToString (geoNum o "radius" 1) ++ ", "
            ++ jsMulStr (geoNum o "radius" 1) 0.4 ++ ", 16, 100)")
      | _ => .ok "new THREE.BoxGeometry(1, 1, 1)" := by
  unfold generateGeometry
  rw [propAcc_nonnull o "type" hn]
  rfl

/-- The recognized object geometry type tags. -/
def geomTypes : List String := ["cube", "sphere", "plane", "cylinder", "cone", "torus"]

/-- The recognized light type tags. -/
def lightTypes : List String := ["ambient", "directional", "point", "spot"]

/-- Is the (possibly-`undefined`) type field one of the given tags? -/
def typeIn (ts : List String) : Option Jval → Bool
  | some (.str s) => ts.contains s
  | _ => false

/-- C8: an unrecognized object type falls back to the unit cube geometry
text, while an unrecognized light type generates the empty block. -/
theorem c8_unknown_type_asymmetry (o l : Jval) (i : Nat)
    (ho : isNull o = false) (hto : typeIn geomTypes (getProp? o "type") = false)
    (hl : isNull l = false) (htl : typeIn lightTypes (getProp? l "type") = false) :
    generateGeometry o = .ok "new THREE.BoxGeometry(1, 1, 1)" ∧
      generateLight l i = .ok "" := by
  constructor
  · rw [generateGeometry_eq o ho]
    cases hty : getProp? o "type" with
    | none => rfl
    | some t =>
        cases t with
        | str s =>
            rw [hty] at hto
            simp [typeIn, geomTypes] at hto
            split <;> simp_all
        | null => rfl
        | bool b => rfl
        | num q => rfl
        | arr xs => rfl
        | obj kvs => rfl
  · unfold generateLight
    rw [propAcc_nonnull l "type" hl]
    show (match getProp? l "type" with
      | some (.str "ambient") => _
      | some (.str "directional") => _
      | some (.str "point") => _
      | some (.str "spot") => _
      | _ => Except.ok "") = Except.ok ""
    cases hty : getProp? l "type" with
    | none => rfl
    | some t =>
        cases t with
        | str s =>
            rw [hty] at htl
            simp [typeIn, lightTypes] at htl
            split <;> simp_all
        | null => rfl
        | bool b => rfl
        | num q => rfl
        | arr xs => rfl
        | obj kvs => rfl

theorem c8_witness :
    isNull (Jval.obj [("type", .str "pyramid")]) = false ∧
      typeIn geomTypes (getProp? (Jval.obj [("type", .str "pyramid")]) "type") = false ∧
      isNull (Jval.obj [("type", .str "laser")]) = false ∧
      typeIn lightTypes (getProp? (Jval.obj [("type", .str "laser")]) "type") = false ∧
      generateGeometry (Jval.obj [("type", .str "pyramid")])
        = .ok "new THREE.BoxGeometry(1, 1, 1)" ∧
      generateLight (Jval.obj [("type", .str "laser")]) 0 = .ok "" := by
  refine ⟨rfl, by with_unfolding_all rfl, rfl, by with_unfolding_all rfl, ?_⟩
  exact c8_unknown_type_asymmetry (Jval.obj [("type", .str "pyramid")])
    (Jval.obj [("type", .str "laser")]) 0 rfl (by with_unfolding_all rfl)
    rfl (by with_unfolding_all rfl)

/-- C9: in the generated torus statement the emitted minor (tube) radius
is exactly `0.4 * r`, where `r` is the effective radius (1 when the
`radius` field is absent). -/
theorem c9_torus_minor_radius (o : Jval) (ho : isNull o = false)
    (ht : getProp? o "type" = some (.str "torus")) :
    (getProp? o "radius" = none →
      generateGeometry o = .ok ("new THREE.TorusGeometry(" ++ numToString 1 ++ ", "
        ++ numToString (0.4 * 1) ++ ", 16, 100)"))
    ∧ (∀ r : Rat, r ≠ 0 → getProp? o "radius" = some (.num r) →
      generateGeometry o = .ok ("new THREE.TorusGeometry(" ++ numToString r ++ ", "
        ++ numToString (0.4 * r) ++ ", 16, 100)")) := by
  rw [generateGeometry_eq o ho, ht]
  constructor
  · intro hr
    have h1 : geoNum o "radius" 1 = .num 1 := by
      simp [geoNum, hr, jsOr]
    rw [h1]
    have hm : (1 : Rat) * 0.4 = 0.4 * 1 := by ring
    simp [jsMulStr, jsToNumber, jsToString, hm]
  · intro r hr0 hr
    have h1 : geoNum o "radius" 1 = .num r := by
      simp [geoNum, hr, jsOr, truthy, hr0]
    rw [h1]
    have hm : r * 0.4 = 0.4 * r := by ring
    simp [jsMulStr, jsToNumber, jsToString, hm]

theorem c9_witness :
    generateGeometry (Jval.obj [("type", .str "torus"), ("radius", .num 3)])
      = .ok ("new THREE.TorusGeometry(" ++ numToString 3 ++ ", "
        ++ numToString (0.4 * 3) ++ ", 16, 100)") :=
  (c9_torus_minor_radius (Jval.obj [("type", .str "torus"), ("radius", .num 3)])
    rfl (by with_unfolding_all rfl)).2 3 (by norm_num) (by with_unfolding_all rfl)

/-- The geometry parameter keys read by `generateGeometry`. -/
def geomKeys : List String := ["width", "height", "depth", "radius", "segments"]

/-- Remove the geometry parameters whose value is falsy (0, empty string,
`false`, `null`). -/
def dropFalsyGeom (kvs : List (String × Jval)) : List (String × Jval) :=
  kvs.filter (fun p => !(geomKeys.contains p.1 && !truthy p.2))

theorem lookupKV_filter_none (P : String × Jval → Bool) (kvs : List (String × Jval))
    (k : String) (h : lookupKV k kvs = none) :
    lookupKV k (kvs.filter P) = none := by
  apply lookupKV_eq_none_of_not_mem
  intro p hp
  exact (hasKey_eq_false_iff kvs k).mp ((lookupKV_eq_none_iff k kvs).mp h) p
    (List.mem_of_mem_filter hp)

theorem lookupKV_filter (P : String × Jval → Bool) :
    ∀ (kvs : List (String × Jval)), nodupKeysB kvs = true → ∀ (k : String),
      lookupKV k (kvs.filter P) =
        match lookupKV k kvs with
        | some v => if P (k, v) then some v else none
        | none => none := by
  intro kvs
  induction kvs with
  | nil => intro _ k; rfl
  | cons p rest ih =>
      intro hnd k
      obtain ⟨a, b⟩ := p
      rw [nodupKeysB_cons] at hnd
      simp only [Bool.and_eq_true, Bool.not_eq_true'] at hnd
      by_cases hak : a = k
      · subst hak
        rw [lookupKV_cons, if_pos rfl]
        cases hP : P (a, b) with
        | true =>
            rw [List.filter_cons_of_pos (by simpa using hP), lookupKV_cons, if_pos rfl]
            simp [hP]
        | false =>
            rw [List.filter_cons_of_neg (by simpa using hP)]
            have h0 : lookupKV a rest = none :=
              (lookupKV_eq_none_iff a rest).mpr (by simpa using hnd.1)
            simp [lookupKV_filter_none P rest a h0, hP]
      · rw [lookupKV_cons, if_neg hak]
        cases hP : P (a, b) with
        | true =>
            rw [List.filter_cons_of_pos (by simpa using hP), lookupKV_cons, if_neg hak]
            exact ih hnd.2 k
        | false =>
            rw [List.filter_cons_of_neg (by simpa using hP)]
            exact ih hnd.2 k

theorem lookupKV_dropFalsyGeom_type (kvs : List (String × Jval))
    (hnd : nodupKeysB kvs = true) :
    lookupKV "type" (dropFalsyGeom kvs) = lookupKV "type" kvs := by
  unfold dropFalsyGeom
  rw [lookupKV_filter _ kvs hnd "type"]
  cases h : lookupKV "type" kvs with
  | none => rfl
  | some v => simp [geomKeys]

theorem geoNum_dropFalsyGeom (kvs : List (String × Jval))
    (hnd : nodupKeysB kvs = true) (k : String) (d : Rat)
    (hk : geomKeys.contains k = true) :
    geoNum (.obj (dropFalsyGeom kvs)) k d = geoNum (.obj kvs) k d := by
  unfold geoNum
  rw [getProp?_obj, getProp?_obj]
  unfold dropFalsyGeom
  rw [lookupKV_filter _ kvs hnd k]
  cases h : lookupKV k kvs with
  | none => rfl
  | some v =>
      have hk' : k ∈ geomKeys := by simpa using hk
      cases htv : truthy v with
      | true => simp [hk', htv, jsOr]
      | false => simp [hk', htv, jsOr]

/-- C10: `generateGeometry` treats falsy (in particular zero) geometry
parameters as absent — dropping them does not change the generated text —
and the documented zero-parameter examples produce the default
dimensions. -/
theorem c10_falsy_geometry_params (kvs : List (String × Jval))
    (hnd : nodupKeysB kvs = true) :
    generateGeometry (.obj kvs) = generateGeometry (.obj (dropFalsyGeom kvs)) ∧
      generateGeometry (.obj [("type", .str "cube"), ("width", .num 0)])
        = .ok "new THREE.BoxGeometry(1, 1, 1)" ∧
      generateGeometry (.obj [("type", .str "sphere"), ("radius", .num 0),
          ("segments", .num 0)])
        = .ok "new THREE.SphereGeometry(1, 32, 32)" ∧
      generateGeometry (.obj [("type", .str "cylinder"), ("height", .num 0)])
        = .ok "new THREE.CylinderGeometry(1, 1, 2, 32)" := by
  refine ⟨?_, by with_unfolding_all rfl, by with_unfolding_all rfl,
    by with_unfolding_all rfl⟩
  have hW1 := geoNum_dropFalsyGeom kvs hnd "width" 1 (by decide)
  have hH1 := geoNum_dropFalsyGeom kvs hnd "height" 1 (by decide)
  have hD1 := geoNum_dropFalsyGeom kvs hnd "depth" 1 (by decide)
  have hR1 := geoNum_dropFalsyGeom kvs hnd "radius" 1 (by decide)
  have hS32 := geoNum_dropFalsyGeom kvs hnd "segments" 32 (by decide)
  have hW10 := geoNum_dropFalsyGeom kvs hnd "width" 10 (by decide)
  have hH10 := geoNum_dropFalsyGeom kvs hnd "height" 10 (by decide)
  have hH2 := geoNum_dropFalsyGeom kvs hnd "height" 2 (by decide)
  rw [generateGeometry_eq (.obj kvs) (by rfl),
    generateGeometry_eq (.obj (dropFalsyGeom kvs)) (by rfl),
    getProp?_obj, getProp?_obj, lookupKV_dropFalsyGeom_type kvs hnd]
  cases hv : lookupKV "type" kvs with
  | none => rfl
  | some t =>
      cases t with
      | str s => split <;> simp_all
      | null => rfl
      | bool b => rfl
      | num q => rfl
      | arr xs => rfl
      | obj kvs' => rfl

theorem c10_witness :
    nodupKeysB [(("type" : String), Jval.str "cube"), ("width", .num 0)] = true ∧
      generateGeometry (.obj [(("type" : String), Jval.str "cube"), ("width", .num 0)])
        = generateGeometry (.obj (dropFalsyGeom
            [(("type" : String), Jval.str "cube"), ("width", .num 0)])) :=
  ⟨by with_unfolding_all rfl,
   (c10_falsy_geometry_params _ (by with_unfolding_all rfl)).1⟩

theorem exbind_ok {A B : Type} (a : A) (f : A → Except String B) :
    (Except.ok a : Except String A) >>= f = f a := rfl

/-- Is the first list a prefix of the second? -/
def listPrefixB : List Char → List Char → Bool
  | [], _ => true
  | _ :: _, [] => false
  | c :: cs, d :: ds => c = d && listPrefixB cs ds

/-- Does the pattern occur as a contiguous run in the list? -/
def listSubB (pat : List Char) : List Char → Bool
  | [] => pat.isEmpty
  | d :: ds => listPrefixB pat (d :: ds) || listSubB pat ds

/-- Substring test. -/
def strContains (s pat : String) : Bool := listSubB pat.data s.data

/-- C7: per-light generation: the block for a light of each recognized
type at 0-based index `i` names `{type}Light{i}`; an ambient block sets
only color and intensity (no position-setting statement); directional,
point and spot blocks set a position from the explicit `position` array
when present, else the variant fallback `[5,10,7.5]` / `[0,5,0]` /
`[0,10,0]`. -/
theorem c7_per_light_generation (l : Jval) (i : Nat) (hn : isNull l = false) :
    (getProp? l "type" = some (.str "ambient") →
      generateLight l i = .ok ("const ambientLight" ++ toString i
        ++ " = new THREE.AmbientLight('" ++ jsToStringU (getProp? l "color")
        ++ "', " ++ jsToStringU (getProp? l "intensity")
        ++ ");\nscene.add(ambientLight" ++ toString i ++ ");"))
    ∧ (getProp? l "type" = some (.str "directional") →
      (getProp? l "position" = none →
        generateLight l i = .ok ("const directionalLight" ++ toString i
          ++ " = new THREE.DirectionalLight('" ++ jsToStringU (getProp? l "color")
          ++ "', " ++ jsToStringU (getProp? l "intensity")
          ++ ");\ndirectionalLight" ++ toString i ++ ".position.set(5, 10, 7.5);\nscene.add(directionalLight"
          ++ toString i ++ ");"))
      ∧ (∀ ps, getProp? l "position" = some (.arr ps) →
        generateLight l i = .ok ("const directionalLight" ++ toString i
          ++ " = new THREE.DirectionalLight('" ++ jsToStringU (getProp? l "color")
          ++ "', " ++ jsToStringU (getProp? l "intensity")
          ++ ");\ndirectionalLight" ++ toString i ++ ".position.set("
          ++ joinElems ", " ps ++ ");\nscene.add(directionalLight"
          ++ toString i ++ ");")))
    ∧ (getProp? l "type" = some (.str "point") →
      (getProp? l "position" = none →
        generateLight l i = .ok ("const pointLight" ++ toString i
          ++ " = new THREE.PointLight('" ++ jsToStringU (getProp? l "color")
          ++ "', " ++ jsToStringU (getProp? l "intensity")
          ++ ");\npointLight" ++ toString i ++ ".position.set(0, 5, 0);\nscene.add(pointLight"
          ++ toString i ++ ");"))
      ∧ (∀ ps, getProp? l "position" = some (.arr ps) →
        generateLight l i = .ok ("const pointLight" ++ toString i
          ++ " = new THREE.PointLight('" ++ jsToStringU (getProp? l "color")
          ++ "', " ++ jsToStringU (getProp? l "intensity")
          ++ ");\npointLight" ++ toString i ++ ".position.set("
          ++ joinElems ", " ps ++ ");\nscene.add(pointLight"
          ++ toString i ++ ");")))
    ∧ (getProp? l "type" = some (.str "spot") →
      (getProp? l "position" = none →
        generateLight l i = .ok ("const spotLight" ++ toString i
          ++ " = new THREE.SpotLight('" ++ jsToStringU (getProp? l "color")
          ++ "', " ++ jsToStringU (getProp? l "intensity")
          ++ ");\nspotLight" ++ toString i ++ ".position.set(0, 10, 0);\nscene.add(spotLight"
          ++ toString i ++ ");"))
      ∧ (∀ ps, getProp? l "position" = some (.arr ps) →
        generateLight l i = .ok ("const spotLight" ++ toString i
          ++ " = new THREE.SpotLight('" ++ jsToStringU (getProp? l "color")
          ++ "', " ++ jsToStringU (getProp? l "intensity")
          ++ ");\nspotLight" ++ toString i ++ ".position.set("
          ++ joinElems ", " ps ++ ");\nscene.add(spotLight"
          ++ toString i ++ ");")))
    ∧ generateLight (.obj [("type", .str "ambient"), ("color", .str "#ffffff"),
        ("intensity", .num 0.5)]) 2
        = .ok "const ambientLight2 = new THREE.AmbientLight('#ffffff', 0.5);\nscene.add(ambientLight2);"
    ∧ strContains "const ambientLight2 = new THREE.AmbientLight('#ffffff', 0.5);\nscene.add(ambientLight2);" ".position.set(" = false
    ∧ generateLight (.obj [("type", .str "directional"), ("color", .str "#ffffff"),
        ("intensity", .num 0.8)]) 2
        = .ok "const directionalLight2 = new THREE.DirectionalLight('#ffffff', 0.8);\ndirectionalLight2.position.set(5, 10, 7.5);\nscene.add(directionalLight2);" := by
  refine ⟨?_, ?_, ?_, ?_, by with_unfolding_all rfl,
    by with_unfolding_all rfl, by with_unfolding_all rfl⟩
  · intro hty
    unfold generateLight
    rw [propAcc_nonnull l "type" hn]
    simp only [hty, exbind_ok]
    simp only [String.append_assoc]
    with_unfolding_all rfl
  · intro hty
    constructor
    · intro hp
      unfold generateLight
      rw [propAcc_nonnull l "type" hn]
      simp only [hty, hp, exbind_ok, jsOr, jsJoinV]
      simp only [String.append_assoc]
      with_unfolding_all rfl
    · intro ps hp
      unfold generateLight
      rw [propAcc_nonnull l "type" hn]
      simp only [hty, hp, exbind_ok, jsOr, truthy, jsJoinV]
      simp only [String.append_assoc]
      with_unfolding_all rfl
  · intro hty
    constructor
    · intro hp
      unfold generateLight
      rw [propAcc_nonnull l "type" hn]
      simp only [hty, hp, exbind_ok, jsOr, jsJoinV]
      simp only [String.append_assoc]
      with_unfolding_all rfl
    · intro ps hp
      unfold generateLight
      rw [propAcc_nonnull l "type" hn]
      simp only [hty, hp, exbind_ok, jsOr, truthy, jsJoinV]
      simp only [String.append_assoc]
      with_unfolding_all rfl
  · intro hty
    constructor
    · intro hp
      unfold generateLight
      rw [propAcc_nonnull l "type" hn]
      simp only [hty, hp, exbind_ok, jsOr, jsJoinV]
      simp only [String.append_assoc]
      with_unfolding_all rfl
    · intro ps hp
      unfold generateLight
      rw [propAcc_nonnull l "type" hn]
      simp only [hty, hp, exbind_ok, jsOr, truthy, jsJoinV]
      simp only [String.append_assoc]
      with_unfolding_all rfl

theorem c7_witness :
    isNull (Jval.obj [("type", .str "ambient"), ("color", .str "#ffffff"),
      ("intensity", .num 0.5)]) = false ∧
    generateLight (Jval.obj [("type", .str "ambient"), ("color", .str "#ffffff"),
      ("intensity", .num 0.5)]) 2
      = .ok ("const ambientLight2" ++ " = new THREE.AmbientLight('#ffffff"
        ++ "', " ++ "0.5" ++ ");\nscene.add(ambientLight2" ++ ");") := by
  constructor
  · rfl
  · have h := (c7_per_light_generation (Jval.obj [("type", .str "ambient"),
      ("color", .str "#ffffff"), ("intensity", .num 0.5)]) 2 rfl).1
      (by with_unfolding_all rfl)
    rw [h]
    with_unfolding_all rfl

/-! ### Canonical values and decimal keys -/

mutual

/-- A canonical value: every object node has distinct keys (the invariant
of values produced by a JavaScript runtime, where objects cannot carry
duplicate keys). -/
def canonKeys : Jval → Bool
  | .obj kvs => nodupKeysB kvs && canonKVs kvs
  | .arr xs => canonList xs
  | _ => true

/-- Canonicity of every element of a list. -/
def canonList : List Jval → Bool
  | [] => true
  | x :: xs => canonKeys x && canonList xs

/-- Canonicity of every value of a key-value list. -/
def canonKVs : List (String × Jval) → Bool
  | [] => true
  | p :: rest => canonKeys p.2 && canonKVs rest

end

/-- Does the string start with a decimal digit? -/
def decimalString (s : String) : Bool :=
  match s.data with
  | c :: _ => isDigitChar c
  | [] => false

theorem isDigitChar_digitChar (d : Nat) (h : d < 10) :
    isDigitChar (digitChar d) = true := by
  interval_cases d <;> decide

theorem natDigsCore_digits : ∀ (f n : Nat) (acc : List Char),
    (∀ c ∈ acc, isDigitChar c = true) → ∀ c ∈ natDigsCore f n acc, isDigitChar c = true := by
  intro f
  induction f with
  | zero => intro n acc hacc c hc; exact hacc c hc
  | succ f ih =>
      intro n acc hacc c hc
      unfold natDigsCore at hc
      by_cases h : n < 10
      · rw [if_pos h] at hc
        rcases List.mem_cons.mp hc with h1 | h1
        · rw [h1]; exact isDigitChar_digitChar n h
        · exact hacc c h1
      · rw [if_neg h] at hc
        refine ih (n / 10) _ ?_ c hc
        intro c' hc'
        rcases List.mem_cons.mp hc' with h1 | h1
        · rw [h1]; exact isDigitChar_digitChar (n % 10) (Nat.mod_lt n (by omega))
        · exact hacc c' h1

theorem natDigsCore_acc_ne_nil : ∀ (f n : Nat) (acc : List Char),
    acc ≠ [] → natDigsCore f n acc ≠ [] := by
  intro f
  induction f with
  | zero => intro n acc h; exact h
  | succ f ih =>
      intro n acc h
      unfold natDigsCore
      by_cases hn : n < 10
      · rw [if_pos hn]; simp
      · rw [if_neg hn]
        exact ih (n / 10) _ (by simp)

theorem natDigs_ne_nil (n : Nat) : natDigs n ≠ [] := by
  unfold natDigs natDigsCore
  by_cases h : n < 10
  · rw [if_pos h]; simp
  · rw [if_neg h]
    exact natDigsCore_acc_ne_nil n (n / 10) _ (by simp)

theorem decimalString_natKey (n : Nat) : decimalString (natKey n) = true := by
  unfold decimalString natKey
  cases hd : natDigs n with
  | nil => exact absurd hd (natDigs_ne_nil n)
  | cons c l =>
      show isDigitChar c = true
      refine natDigsCore_digits (n + 1) n [] (by simp) c ?_
      show c ∈ natDigs n
      rw [hd]
      simp

theorem lookupKV_decimal_none (l : List (String × Jval))
    (hl : ∀ p ∈ l, decimalString p.1 = true) (k : String)
    (hk : decimalString k = false) : lookupKV k l = none := by
  apply lookupKV_eq_none_of_not_mem
  intro p hp he
  have h1 := hl p hp
  rw [he, hk] at h1
  exact absurd h1 (by simp)

theorem objSpread_decimal (w : Jval) (hw : ∀ kvs, w ≠ .obj kvs) :
    ∀ p ∈ objSpread w, decimalString p.1 = true := by
  intro p hp
  cases w with
  | obj kvs => exact absurd rfl (hw kvs)
  | arr xs =>
      simp only [objSpread, List.mem_map] at hp
      obtain ⟨q, _, hq⟩ := hp
      rw [← hq]
      exact decimalString_natKey q.1
  | str s =>
      simp only [objSpread, List.mem_map] at hp
      obtain ⟨q, _, hq⟩ := hp
      rw [← hq]
      exact decimalString_natKey q.1
  | null => simp [objSpread] at hp
  | bool b => simp [objSpread] at hp
  | num q => simp [objSpread] at hp

theorem canonKeys_obj_nodup (kvs : List (String × Jval))
    (h : canonKeys (.obj kvs) = true) : nodupKeysB kvs = true := by
  unfold canonKeys at h
  exact (Bool.and_eq_true _ _ |>.mp h).1

theorem lookupKV_mem (k : String) :
    ∀ (l : List (String × Jval)) (w : Jval), lookupKV k l = some w → (k, w) ∈ l := by
  intro l
  induction l with
  | nil => intro w h; simp [lookupKV] at h
  | cons p rest ih =>
      intro w h
      obtain ⟨a, b⟩ := p
      rw [lookupKV_cons] at h
      by_cases ha : a = k
      · rw [if_pos ha] at h
        injection h with h2
        subst ha; subst h2
        simp
      · rw [if_neg ha] at h
        exact List.mem_cons_of_mem _ (ih w h)

theorem canonKVs_mem (kvs : List (String × Jval)) (h : canonKVs kvs = true) :
    ∀ p ∈ kvs, canonKeys p.2 = true := by
  induction kvs with
  | nil => intro p hp; simp at hp
  | cons q rest ih =>
      intro p hp
      unfold canonKVs at h
      rw [Bool.and_eq_true] at h
      rcases List.mem_cons.mp hp with h1 | h1
      · rw [h1]; exact h.1
      · exact ih h.2 p h1

theorem canonList_mem (xs : List Jval) (h : canonList xs = true) :
    ∀ x ∈ xs, canonKeys x = true := by
  induction xs with
  | nil => intro x hx; simp at hx
  | cons y rest ih =>
      intro x hx
      unfold canonList at h
      rw [Bool.and_eq_true] at h
      rcases List.mem_cons.mp hx with h1 | h1
      · rw [h1]; exact h.1
      · exact ih h.2 x h1

theorem canon_getProp? (v w : Jval) (k : String) (hc : canonKeys v = true)
    (h : getProp? v k = some w) : canonKeys w = true := by
  cases v with
  | obj kvs =>
      unfold canonKeys at hc
      rw [Bool.and_eq_true] at hc
      exact canonKVs_mem kvs hc.2 (k, w) (lookupKV_mem k kvs w h)
  | null => simp [getProp?] at h
  | bool b => simp [getProp?] at h
  | num q => simp [getProp?] at h
  | str s => simp [getProp?] at h
  | arr xs => simp [getProp?] at h

theorem revLookup_eq_fwd_spread (w : Jval) (hcanon : canonKeys w = true)
    (k : String) (hk : decimalString k = false) :
    lookupKV k (objSpread w).reverse = lookupKV k (objSpread w) := by
  cases w with
  | obj kvs =>
      exact lookupKV_reverse_nodup kvs (canonKeys_obj_nodup kvs hcanon) k
  | arr xs =>
      rw [lookupKV_decimal_none _ (objSpread_decimal (.arr xs) (by simp)) k hk,
        lookupKV_eq_none_of_not_mem]
      intro p hp he
      have := objSpread_decimal (.arr xs) (by simp) p (List.mem_reverse.mp hp)
      rw [he, hk] at this
      exact absurd this (by simp)
  | str s =>
      rw [lookupKV_decimal_none _ (objSpread_decimal (.str s) (by simp)) k hk,
        lookupKV_eq_none_of_not_mem]
      intro p hp he
      have := objSpread_decimal (.str s) (by simp) p (List.mem_reverse.mp hp)
      rw [he, hk] at this
      exact absurd this (by simp)
  | null => rfl
  | bool b => rfl
  | num q => rfl

theorem lookup_assigns_getD (base X : List (String × Jval)) (k : String) (d : Jval)
    (hrev : lookupKV k X.reverse = lookupKV k X)
    (hbase : lookupKV k base = some d) :
    lookupKV k (assigns base X) = some ((lookupKV k X).getD d) := by
  rw [lookupKV_assigns, hrev]
  cases lookupKV k X with
  | none => simpa using hbase
  | some w => rfl

/-- The per-object defaulting law the spec states for `normalizeDSL`:
`rotation`/`scale` default to `[0,0,0]`/`[1,1,1]` when absent, the
material object gets `type:'standard'`, `metalness:0.5`, `roughness:0.5`,
`wireframe:false` when absent, and explicit fields always win. -/
def objDefaultLaw (o o' : Jval) : Prop :=
  getProp? o' "rotation"
      = some ((lookupKV "rotation" (objSpread o)).getD (.arr [.num 0, .num 0, .num 0]))
  ∧ getProp? o' "scale"
      = some ((lookupKV "scale" (objSpread o)).getD (.arr [.num 1, .num 1, .num 1]))
  ∧ ∃ mL, getProp? o' "material" = some (.obj mL)
      ∧ lookupKV "type" mL
          = some ((lookupKV "type" (objSpreadO (getProp? o "material"))).getD (.str "standard"))
      ∧ lookupKV "metalness" mL
          = some ((lookupKV "metalness" (objSpreadO (getProp? o "material"))).getD (.num 0.5))
      ∧ lookupKV "roughness" mL
          = some ((lookupKV "roughness" (objSpreadO (getProp? o "material"))).getD (.num 0.5))
      ∧ lookupKV "wireframe" mL
          = some ((lookupKV "wireframe" (objSpreadO (getProp? o "material"))).getD (.bool false))

theorem revLookup_eq_fwd_spreadO (m : Option Jval) (hcanon : truthyO m = true → True)
    (hc : ∀ w, m = some w → canonKeys w = true) (k : String)
    (hk : decimalString k = false) :
    lookupKV k (objSpreadO m).reverse = lookupKV k (objSpreadO m) := by
  cases m with
  | none => rfl
  | some w => exact revLookup_eq_fwd_spread w (hc w rfl) k hk

theorem normObj_laws (o o' : Jval) (hcanon : canonKeys o = true)
    (h : normObj o = .ok o') : objDefaultLaw o o' := by
  unfold normObj at h
  by_cases hn : isNull o = true
  · rw [if_pos hn] at h
    exact absurd h (by simp)
  · rw [if_neg hn] at h
    injection h with h2
    subst h2
    set A := assigns rotScaleDefaults (objSpread o) with hA
    set M : Jval := .obj (assigns matDefaults (objSpreadO (getProp? o "material"))) with hM
    have hrevRot : lookupKV "rotation" (objSpread o).reverse
        = lookupKV "rotation" (objSpread o) :=
      revLookup_eq_fwd_spread o hcanon "rotation" rfl
    have hrevScale : lookupKV "scale" (objSpread o).reverse
        = lookupKV "scale" (objSpread o) :=
      revLookup_eq_fwd_spread o hcanon "scale" rfl
    have hcm : ∀ w, getProp? o "material" = some w → canonKeys w = true :=
      fun w hw => canon_getProp? o w "material" hcanon hw
    have hrevMat : ∀ k, decimalString k = false →
        lookupKV k (objSpreadO (getProp? o "material")).reverse
          = lookupKV k (objSpreadO (getProp? o "material")) := by
      intro k hk
      exact revLookup_eq_fwd_spreadO (getProp? o "material") (fun _ => trivial) hcm k hk
    refine ⟨?_, ?_, ?_⟩
    · show lookupKV "rotation" (insertKV A "material" M) = _
      rw [lookupKV_insertKV, if_neg (by decide), hA,
        lookup_assigns_getD rotScaleDefaults (objSpread o) "rotation" _ hrevRot rfl]
    · show lookupKV "scale" (insertKV A "material" M) = _
      rw [lookupKV_insertKV, if_neg (by decide), hA,
        lookup_assigns_getD rotScaleDefaults (objSpread o) "scale" _ hrevScale rfl]
    · refine ⟨assigns matDefaults (objSpreadO (getProp? o "material")), ?_, ?_, ?_, ?_, ?_⟩
      · show lookupKV "material" (insertKV A "material" M) = some M
        rw [lookupKV_insertKV, if_pos rfl]
      · exact lookup_assigns_getD matDefaults _ "type" _ (hrevMat "type" rfl) rfl
      · exact lookup_assigns_getD matDefaults _ "metalness" _ (hrevMat "metalness" rfl) rfl
      · exact lookup_assigns_getD matDefaults _ "roughness" _ (hrevMat "roughness" rfl) rfl
      · exact lookup_assigns_getD matDefaults _ "wireframe" _ (hrevMat "wireframe" rfl) rfl

theorem mapME_forall2_mem {R : Jval → Jval → Prop} (f : Jval → Except String Jval) :
    ∀ (xs ys : List Jval), (∀ x ∈ xs, ∀ y, f x = .ok y → R x y) →
      mapME f xs = .ok ys → List.Forall₂ R xs ys := by
  intro xs
  induction xs with
  | nil =>
      intro ys _ h
      cases h
      exact List.Forall₂.nil
  | cons x rest ih =>
      intro ys hR h
      rw [mapME_cons] at h
      cases hx : f x with
      | error e => rw [hx] at h; exact absurd h (by simp [Except.bind])
      | ok y =>
          rw [hx] at h
          cases hrest : mapME f rest with
          | error e => rw [hrest] at h; exact absurd h (by simp [Except.bind])
          | ok ys' =>
              rw [hrest] at h
              simp only [Except.bind] at h
              injection h with h2
              subst h2
              exact List.Forall₂.cons (hR x (by simp) y hx)
                (ih ys' (fun x' hx' => hR x' (by simp [hx'])) hrest)

theorem getProp?_some_obj (v : Jval) (k : String) (w : Jval)
    (h : getProp? v k = some w) : ∃ kvs, v = .obj kvs := by
  cases v with
  | obj kvs => exact ⟨kvs, rfl⟩
  | null => simp [getProp?] at h
  | bool b => simp [getProp?] at h
  | num q => simp [getProp?] at h
  | str s => simp [getProp?] at h
  | arr xs => simp [getProp?] at h

/-- The spec's default-filling example object
`{type:'cube', position:[0,0,0], material:{type:'basic', color:'#ff0000'}}`. -/
def exampleCube : Jval :=
  .obj [("type", .str "cube"), ("position", .arr [.num 0, .num 0, .num 0]),
        ("material", .obj [("type", .str "basic"), ("color", .str "#ff0000")])]

/-- The fully normalized form of `exampleCube`. -/
def exampleCubeNorm : Jval :=
  .obj [("rotation", .arr [.num 0, .num 0, .num 0]),
        ("scale", .arr [.num 1, .num 1, .num 1]),
        ("type", .str "cube"),
        ("position", .arr [.num 0, .num 0, .num 0]),
        ("material", .obj [("type", .str "basic"), ("metalness", .num 0.5),
                           ("roughness", .num 0.5), ("wireframe", .bool false),
                           ("color", .str "#ff0000")])]

/-- C6: on validator-accepted canonical input, `normalizeDSL` fills
`camera.fov` (default 75), `background` (default `'#000000'` when
falsy/absent), and per-object rotation/scale/material defaults with
explicit values winning, never touches `lights`, and the spec's example
object normalizes as documented and generates a unit-cube geometry. -/
theorem c6_normalizer_defaults (v D : Jval) (_hval : validateDSL v = true)
    (hcanon : canonKeys v = true) (hD : normalizeDSL v = .ok D) :
    (∀ cam, getProp? v "camera" = some cam →
      ∃ camL, getProp? D "camera" = some (.obj camL) ∧
        lookupKV "fov" camL = some ((lookupKV "fov" (objSpread cam)).getD (.num 75)))
    ∧ (truthyO (getProp? v "background") = false →
        getProp? D "background" = some (.str "#000000"))
    ∧ (∀ b, getProp? v "background" = some b → truthy b = true →
        getProp? D "background" = some b)
    ∧ getProp? D "lights" = getProp? v "lights"
    ∧ (∀ xs, getProp? v "objects" = some (.arr xs) →
        ∃ os, getProp? D "objects" = some (.arr os) ∧ List.Forall₂ objDefaultLaw xs os)
    ∧ normObj exampleCube = .ok exampleCubeNorm
    ∧ generateGeometry exampleCubeNorm = .ok "new THREE.BoxGeometry(1, 1, 1)" := by
  by_cases hn : isNull v = true
  · unfold normalizeDSL at hD
    rw [if_pos hn] at hD
    exact absurd hD (by simp)
  · have hn' : isNull v = false := by simpa using hn
    cases hov : getProp? v "objects" with
    | none =>
        rw [normalizeDSL_eq_err v hn' (by simp [hov])] at hD
        exact absurd hD (by simp)
    | some ov =>
        cases ov with
        | null =>
            rw [normalizeDSL_eq_err v hn' (by simp [hov])] at hD
            exact absurd hD (by simp)
        | bool b =>
            rw [normalizeDSL_eq_err v hn' (by simp [hov])] at hD
            exact absurd hD (by simp)
        | num q =>
            rw [normalizeDSL_eq_err v hn' (by simp [hov])] at hD
            exact absurd hD (by simp)
        | str s =>
            rw [normalizeDSL_eq_err v hn' (by simp [hov])] at hD
            exact absurd hD (by simp)
        | obj kvs' =>
            rw [normalizeDSL_eq_err v hn' (by simp [hov])] at hD
            exact absurd hD (by simp)
        | arr xs0 =>
            obtain ⟨kvs, rfl⟩ := getProp?_some_obj v "objects" _ hov
            rw [normalizeDSL_eq _ (by rfl) xs0 hov] at hD
            cases hm : mapME normObj xs0 with
            | error e =>
                rw [hm] at hD
                exact absurd hD (by simp [Except.bind])
            | ok objs =>
                rw [hm] at hD
                simp only [Except.bind] at hD
                injection hD with h2
                set C : Jval :=
                  .obj (assigns fovDefault
                    (objSpreadO (getProp? (Jval.obj kvs) "camera"))) with hC
                set B : Jval :=
                  jsOr (getProp? (Jval.obj kvs) "background") (.str "#000000") with hB
                set T : List (String × Jval) :=
                  insertKV (insertKV (insertKV (objSpread (Jval.obj kvs))
                    "camera" C) "background" B) "objects" (.arr objs) with hT
                have hDval : D = .obj T := h2.symm
                subst hDval
                have hCamT : lookupKV "camera" T = some C := by
                  rw [hT, lookupKV_insertKV, if_neg (by decide),
                    lookupKV_insertKV, if_neg (by decide),
                    lookupKV_insertKV, if_pos rfl]
                have hBgT : lookupKV "background" T = some B := by
                  rw [hT, lookupKV_insertKV, if_neg (by decide),
                    lookupKV_insertKV, if_pos rfl]
                have hObjsT : lookupKV "objects" T = some (.arr objs) := by
                  rw [hT, lookupKV_insertKV, if_pos rfl]
                refine ⟨?_, ?_, ?_, ?_, ?_, by with_unfolding_all rfl,
                  by with_unfolding_all rfl⟩
                · intro cam hcam
                  refine ⟨assigns fovDefault (objSpread cam), ?_, ?_⟩
                  · show lookupKV "camera" T = _
                    rw [hCamT, hC, hcam]
                    rfl
                  · exact lookup_assigns_getD fovDefault _ "fov" _
                      (revLookup_eq_fwd_spread cam
                        (canon_getProp? _ cam "camera" hcanon hcam) "fov" rfl) rfl
                · intro hbg
                  show lookupKV "background" T = _
                  rw [hBgT, hB]
                  cases hb : getProp? (Jval.obj kvs) "background" with
                  | none => rfl
                  | some b =>
                      rw [hb] at hbg
                      have htr : truthy b = false := hbg
                      show some (if truthy b = true then b else Jval.str "#000000")
                        = some (Jval.str "#000000")
                      rw [htr]
                      rfl
                · intro b hb htr
                  show lookupKV "background" T = some b
                  rw [hBgT, hB, hb]
                  show some (if truthy b = true then b else Jval.str "#000000") = some b
                  rw [if_pos htr]
                · show lookupKV "lights" T = _
                  rw [hT, lookupKV_insertKV, if_neg (by decide),
                    lookupKV_insertKV, if_neg (by decide),
                    lookupKV_insertKV, if_neg (by decide)]
                  rfl
                · intro xs hxs
                  injection hxs with h4
                  injection h4 with h5
                  subst h5
                  refine ⟨objs, hObjsT, ?_⟩
                  have hcxs : canonList xs0 = true := by
                    have := canon_getProp? _ _ "objects" hcanon hov
                    simpa [canonKeys] using this
                  exact mapME_forall2_mem normObj xs0 objs
                    (fun o ho y hy =>
                      normObj_laws o y (canonList_mem xs0 hcxs o ho) hy) hm

/-- The normalized form of `witnessDSL`. -/
def witnessDSLNorm : Jval :=
  .obj [("camera", .obj [("fov", .num 75),
          ("position", .arr [.num 0, .num 5, .num 10]),
          ("lookAt", .arr [.num 0, .num 0, .num 0])]),
        ("lights", .arr [.obj [("type", .str "ambient"), ("color", .str "#ffffff"),
          ("intensity", .num 0.5)]]),
        ("objects", .arr [exampleCubeNorm]),
        ("background", .str "#000000")]

theorem c6_witness :
    validateDSL witnessDSL = true ∧ canonKeys witnessDSL = true ∧
      normalizeDSL witnessDSL = .ok witnessDSLNorm ∧
      getProp? witnessDSLNorm "lights" = getProp? witnessDSL "lights" := by
  refine ⟨by with_unfolding_all rfl, by with_unfolding_all rfl,
    by with_unfolding_all rfl, ?_⟩
  exact (c6_normalizer_defaults witnessDSL witnessDSLNorm
    (by with_unfolding_all rfl) (by with_unfolding_all rfl)
    (by with_unfolding_all rfl)).2.2.2.1

/-- C4: `validateDSL` is a total (non-throwing) boolean predicate that
returns `true` exactly on the candidates described by the spec's shallow
shape condition, regardless of element validity. -/
theorem c4_validate_shallow_gate (v : Jval) : validateDSL v = specAccepts v :=
  validateDSL_eq_specAccepts v

theorem isArrO_shape (o : Option Jval) (h : isArrO o = true) :
    ∃ xs, o = some (.arr xs) := by
  cases o with
  | none => simp [isArrO] at h
  | some w =>
      cases w with
      | arr xs => exact ⟨xs, rfl⟩
      | null => simp [isArrO] at h
      | bool b => simp [isArrO] at h
      | num q => simp [isArrO] at h
      | str s => simp [isArrO] at h
      | obj kvs => simp [isArrO] at h

theorem specAccepts_shape (v : Jval) (h : specAccepts v = true) :
    ∃ kvs cam, v = .obj kvs ∧ lookupKV "camera" kvs = some cam
      ∧ (∃ ps, getProp? cam "position" = some (.arr ps))
      ∧ (∃ ls0, getProp? cam "lookAt" = some (.arr ls0))
      ∧ (∃ ls, lookupKV "lights" kvs = some (.arr ls))
      ∧ (∃ os, lookupKV "objects" kvs = some (.arr os)) := by
  cases v with
  | obj kvs =>
      refine ⟨kvs, ?_⟩
      simp only [specAccepts] at h
      cases hcam : lookupKV "camera" kvs with
      | none => rw [hcam] at h; simp at h
      | some cam =>
          rw [hcam] at h
          simp only [Bool.and_eq_true] at h
          exact ⟨cam, rfl, rfl, isArrO_shape _ h.1.1.1, isArrO_shape _ h.1.1.2,
            isArrO_shape _ h.1.2, isArrO_shape _ h.2⟩
  | null => simp [specAccepts] at h
  | bool b => simp [specAccepts] at h
  | num q => simp [specAccepts] at h
  | str s => simp [specAccepts] at h
  | arr xs => simp [specAccepts] at h

/-- Is the value an array? -/
def isArrB : Jval → Bool
  | .arr _ => true
  | _ => false

/-- Element-level well-formedness of a light: non-null, and any present
`position` is falsy or an array. -/
def lightOK (l : Jval) : Bool :=
  !(isNull l) && (match getProp? l "position" with
    | none => true
    | some p => !(truthy p) || isArrB p)

/-- Element-level well-formedness of an object: non-null, a present
non-null `material`, an array `position`, and `rotation`/`scale` absent,
falsy or arrays. -/
def objOK (o : Jval) : Bool :=
  !(isNull o)
    && (match getProp? o "material" with
        | some m => !(isNull m)
        | none => false)
    && isArrO (getProp? o "position")
    && (match getProp? o "rotation" with
        | none => true
        | some p => !(truthy p) || isArrB p)
    && (match getProp? o "scale" with
        | none => true
        | some p => !(truthy p) || isArrB p)

/-- All lights and objects of the description are element-wise
well-formed. -/
def elemsOK (v : Jval) : Bool :=
  (match getProp? v "lights" with
   | some (.arr ls) => ls.all lightOK
   | _ => false)
    && (match getProp? v "objects" with
        | some (.arr os) => os.all objOK
        | _ => false)

theorem mapME_ok_of_all {A B : Type} (f : A → Except String B) :
    ∀ (xs : List A), (∀ x ∈ xs, ∃ y, f x = .ok y) →
      ∃ ys, mapME f xs = .ok ys := by
  intro xs
  induction xs with
  | nil => intro _; exact ⟨[], rfl⟩
  | cons x rest ih =>
      intro h
      obtain ⟨y, hy⟩ := h x (by simp)
      obtain ⟨ys, hys⟩ := ih (fun x' hx' => h x' (by simp [hx']))
      refine ⟨y :: ys, ?_⟩
      rw [mapME_cons, hy, hys]
      rfl

theorem generateGeometry_ok (o : Jval) (hn : isNull o = false) :
    ∃ s, generateGeometry o = .ok s := by
  rw [generateGeometry_eq o hn]
  cases getProp? o "type" with
  | none => exact ⟨_, rfl⟩
  | some t =>
      cases t with
      | str s => split <;> exact ⟨_, rfl⟩
      | null => exact ⟨_, rfl⟩
      | bool b => exact ⟨_, rfl⟩
      | num q => exact ⟨_, rfl⟩
      | arr xs => exact ⟨_, rfl⟩
      | obj kvs => exact ⟨_, rfl⟩

theorem generateMaterial_ok (o : Jval) (hn : isNull o = false)
    (hm : (match getProp? o "material" with
          | some m => !(isNull m)
          | none => false) = true) :
    ∃ s, generateMaterial o = .ok s := by
  unfold generateMaterial
  rw [propAcc_nonnull o "material" hn]
  cases hmat : getProp? o "material" with
  | none => rw [hmat] at hm; simp at hm
  | some m =>
      rw [hmat] at hm
      simp only [Bool.not_eq_true'] at hm
      show ∃ s, (if isNull m = true then Except.error "TypeError" else _) = .ok s
      rw [if_neg (by simp [hm])]
      cases getProp? m "type" with
      | none => exact ⟨_, rfl⟩
      | some t =>
          cases t with
          | str s => split <;> exact ⟨_, rfl⟩
          | null => exact ⟨_, rfl⟩
          | bool b => exact ⟨_, rfl⟩
          | num q => exact ⟨_, rfl⟩
          | arr xs => exact ⟨_, rfl⟩
          | obj kvs => exact ⟨_, rfl⟩

theorem jsJoinV_jsOr_ok (p : Option Jval) (fb : List Jval)
    (hp : (match p with
          | none => true
          | some q => !(truthy q) || isArrB q) = true) :
    ∃ s, jsJoinV (jsOr p (.arr fb)) ", " = .ok s := by
  cases p with
  | none => exact ⟨_, rfl⟩
  | some q =>
      have hp' : (!truthy q || isArrB q) = true := hp
      show ∃ s, jsJoinV (if truthy q = true then q else .arr fb) ", " = .ok s
      by_cases ht : truthy q = true
      · rw [if_pos ht]
        simp only [ht, Bool.not_true, Bool.false_or] at hp'
        cases q with
        | arr xs => exact ⟨_, rfl⟩
        | null => simp [isArrB] at hp'
        | bool b => simp [isArrB] at hp'
        | num n => simp [isArrB] at hp'
        | str s => simp [isArrB] at hp'
        | obj kvs => simp [isArrB] at hp'
      · rw [if_neg ht]
        exact ⟨_, rfl⟩

theorem bind_ok_exists {A B : Type} (e : Except String A) (f : A → B)
    (h : ∃ a, e = .ok a) :
    ∃ s, (e >>= fun a => (Except.ok (f a) : Except String B)) = .ok s := by
  obtain ⟨a, ha⟩ := h
  exact ⟨f a, by rw [ha]; rfl⟩

theorem generateLight_eq (l : Jval) (i : Nat) (hn : isNull l = false) :
    generateLight l i =
      match getProp? l "type" with
      | some (.str "ambient") =>
          .ok ("const " ++ (jsToStringU (getProp? l "type") ++ "Light" ++ toString i)
            ++ " = new THREE.AmbientLight('" ++ jsToStringU (getProp? l "color")
            ++ "', " ++ jsToStringU (getProp? l "intensity") ++ ");\nscene.add("
            ++ (jsToStringU (getProp? l "type") ++ "Light" ++ toString i) ++ ");")
      | some (.str "directional") =>
          (jsJoinV (jsOr (getProp? l "position")
              (.arr [.num 5, .num 10, .num 7.5])) ", ").bind (fun pj =>
            .ok ("const " ++ (jsToStringU (getProp? l "type") ++ "Light" ++ toString i)
              ++ " = new THREE.DirectionalLight('" ++ jsToStringU (getProp? l "color")
              ++ "', " ++ jsToStringU (getProp? l "intensity") ++ ");\n"
              ++ (jsToStringU (getProp? l "type") ++ "Light" ++ toString i)
              ++ ".position.set(" ++ pj ++ ");\nscene.add("
              ++ (jsToStringU (getProp? l "type") ++ "Light" ++ toString i) ++ ");"))
      | some (.str "point") =>
          (jsJoinV (jsOr (getProp? l "position")
              (.arr [.num 0, .num 5, .num 0])) ", ").bind (fun pj =>
            .ok ("const " ++ (jsToStringU (getProp? l "type") ++ "Light" ++ toString i)
              ++ " = new THREE.PointLight('" ++ jsToStringU (getProp? l "color")
              ++ "', " ++ jsToStringU (getProp? l "intensity") ++ ");\n"
              ++ (jsToStringU (getProp? l "type") ++ "Light" ++ toString i)
              ++ ".position.set(" ++ pj ++ ");\nscene.add("
              ++ (jsToStringU (getProp? l "type") ++ "Light" ++ toString i) ++ ");"))
      | some (.str "spot") =>
          (jsJoinV (jsOr (getProp? l "position")
              (.arr [.num 0, .num 10, .num 0])) ", ").bind (fun pj =>
            .ok ("const " ++ (jsToStringU (getProp? l "type") ++ "Light" ++ toString i)
              ++ " = new THREE.SpotLight('" ++ jsToStringU (getProp? l "color")
              ++ "', " ++ jsToStringU (getProp? l "intensity") ++ ");\n"
              ++ (jsToStringU (getProp? l "type") ++ "Light" ++ toString i)
              ++ ".position.set(" ++ pj ++ ");\nscene.add("
              ++ (jsToStringU (getProp? l "type") ++ "Light" ++ toString i) ++ ");"))
      | _ => .ok "" := by
  unfold generateLight
  rw [propAcc_nonnull l "type" hn]
  rfl

theorem generateLight_ok (l : Jval) (i : Nat) (hl : lightOK l = true) :
    ∃ s, generateLight l i = .ok s := by
  unfold lightOK at hl
  rw [Bool.and_eq_true] at hl
  have hn : isNull l = false := by simpa using hl.1
  rw [generateLight_eq l i hn]
  cases hty : getProp? l "type" with
  | none => exact ⟨_, rfl⟩
  | some t =>
      cases t with
      | str s =>
          have hp := hl.2
          split
          · exact ⟨_, rfl⟩
          · obtain ⟨pj, hpj⟩ :=
              jsJoinV_jsOr_ok (getProp? l "position") [.num 5, .num 10, .num 7.5] hp
            exact ⟨_, by rw [hpj]; rfl⟩
          · obtain ⟨pj, hpj⟩ :=
              jsJoinV_jsOr_ok (getProp? l "position") [.num 0, .num 5, .num 0] hp
            exact ⟨_, by rw [hpj]; rfl⟩
          · obtain ⟨pj, hpj⟩ :=
              jsJoinV_jsOr_ok (getProp? l "position") [.num 0, .num 10, .num 0] hp
            exact ⟨_, by rw [hpj]; rfl⟩
          · exact ⟨_, rfl⟩
      | null => exact ⟨_, rfl⟩
      | bool b => exact ⟨_, rfl⟩
      | num q => exact ⟨_, rfl⟩
      | arr xs => exact ⟨_, rfl⟩
      | obj kvs => exact ⟨_, rfl⟩

theorem generateSceneSetup_ok (v : Jval) (hn : isNull v = false) :
    ∃ s, generateSceneSetup v = .ok s := by
  unfold generateSceneSetup
  rw [propAcc_nonnull v "background" hn]
  exact ⟨_, rfl⟩

theorem generateCamera_ok (v cam : Jval) (hn : isNull v = false)
    (hc : getProp? v "camera" = some cam)
    (hp : ∃ ps, getProp? cam "position" = some (.arr ps))
    (hq : ∃ qs, getProp? cam "lookAt" = some (.arr qs)) :
    ∃ s, generateCamera v = .ok s := by
  obtain ⟨ps, hp⟩ := hp
  obtain ⟨qs, hq⟩ := hq
  have hcn : isNull cam = false := by
    cases cam with
    | null => exact Option.noConfusion hp
    | bool b => rfl
    | num q => rfl
    | str s => rfl
    | arr xs => rfl
    | obj kvs => rfl
  unfold generateCamera
  rw [propAcc_nonnull v "camera" hn, hc]
  show ∃ s, (if isNull cam = true then (.error "TypeError" : Except String String)
    else _) = .ok s
  rw [if_neg (by simp [hcn]), hp, hq]
  exact ⟨_, rfl⟩

theorem enumFrom_snd_mem {A : Type} : ∀ (n : Nat) (xs : List A) (p : Nat × A),
    p ∈ List.enumFrom n xs → p.2 ∈ xs := by
  intro n xs
  induction xs generalizing n with
  | nil => intro p hp; cases hp
  | cons x rest ih =>
      intro p hp
      simp only [List.enumFrom] at hp
      rcases List.mem_cons.mp hp with h | h
      · rw [h]; exact List.mem_cons_self x rest
      · exact List.mem_cons_of_mem x (ih (n + 1) p h)

theorem generateLights_ok (v : Jval) (hn : isNull v = false)
    (ls : List Jval) (hls : getProp? v "lights" = some (.arr ls))
    (hall : ls.all lightOK = true) :
    ∃ s, generateLights v = .ok s := by
  unfold generateLights
  rw [propAcc_nonnull v "lights" hn, hls]
  obtain ⟨blocks, hb⟩ := mapME_ok_of_all (fun p => generateLight p.2 p.1) ls.enum
    (fun p hp => generateLight_ok p.2 p.1
      (List.all_eq_true.mp hall p.2 (enumFrom_snd_mem 0 ls p hp)))
  show ∃ s, (mapME (fun p => generateLight p.2 p.1) ls.enum).bind _ = .ok s
  rw [hb]
  exact ⟨_, rfl⟩

theorem generateObject_ok (o : Jval) (i : Nat) (ho : objOK o = true) :
    ∃ s, generateObject o i = .ok s := by
  unfold objOK at ho
  simp only [Bool.and_eq_true] at ho
  obtain ⟨⟨⟨⟨h1, h2⟩, h3⟩, h4⟩, h5⟩ := ho
  have hn : isNull o = false := by simpa using h1
  obtain ⟨g, hg⟩ := generateGeometry_ok o hn
  obtain ⟨m, hm⟩ := generateMaterial_ok o hn h2
  obtain ⟨ps, hps⟩ := isArrO_shape _ h3
  obtain ⟨rj, hrj⟩ := jsJoinV_jsOr_ok (getProp? o "rotation") [.num 0, .num 0, .num 0] h4
  obtain ⟨sj, hsj⟩ := jsJoinV_jsOr_ok (getProp? o "scale") [.num 1, .num 1, .num 1] h5
  unfold generateObject
  rw [hg, hm, hps, hrj, hsj]
  exact ⟨_, rfl⟩

theorem generateObjects_ok (v : Jval) (hn : isNull v = false)
    (os : List Jval) (hos : getProp? v "objects" = some (.arr os))
    (hall : os.all objOK = true) :
    ∃ s, generateObjects v = .ok s := by
  unfold generateObjects
  rw [propAcc_nonnull v "objects" hn, hos]
  obtain ⟨blocks, hb⟩ := mapME_ok_of_all (fun p => generateObject p.2 p.1) os.enum
    (fun p hp => generateObject_ok p.2 p.1
      (List.all_eq_true.mp hall p.2 (enumFrom_snd_mem 0 os p hp)))
  show ∃ s, (mapME (fun p => generateObject p.2 p.1) os.enum).bind _ = .ok s
  rw [hb]
  exact ⟨_, rfl⟩

theorem generateScene_ok (v : Jval) (hval : validateDSL v = true)
    (he : elemsOK v = true) :
    ∃ s, generateScene v = .ok s := by
  have hsa : specAccepts v = true := by rw [← validateDSL_eq_specAccepts]; exact hval
  obtain ⟨kvs, cam, hv, hcam, ⟨ps, hps⟩, ⟨qs, hqs⟩, ⟨ls, hls⟩, ⟨os, hos⟩⟩ :=
    specAccepts_shape v hsa
  subst hv
  have hn : isNull (Jval.obj kvs) = false := rfl
  have hls' : getProp? (Jval.obj kvs) "lights" = some (.arr ls) := hls
  have hos' : getProp? (Jval.obj kvs) "objects" = some (.arr os) := hos
  have hcam' : getProp? (Jval.obj kvs) "camera" = some cam := hcam
  unfold elemsOK at he
  rw [hls', hos'] at he
  have he' : (ls.all lightOK && os.all objOK) = true := he
  rw [Bool.and_eq_true] at he'
  obtain ⟨s1, h1⟩ := generateSceneSetup_ok _ hn
  obtain ⟨s2, h2⟩ := generateCamera_ok _ cam hn hcam' ⟨ps, hps⟩ ⟨qs, hqs⟩
  obtain ⟨s3, h3⟩ := generateLights_ok _ hn ls hls' he'.1
  obtain ⟨s4, h4⟩ := generateObjects_ok _ hn os hos' he'.2
  unfold generateScene
  rw [h1, h2, h3, h4]
  exact ⟨_, rfl⟩

theorem normalizeDSL_ok (v : Jval) (os : List Jval)
    (hn : isNull v = false) (hos : getProp? v "objects" = some (.arr os))
    (hall : ∀ o ∈ os, isNull o = false) :
    ∃ D, normalizeDSL v = .ok D := by
  unfold normalizeDSL
  rw [if_neg (by simp [hn]), hos]
  obtain ⟨ys, hys⟩ := mapME_ok_of_all normObj os
    (fun o ho => ⟨_, by unfold normObj; rw [if_neg (by simp [hall o ho])]⟩)
  show ∃ D, (mapME normObj os).bind _ = .ok D
  rw [hys]
  exact ⟨_, rfl⟩

/-- A validator-accepted description whose `objects` array contains a
`null` element. -/
def badDSL : Jval :=
  .obj [("camera", .obj [("position", .arr []), ("lookAt", .arr [])]),
        ("lights", .arr []), ("objects", .arr [.null])]

/-- C1 (counterexample to the claim as stated): `validateDSL` accepts
`badDSL`, yet the normalizer, the code generator and the document
assembler all raise `TypeError` on it — the three stages are not total
over validated input. -/
theorem c1_counterexample :
    validateDSL badDSL = true
      ∧ normalizeDSL badDSL = .error "TypeError"
      ∧ generateScene badDSL = .error "TypeError"
      ∧ generateHTML badDSL "Three.js Scene" = .error "TypeError" := by
  refine ⟨?_, ?_, ?_, ?_⟩ <;> with_unfolding_all rfl

/-- C1 (amended): on input accepted by `validateDSL` whose light and
object elements are additionally element-wise well-formed (`elemsOK`:
non-null elements, object `material` non-null, object `position` an
array, any present truthy `position`/`rotation`/`scale` an array), the
normalizer, the code generator and the document assembler all complete
without raising. -/
theorem c1_total_on_wellformed (v : Jval) (t : String)
    (hval : validateDSL v = true) (he : elemsOK v = true) :
    (∃ D, normalizeDSL v = .ok D) ∧ (∃ s, generateScene v = .ok s)
      ∧ (∃ d, generateHTML v t = .ok d) := by
  have hsa : specAccepts v = true := by rw [← validateDSL_eq_specAccepts]; exact hval
  obtain ⟨kvs, cam, hv, hcam, hps, hqs, hls, ⟨os, hos⟩⟩ := specAccepts_shape v hsa
  have hn : isNull v = false := by rw [hv]; rfl
  have hos' : getProp? v "objects" = some (.arr os) := by rw [hv]; exact hos
  have hobjall : os.all objOK = true := by
    have he2 := he
    unfold elemsOK at he2
    rw [hos'] at he2
    rw [Bool.and_eq_true] at he2
    rcases hlk : getProp? v "lights" with _ | w
    · rw [hlk] at he2; exact absurd he2.1 (by simp)
    · rw [hlk] at he2
      cases w with
      | arr ls => exact he2.2
      | null => exact absurd he2.1 (by simp)
      | bool b => exact absurd he2.1 (by simp)
      | num q => exact absurd he2.1 (by simp)
      | str s => exact absurd he2.1 (by simp)
      | obj kvs2 => exact absurd he2.1 (by simp)
  have hnz : ∀ o ∈ os, isNull o = false := by
    intro o ho
    have h1 := List.all_eq_true.mp hobjall o ho
    unfold objOK at h1
    simp only [Bool.and_eq_true] at h1
    simpa using h1.1.1.1.1
  obtain ⟨D, hD⟩ := normalizeDSL_ok v os hn hos' hnz
  obtain ⟨s, hs⟩ := generateScene_ok v hval he
  refine ⟨⟨D, hD⟩, ⟨s, hs⟩, ⟨htmlPrefix t ++ s ++ htmlSuffix, ?_⟩⟩
  unfold generateHTML
  rw [hs]
  rfl

theorem c1_witness :
    validateDSL witnessDSL = true ∧ elemsOK witnessDSL = true
      ∧ ((∃ D, normalizeDSL witnessDSL = .ok D)
          ∧ (∃ s, generateScene witnessDSL = .ok s)
          ∧ (∃ d, generateHTML witnessDSL "Scene" = .ok d)) :=
  ⟨by with_unfolding_all rfl, by with_unfolding_all rfl,
   c1_total_on_wellformed witnessDSL "Scene"
     (by with_unfolding_all rfl) (by with_unfolding_all rfl)⟩

/-! ### JSON serialization (`JSON.stringify(dsl, null, 2)`) -/

/-- Lowercase hexadecimal digit character. -/
def hexDig : Nat → Char
  | 0 => '0' | 1 => '1' | 2 => '2' | 3 => '3' | 4 => '4'
  | 5 => '5' | 6 => '6' | 7 => '7' | 8 => '8' | 9 => '9'
  | 10 => 'a' | 11 => 'b' | 12 => 'c' | 13 => 'd' | 14 => 'e' | 15 => 'f'
  | _ => '*'

/-- `JSON.stringify` escaping of one string character. -/
def escChar (c : Char) : List Char :=
  if c = '"' then ['\\', '"']
  else if c = '\\' then ['\\', '\\']
  else if c = '\x08' then ['\\', 'b']
  else if c = '\t' then ['\\', 't']
  else if c = '\n' then ['\\', 'n']
  else if c = '\x0c' then ['\\', 'f']
  else if c = '\r' then ['\\', 'r']
  else if c.toNat < 32 then
    ['\\', 'u', '0', '0', hexDig (c.toNat / 16), hexDig (c.toNat % 16)]
  else [c]

/-- Escape a whole string body. -/
def escStr (s : List Char) : List Char :=
  s.foldr (fun c acc => escChar c ++ acc) []

/-- A quoted JSON string literal. -/
def qstr (s : List Char) : List Char := '"' :: escStr s ++ ['"']

/-- The indentation of nesting depth `d` at indent width 2. -/
def indentSp (d : Nat) : List Char := List.replicate (2 * d) ' '

mutual

/-- `JSON.stringify(v, null, 2)` at nesting depth `d`: pretty-printed
JSON with two-space indentation. -/
def printV : Nat → Jval → List Char
  | _, .null => ['n', 'u', 'l', 'l']
  | _, .bool true => ['t', 'r', 'u', 'e']
  | _, .bool false => ['f', 'a', 'l', 's', 'e']
  | _, .num q => printNum q
  | _, .str s => qstr s.data
  | _, .arr [] => ['[', ']']
  | d, .arr (x :: xs) =>
      '[' :: '\n' :: printItems (d + 1) (x :: xs) ++ '\n' :: indentSp d ++ [']']
  | _, .obj [] => ['\x7b', '\x7d']
  | d, .obj (m :: ms) =>
      '\x7b' :: '\n' :: printMembers (d + 1) (m :: ms) ++ '\n' :: indentSp d ++ ['\x7d']

/-- The comma-and-newline separated element lines of a non-empty array. -/
def printItems : Nat → List Jval → List Char
  | _, [] => []
  | d, [x] => indentSp d ++ printV d x
  | d, x :: y :: ys =>
      indentSp d ++ printV d x ++ ',' :: '\n' :: printItems d (y :: ys)

/-- The comma-and-newline separated member lines of a non-empty object. -/
def printMembers : Nat → List (String × Jval) → List Char
  | _, [] => []
  | d, [(k, v)] => indentSp d ++ qstr k.data ++ ':' :: ' ' :: printV d v
  | d, (k, v) :: n :: ns =>
      indentSp d ++ qstr k.data ++ ':' :: ' ' :: printV d v
        ++ ',' :: '\n' :: printMembers d (n :: ns)

end

/-- `DSLParser.stringify`: `JSON.stringify(dsl, null, 2)`. -/
def stringifyDSL (dsl : Jval) : String := ⟨printV 0 dsl⟩

mutual

/-- Fuel lower bound for `parseVal` on the printed form of a value. -/
def costV : Jval → Nat
  | .arr xs => 1 + costL xs
  | .obj kvs => 1 + costM kvs
  | _ => 1

/-- Fuel lower bound for `parseElems` on printed array items. -/
def costL : List Jval → Nat
  | [] => 0
  | x :: xs => 1 + costV x + costL xs

/-- Fuel lower bound for `parseMembers` on printed object members. -/
def costM : List (String × Jval) → Nat
  | [] => 0
  | (_, v) :: ms => 1 + costV v + costM ms

end

/-- Is the rational's denominator 10-smooth (exactly the values whose
JavaScript decimal printing is exact)? -/
def numOKq (q : Rat) : Bool := (decExp q.den).isSome

mutual

/-- Every number in the value prints exactly in decimal. -/
def numsOK : Jval → Bool
  | .num q => numOKq q
  | .arr xs => numsOKL xs
  | .obj kvs => numsOKM kvs
  | _ => true

/-- `numsOK` on every element of a list. -/
def numsOKL : List Jval → Bool
  | [] => true
  | x :: xs => numsOK x && numsOKL xs

/-- `numsOK` on every value of a key-value list. -/
def numsOKM : List (String × Jval) → Bool
  | [] => true
  | (_, v) :: ms => numsOK v && numsOKM ms

end

/-! ### The JSON parser (`JSON.parse`) -/

/-- Consume leading JSON whitespace. -/
def skipWs : List Char → List Char
  | [] => []
  | c :: cs => if isWsChar c then skipWs cs else c :: cs

/-- Hexadecimal digit value. -/
def hexVal (c : Char) : Option Nat :=
  if isDigitChar c then some (c.toNat - 48)
  else if 'a' ≤ c && c ≤ 'f' then some (c.toNat - 87)
  else if 'A' ≤ c && c ≤ 'F' then some (c.toNat - 55)
  else none

mutual

/-- Parse the body of a JSON string literal (after the opening quote),
returning the decoded characters and the text after the closing quote. -/
def parseStrBody : List Char → Option (List Char × List Char)
  | [] => none
  | c :: rest =>
      if c = '"' then some ([], rest)
      else if c = '\\' then parseEsc rest
      else if c.toNat < 32 then none
      else (parseStrBody rest).map (fun p => (c :: p.1, p.2))

/-- Decode one escape sequence after a backslash. -/
def parseEsc : List Char → Option (List Char × List Char)
  | '"' :: r => (parseStrBody r).map (fun p => ('"' :: p.1, p.2))
  | '\\' :: r => (parseStrBody r).map (fun p => ('\\' :: p.1, p.2))
  | '/' :: r => (parseStrBody r).map (fun p => ('/' :: p.1, p.2))
  | 'b' :: r => (parseStrBody r).map (fun p => ('\x08' :: p.1, p.2))
  | 'f' :: r => (parseStrBody r).map (fun p => ('\x0c' :: p.1, p.2))
  | 'n' :: r => (parseStrBody r).map (fun p => ('\n' :: p.1, p.2))
  | 'r' :: r => (parseStrBody r).map (fun p => ('\r' :: p.1, p.2))
  | 't' :: r => (parseStrBody r).map (fun p => ('\t' :: p.1, p.2))
  | 'u' :: h1 :: h2 :: h3 :: h4 :: r =>
      if (hexVal h1).isSome && (hexVal h2).isSome
          && (hexVal h3).isSome && (hexVal h4).isSome then
        (parseStrBody r).map (fun p =>
          (Char.ofNat ((((hexVal h1).getD 0 * 16 + (hexVal h2).getD 0) * 16
            + (hexVal h3).getD 0) * 16 + (hexVal h4).getD 0) :: p.1, p.2))
      else none
  | _ => none

end

/-- Sign application for a parsed number. -/
def numSign (neg : Bool) (q : Rat) : Rat := if neg then -q else q

/-- `10^e` for a signed exponent. -/
def tenPow : Int → Rat
  | .ofNat n => (10 : Rat) ^ n
  | .negSucc n => mkRat 1 (10 ^ (n + 1))

/-- Parse the digits of a JSON exponent (after the `e`/`E`). -/
def parseExpTail (cs : List Char) : Option (Int × List Char) :=
  let neg : Bool := decide (cs.head? = some '-')
  let cs1 := if cs.head? = some '-' || cs.head? = some '+' then cs.tail else cs
  let p := digitsSpan cs1
  if p.1 = [] then none
  else some (if neg then -(parseNatChars p.1 : Int) else (parseNatChars p.1 : Int), p.2)

/-- Parse an optional JSON exponent suffix. -/
def parseExp (cs : List Char) : Option (Int × List Char) :=
  if cs.head? = some 'e' || cs.head? = some 'E' then parseExpTail cs.tail
  else some (0, cs)

/-- The fractional continuation of a number token: fraction digits `fds`
already read, remainder `r2`. -/
def parseNumFrac (neg : Bool) (ip fds : List Char) (r2 : List Char) :
    Option (Rat × List Char) :=
  if fds = [] then none
  else
    (parseExp r2).map (fun p =>
      (numSign neg
        (mkRat (parseNatChars ip * 10 ^ fds.length + parseNatChars fds)
            (10 ^ fds.length) * tenPow p.1), p.2))

/-- The integer-part continuation of a number token: integer digits `ip`
already read, remainder `r1`. -/
def parseNumTail (neg : Bool) (ip : List Char) (r1 : List Char) :
    Option (Rat × List Char) :=
  if ip = [] then none
  else if 1 < ip.length && decide (ip.head? = some '0') then none
  else if r1.head? = some '.' then
    parseNumFrac neg ip (digitsSpan r1.tail).1 (digitsSpan r1.tail).2
  else
    (parseExp r1).map (fun p =>
      (numSign neg ((parseNatChars ip : Rat) * tenPow p.1), p.2))

/-- Parse a JSON number token (`-?(0|[1-9][0-9]*)(\.[0-9]+)?([eE][+-]?[0-9]+)?`). -/
def parseNum (cs : List Char) : Option (Rat × List Char) :=
  parseNumTail (decide (cs.head? = some '-'))
    (digitsSpan (if cs.head? = some '-' then cs.tail else cs)).1
    (digitsSpan (if cs.head? = some '-' then cs.tail else cs)).2

mutual

/-- Fuel-driven JSON value parser: leading whitespace, then a `null`,
boolean, string, array, object or number token. -/
def parseVal : Nat → List Char → Option (Jval × List Char)
  | 0, _ => none
  | f + 1, cs =>
      if listPrefixB ['n', 'u', 'l', 'l'] (skipWs cs) then some (.null, (skipWs cs).drop 4)
      else if listPrefixB ['t', 'r', 'u', 'e'] (skipWs cs) then some (.bool true, (skipWs cs).drop 4)
      else if listPrefixB ['f', 'a', 'l', 's', 'e'] (skipWs cs) then some (.bool false, (skipWs cs).drop 5)
      else if (skipWs cs).head? = some '"' then
        (parseStrBody (skipWs cs).tail).map (fun p => (.str ⟨p.1⟩, p.2))
      else if (skipWs cs).head? = some '[' then
        if (skipWs (skipWs cs).tail).head? = some ']' then
          some (.arr [], (skipWs (skipWs cs).tail).tail)
        else (parseElems f (skipWs (skipWs cs).tail)).map (fun p => (.arr p.1, p.2))
      else if (skipWs cs).head? = some '\x7b' then
        if (skipWs (skipWs cs).tail).head? = some '\x7d' then
          some (.obj [], (skipWs (skipWs cs).tail).tail)
        else (parseMembers f (skipWs (skipWs cs).tail)).map (fun p => (.obj (assigns [] p.1), p.2))
      else (parseNum (skipWs cs)).map (fun p => (.num p.1, p.2))

/-- Parse the comma-separated elements of a non-empty array up to and
including the closing bracket. -/
def parseElems : Nat → List Char → Option (List Jval × List Char)
  | 0, _ => none
  | f + 1, cs =>
      (parseVal f cs).bind (fun pv =>
        let r2 := skipWs pv.2
        if r2.head? = some ',' then
          (parseElems f r2.tail).map (fun p => (pv.1 :: p.1, p.2))
        else if r2.head? = some ']' then some ([pv.1], r2.tail)
        else none)

/-- Parse the comma-separated members of a non-empty object up to and
including the closing brace. -/
def parseMembers : Nat → List Char → Option (List (String × Jval) × List Char)
  | 0, _ => none
  | f + 1, cs =>
      let c1 := skipWs cs
      if c1.head? = some '"' then
        (parseStrBody c1.tail).bind (fun pk =>
          let r3 := skipWs pk.2
          if r3.head? = some ':' then
            (parseVal f r3.tail).bind (fun pv =>
              let r5 := skipWs pv.2
              if r5.head? = some ',' then
                (parseMembers f r5.tail).map (fun p => ((⟨pk.1⟩, pv.1) :: p.1, p.2))
              else if r5.head? = some '\x7d' then some ([(⟨pk.1⟩, pv.1)], r5.tail)
              else none)
          else none)
      else none

end

/-- `JSON.parse`: parse one JSON value, allowing only whitespace after
it; errors are `SyntaxError`s. -/
def jsonParse (s : String) : Except String Jval :=
  match parseVal (2 * s.data.length + 2) s.data with
  | some (v, rest) =>
      if skipWs rest = [] then .ok v else .error "Unexpected non-whitespace character after JSON data"
  | none => .error "Unexpected token"

/-- The error kinds a `DSLParser.parse` caller can observe: a wrapped
`SyntaxError` from `JSON.parse`, the `Invalid DSL structure` error, or
any other error rethrown unchanged (such as a `TypeError` raised inside
`normalizeDSL`). -/
inductive JsErr where
  | parseError (msg : String)
  | structureError (msg : String)
  | other (msg : String)
deriving Repr, DecidableEq

/-- `DSLParser.parse`: `JSON.parse`, then the `validateDSL` gate, then
`normalizeDSL`; `SyntaxError`s are wrapped as `DSL parsing error: ...`,
everything else propagates unchanged. -/
def parseDSL (text : String) : Except JsErr Jval :=
  match jsonParse text with
  | .error m => .error (.parseError ("DSL parsing error: " ++ m))
  | .ok p =>
      if validateDSL p = true then
        match normalizeDSL p with
        | .ok D => .ok D
        | .error m => .error (.other m)
      else .error (.structureError "Invalid DSL structure")

/-! ### Whitespace, digit and decimal-token lemmas -/

theorem skipWs_cons_ws (c : Char) (cs : List Char) (h : isWsChar c = true) :
    skipWs (c :: cs) = skipWs cs := by
  show (if isWsChar c = true then skipWs cs else c :: cs) = skipWs cs
  rw [if_pos h]

theorem skipWs_cons_not_ws (c : Char) (cs : List Char) (h : isWsChar c = false) :
    skipWs (c :: cs) = c :: cs := by
  show (if isWsChar c = true then skipWs cs else c :: cs) = c :: cs
  rw [if_neg (by simp [h])]

theorem skipWs_replicate_sp (n : Nat) (cs : List Char) :
    skipWs (List.replicate n ' ' ++ cs) = skipWs cs := by
  induction n with
  | zero => rfl
  | succ n ih =>
      rw [List.replicate_succ, List.cons_append, skipWs_cons_ws _ _ (by decide), ih]

theorem skipWs_indentSp (d : Nat) (cs : List Char) :
    skipWs (indentSp d ++ cs) = skipWs cs := skipWs_replicate_sp _ _

theorem skipWs_idem (cs : List Char) : skipWs (skipWs cs) = skipWs cs := by
  induction cs with
  | nil => rfl
  | cons c t ih =>
      by_cases h : isWsChar c = true
      · rw [skipWs_cons_ws _ _ h]; exact ih
      · have h' : isWsChar c = false := by simpa using h
        rw [skipWs_cons_not_ws _ _ h', skipWs_cons_not_ws _ _ h']

theorem digitChar_toNat : ∀ d : Nat, d < 10 → (digitChar d).toNat = 48 + d := by decide

theorem ws_eq_cases (c : Char) (h : isWsChar c = true) :
    c = ' ' ∨ c = '\n' ∨ c = '\t' ∨ c = '\r' := by
  have h' := h
  simp only [isWsChar, Bool.or_eq_true, decide_eq_true_eq] at h'
  tauto

theorem digit_not_ws (c : Char) (h : isDigitChar c = true) : isWsChar c = false := by
  by_contra hw
  have hw' : isWsChar c = true := by simpa using hw
  rcases ws_eq_cases c hw' with h1 | h1 | h1 | h1 <;> (subst h1; revert h; decide)

theorem digit_ne (c x : Char) (h : isDigitChar c = true)
    (hx : isDigitChar x = false) : c ≠ x := by
  intro he; subst he; rw [h] at hx; exact absurd hx (by simp)

/-- Does the text not continue a digit run? -/
def headNotDigit : List Char → Bool
  | [] => true
  | c :: _ => !(isDigitChar c)

theorem digitsSpan_append (ds rest : List Char)
    (hds : ∀ c ∈ ds, isDigitChar c = true) (hr : headNotDigit rest = true) :
    digitsSpan (ds ++ rest) = (ds, rest) := by
  induction ds with
  | nil =>
      cases rest with
      | nil => rfl
      | cons c t =>
          have hc : isDigitChar c = false := by
            have := hr
            unfold headNotDigit at this
            simpa using this
          show digitsSpan (c :: t) = ([], c :: t)
          unfold digitsSpan
          rw [if_neg (by simp [hc])]
  | cons d ds' ih =>
      have hd : isDigitChar d = true := hds d (by simp)
      show digitsSpan (d :: (ds' ++ rest)) = (d :: ds', rest)
      unfold digitsSpan
      rw [if_pos hd, ih (fun c hc => hds c (by simp [hc]))]

theorem parseNatChars_zeros (z : Nat) (ds : List Char) :
    parseNatChars (List.replicate z '0' ++ ds) = parseNatChars ds := by
  induction z with
  | zero => rfl
  | succ z ih =>
      rw [List.replicate_succ, List.cons_append]
      exact ih

theorem natDigsCore_acc : ∀ (f n : Nat) (acc : List Char),
    natDigsCore f n acc = natDigsCore f n [] ++ acc := by
  intro f
  induction f with
  | zero => intro n acc; rfl
  | succ f ih =>
      intro n acc
      unfold natDigsCore
      by_cases h : n < 10
      · rw [if_pos h, if_pos h]; rfl
      · rw [if_neg h, if_neg h, ih (n / 10) (digitChar (n % 10) :: acc),
          ih (n / 10) [digitChar (n % 10)], List.append_assoc]
        rfl

theorem natDigsCore_val : ∀ (f n : Nat), n < 10 ^ f → ∀ (a : Nat),
    List.foldl (fun a c => a * 10 + (c.toNat - 48)) a (natDigsCore f n [])
      = a * 10 ^ (natDigsCore f n []).length + n := by
  intro f
  induction f with
  | zero =>
      intro n h a
      have hn : n = 0 := by simpa using h
      subst hn
      simp [natDigsCore]
  | succ f ih =>
      intro n h a
      by_cases hn : n < 10
      · have he : natDigsCore (f + 1) n [] = [digitChar n] := by
          show (if n < 10 then digitChar n :: []
            else natDigsCore f (n / 10) (digitChar (n % 10) :: [])) = [digitChar n]
          rw [if_pos hn]
        rw [he]
        simp only [List.foldl_cons, List.foldl_nil, digitChar_toNat n hn,
          List.length_singleton, pow_one]
        omega
      · have hrec : natDigsCore (f + 1) n []
            = natDigsCore f (n / 10) [] ++ [digitChar (n % 10)] := by
          show (if n < 10 then digitChar n :: []
              else natDigsCore f (n / 10) (digitChar (n % 10) :: []))
            = natDigsCore f (n / 10) [] ++ [digitChar (n % 10)]
          rw [if_neg hn, natDigsCore_acc]
        have hdiv : n / 10 < 10 ^ f := by
          have h10 : n < 10 ^ f * 10 := by
            have : (10 : Nat) ^ (f + 1) = 10 ^ f * 10 := pow_succ 10 f
            omega
          exact Nat.div_lt_of_lt_mul (by omega)
        rw [hrec, List.foldl_append, ih (n / 10) hdiv a]
        have hm : (digitChar (n % 10)).toNat = 48 + n % 10 :=
          digitChar_toNat (n % 10) (Nat.mod_lt n (by omega))
        simp only [List.foldl_cons, List.foldl_nil, List.length_append,
          List.length_singleton, hm]
        have hdm := Nat.div_add_mod n 10
        have hp : (10 : Nat) ^ ((natDigsCore f (n / 10) []).length + 1)
            = 10 ^ (natDigsCore f (n / 10) []).length * 10 := pow_succ 10 _
        rw [hp]
        ring_nf
        omega

theorem parseNatChars_natDigs (n : Nat) : parseNatChars (natDigs n) = n := by
  have h1 : n < 10 ^ n := Nat.lt_pow_self (by norm_num) n
  have h2 : (10 : Nat) ^ n ≤ 10 ^ (n + 1) :=
    Nat.pow_le_pow_right (by norm_num) (by omega)
  have h := natDigsCore_val (n + 1) n (by omega) 0
  show List.foldl _ 0 (natDigsCore (n + 1) n []) = n
  rw [h]
  simp

theorem natDigsCore_len_le : ∀ (f n k : Nat), n < 10 ^ f → 1 ≤ k → n < 10 ^ k →
    (natDigsCore f n []).length ≤ k := by
  intro f
  induction f with
  | zero =>
      intro n k h1 _ _
      have hn : n = 0 := by simpa using h1
      subst hn
      simp [natDigsCore]
  | succ f ih =>
      intro n k h1 hk h3
      by_cases hn : n < 10
      · have he : natDigsCore (f + 1) n [] = [digitChar n] := by
          unfold natDigsCore; rw [if_pos hn]
        rw [he]; simpa using hk
      · have hrec : natDigsCore (f + 1) n []
            = natDigsCore f (n / 10) [] ++ [digitChar (n % 10)] := by
          show (if n < 10 then digitChar n :: []
              else natDigsCore f (n / 10) (digitChar (n % 10) :: []))
            = natDigsCore f (n / 10) [] ++ [digitChar (n % 10)]
          rw [if_neg hn, natDigsCore_acc]
        have hk2 : 2 ≤ k := by
          by_contra hc
          have hk1 : k = 1 := by omega
          subst hk1
          simp only [pow_one] at h3
          omega
        have hdiv : n / 10 < 10 ^ f := by
          have h10 : n < 10 ^ f * 10 := by
            have : (10 : Nat) ^ (f + 1) = 10 ^ f * 10 := pow_succ 10 f
            omega
          exact Nat.div_lt_of_lt_mul (by omega)
        have hdivk : n / 10 < 10 ^ (k - 1) := by
          have h10 : n < 10 ^ (k - 1) * 10 := by
            have hke : k = k - 1 + 1 := by omega
            have hpk : (10 : Nat) ^ k = 10 ^ (k - 1) * 10 := by
              calc (10 : Nat) ^ k = 10 ^ (k - 1 + 1) := by rw [← hke]
                _ = 10 ^ (k - 1) * 10 := pow_succ 10 _
            omega
          exact Nat.div_lt_of_lt_mul (by omega)
        have := ih (n / 10) (k - 1) hdiv (by omega) hdivk
        rw [hrec, List.length_append]
        simp only [List.length_singleton]
        omega

theorem natDigsCore_head_pos : ∀ (f n : Nat), 0 < n → n < 10 ^ f →
    ∃ d t, natDigsCore f n [] = digitChar d :: t ∧ 0 < d ∧ d < 10 := by
  intro f
  induction f with
  | zero =>
      intro n h1 h2
      have : n = 0 := by simpa using h2
      omega
  | succ f ih =>
      intro n h1 h2
      by_cases hn : n < 10
      · refine ⟨n, [], ?_, h1, hn⟩
        show (if n < 10 then digitChar n :: []
          else natDigsCore f (n / 10) (digitChar (n % 10) :: [])) = [digitChar n]
        rw [if_pos hn]
      · have hrec : natDigsCore (f + 1) n []
            = natDigsCore f (n / 10) [] ++ [digitChar (n % 10)] := by
          show (if n < 10 then digitChar n :: []
              else natDigsCore f (n / 10) (digitChar (n % 10) :: []))
            = natDigsCore f (n / 10) [] ++ [digitChar (n % 10)]
          rw [if_neg hn, natDigsCore_acc]
        have hdiv : n / 10 < 10 ^ f := by
          have h10 : n < 10 ^ f * 10 := by
            have : (10 : Nat) ^ (f + 1) = 10 ^ f * 10 := pow_succ 10 f
            omega
          exact Nat.div_lt_of_lt_mul (by omega)
        obtain ⟨d, t, hd, hd0, hd10⟩ := ih (n / 10) (by omega) hdiv
        exact ⟨d, t ++ [digitChar (n % 10)], by rw [hrec, hd]; rfl, hd0, hd10⟩

theorem natDigs_no_leading_zero (n : Nat) :
    (1 < (natDigs n).length && decide ((natDigs n).head? = some '0')) = false := by
  by_cases hn : 0 < n
  · have h1 : n < 10 ^ n := Nat.lt_pow_self (by norm_num) n
    have h2 : (10 : Nat) ^ n ≤ 10 ^ (n + 1) :=
      Nat.pow_le_pow_right (by norm_num) (by omega)
    obtain ⟨d, t, hd, hd0, hd10⟩ := natDigsCore_head_pos (n + 1) n hn (by omega)
    have he : natDigs n = digitChar d :: t := hd
    rw [he]
    have : digitChar d ≠ '0' := by
      interval_cases d <;> decide
    simp [List.head?, this]
  · have hn0 : n = 0 := by omega
    subst hn0
    decide

theorem natDigs_all_digits (n : Nat) : ∀ c ∈ natDigs n, isDigitChar c = true :=
  natDigsCore_digits (n + 1) n [] (by simp)

/-- Does the text not extend a printed number token? -/
def numStop : List Char → Bool
  | [] => true
  | c :: _ =>
      !(isDigitChar c || decide (c = '.') || decide (c = 'e') || decide (c = 'E'))

theorem numStop_facts (rest : List Char) (h : numStop rest = true) :
    headNotDigit rest = true ∧ rest.head? ≠ some '.'
      ∧ ¬(rest.head? = some 'e' ∨ rest.head? = some 'E') := by
  cases rest with
  | nil => exact ⟨rfl, by simp, by simp⟩
  | cons c t =>
      have h' : isDigitChar c = false ∧ c ≠ '.' ∧ c ≠ 'e' ∧ c ≠ 'E' := by
        have hh := h
        unfold numStop at hh
        simp only [Bool.not_eq_true', Bool.or_eq_false_iff,
          decide_eq_false_iff_not] at hh
        exact ⟨hh.1.1.1, hh.1.1.2, hh.1.2, hh.2⟩
      refine ⟨?_, ?_, ?_⟩
      · unfold headNotDigit
        simp [h'.1]
      · simp [List.head?]
        exact h'.2.1
      · simp [List.head?]
        exact ⟨h'.2.2.1, h'.2.2.2⟩

/-! ### String-literal escaping round-trip -/

theorem hexVal_hexDig : ∀ n : Nat, n < 16 → hexVal (hexDig n) = some n := by decide

theorem parseStrBody_cons (c : Char) (rest : List Char) :
    parseStrBody (c :: rest)
      = if c = '"' then some ([], rest)
        else if c = '\\' then parseEsc rest
        else if c.toNat < 32 then none
        else (parseStrBody rest).map (fun p => (c :: p.1, p.2)) := rfl

theorem parseStrBody_escStr (s rest : List Char) :
    parseStrBody (escStr s ++ '"' :: rest) = some (s, rest) := by
  induction s with
  | nil => rfl
  | cons c t ih =>
      have he : escStr (c :: t) = escChar c ++ escStr t := rfl
      rw [he, List.append_assoc]
      by_cases h1 : c = '"'
      · subst h1
        show (parseStrBody (escStr t ++ '"' :: rest)).map (fun p => ('"' :: p.1, p.2)) = _
        rw [ih]
        rfl
      · by_cases h2 : c = '\\'
        · subst h2
          show (parseStrBody (escStr t ++ '"' :: rest)).map (fun p => ('\\' :: p.1, p.2)) = _
          rw [ih]
          rfl
        · by_cases h3 : c = '\x08'
          · subst h3
            show (parseStrBody (escStr t ++ '"' :: rest)).map (fun p => ('\x08' :: p.1, p.2)) = _
            rw [ih]
            rfl
          · by_cases h4 : c = '\t'
            · subst h4
              show (parseStrBody (escStr t ++ '"' :: rest)).map (fun p => ('\t' :: p.1, p.2)) = _
              rw [ih]
              rfl
            · by_cases h5 : c = '\n'
              · subst h5
                show (parseStrBody (escStr t ++ '"' :: rest)).map (fun p => ('\n' :: p.1, p.2)) = _
                rw [ih]
                rfl
              · by_cases h6 : c = '\x0c'
                · subst h6
                  show (parseStrBody (escStr t ++ '"' :: rest)).map (fun p => ('\x0c' :: p.1, p.2)) = _
                  rw [ih]
                  rfl
                · by_cases h7 : c = '\r'
                  · subst h7
                    show (parseStrBody (escStr t ++ '"' :: rest)).map (fun p => ('\r' :: p.1, p.2)) = _
                    rw [ih]
                    rfl
                  · by_cases h8 : c.toNat < 32
                    · have hesc : escChar c
                          = ['\\', 'u', '0', '0', hexDig (c.toNat / 16), hexDig (c.toNat % 16)] := by
                        unfold escChar
                        rw [if_neg h1, if_neg h2, if_neg h3, if_neg h4, if_neg h5,
                          if_neg h6, if_neg h7, if_pos h8]
                      rw [hesc]
                      show (if ((hexVal '0').isSome && (hexVal '0').isSome
                            && (hexVal (hexDig (c.toNat / 16))).isSome
                            && (hexVal (hexDig (c.toNat % 16))).isSome) = true then
                          (parseStrBody (escStr t ++ '"' :: rest)).map (fun p =>
                            (Char.ofNat ((((hexVal '0').getD 0 * 16 + (hexVal '0').getD 0) * 16
                              + (hexVal (hexDig (c.toNat / 16))).getD 0) * 16
                              + (hexVal (hexDig (c.toNat % 16))).getD 0) :: p.1, p.2))
                        else none) = some (c :: t, rest)
                      rw [hexVal_hexDig (c.toNat / 16) (by omega),
                        hexVal_hexDig (c.toNat % 16) (by omega)]
                      have hc : ((hexVal '0').isSome && (hexVal '0').isSome
                          && (Option.some (c.toNat / 16)).isSome
                          && (Option.some (c.toNat % 16)).isSome) = true := rfl
                      rw [if_pos hc, ih]
                      have hg : (((hexVal '0').getD 0 * 16 + (hexVal '0').getD 0) * 16
                            + (Option.some (c.toNat / 16)).getD 0) * 16
                            + (Option.some (c.toNat % 16)).getD 0 = c.toNat := by
                        show ((0 * 16 + 0) * 16 + c.toNat / 16) * 16 + c.toNat % 16 = c.toNat
                        omega
                      rw [hg, Char.ofNat_toNat]
                      rfl
                    · have hesc : escChar c = [c] := by
                        unfold escChar
                        rw [if_neg h1, if_neg h2, if_neg h3, if_neg h4, if_neg h5,
                          if_neg h6, if_neg h7, if_neg h8]
                      rw [hesc]
                      show parseStrBody (c :: (escStr t ++ '"' :: rest)) = some (c :: t, rest)
                      rw [parseStrBody_cons, if_neg h1, if_neg h2, if_neg h8, ih]
                      rfl

/-! ### Number-token round-trip -/

theorem decExp_mod (den k : Nat) (h : decExp den = some k) : 10 ^ k % den = 0 := by
  unfold decExp at h
  have h2 := List.find?_some h
  exact of_decide_eq_true h2

theorem decExp_one : decExp 1 = some 0 := by decide

theorem printNum_eq_some (q : Rat) (k : Nat) (hk : decExp q.den = some k) :
    printNum q
      = if k = 0 then printSign q ++ natDigs (q.num.natAbs * (10 ^ k / q.den))
        else
          printSign q ++ natDigs (q.num.natAbs * (10 ^ k / q.den) / 10 ^ k) ++ '.' ::
            (List.replicate (k - (natDigs (q.num.natAbs * (10 ^ k / q.den) % 10 ^ k)).length) '0'
              ++ natDigs (q.num.natAbs * (10 ^ k / q.den) % 10 ^ k)) := by
  unfold printNum
  rw [hk]

theorem parseExp_stop (rest : List Char)
    (h : ¬(rest.head? = some 'e' ∨ rest.head? = some 'E')) :
    parseExp rest = some (0, rest) := by
  push_neg at h
  have hb : (decide (rest.head? = some 'e') || decide (rest.head? = some 'E')) = false := by
    simp [h.1, h.2]
  unfold parseExp
  rw [if_neg (by rw [hb]; simp)]

theorem numSign_false (q : Rat) : numSign false q = q := rfl

theorem numSign_true (q : Rat) : numSign true q = -q := rfl

theorem tenPow_zero : tenPow 0 = 1 := pow_zero (10 : Rat)

theorem mkRat_shift (a den k : Nat) (hden : den ≠ 0) (hdvd : den ∣ 10 ^ k) :
    mkRat ((a * (10 ^ k / den) : Nat) : Int) ((10 : Nat) ^ k) = mkRat (a : Int) den := by
  have hc : (10 ^ k / den) * den = 10 ^ k := Nat.div_mul_cancel hdvd
  have hc' : ((10 ^ k / den : Nat) : Int) * (den : Int) = ((10 : Int)) ^ k := by
    exact_mod_cast hc
  have h10 : (10 : Nat) ^ k ≠ 0 := pow_ne_zero k (by norm_num)
  rw [Rat.mkRat_eq_iff h10 hden]
  rw [Nat.cast_mul, mul_assoc, hc']
  norm_cast

theorem nat_lt_pow_self_succ (n : Nat) : n < 10 ^ (n + 1) :=
  lt_of_lt_of_le (Nat.lt_pow_self (by norm_num) n)
    (Nat.pow_le_pow_right (by norm_num) (by omega))

theorem natDigs_len_le (n k : Nat) (hk : 1 ≤ k) (hn : n < 10 ^ k) :
    (natDigs n).length ≤ k :=
  natDigsCore_len_le (n + 1) n k (nat_lt_pow_self_succ n) hk hn

theorem parseNum_neg_head (X : List Char) :
    parseNum ('-' :: X) = parseNumTail true (digitsSpan X).1 (digitsSpan X).2 := rfl

theorem parseNum_digit_head (c : Char) (X : List Char) (h : isDigitChar c = true) :
    parseNum (c :: X)
      = parseNumTail false (digitsSpan (c :: X)).1 (digitsSpan (c :: X)).2 := by
  have hcneg : c ≠ '-' := digit_ne c '-' h (by decide)
  unfold parseNum
  rw [show ((c :: X).head? : Option Char) = some c from rfl,
    decide_eq_false (by simp [hcneg]), if_neg (by simp [hcneg])]

theorem parseNumTail_noDot (neg : Bool) (ip r1 : List Char) (h1 : ip ≠ [])
    (h2 : (1 < ip.length && decide (ip.head? = some '0')) = false)
    (h3 : ¬r1.head? = some '.') :
    parseNumTail neg ip r1
      = (parseExp r1).map (fun p =>
          (numSign neg ((parseNatChars ip : Rat) * tenPow p.1), p.2)) := by
  unfold parseNumTail
  rw [if_neg h1, if_neg (by rw [h2]; simp), if_neg h3]

theorem parseNumTail_dot (neg : Bool) (ip C : List Char) (h1 : ip ≠ [])
    (h2 : (1 < ip.length && decide (ip.head? = some '0')) = false) :
    parseNumTail neg ip ('.' :: C)
      = parseNumFrac neg ip (digitsSpan C).1 (digitsSpan C).2 := by
  unfold parseNumTail
  rw [if_neg h1, if_neg (by rw [h2]; simp),
    if_pos (show (('.' :: C).head? : Option Char) = some '.' from rfl)]
  rfl

theorem parseNumFrac_eval (neg : Bool) (ip fds rest : List Char) (hf : fds ≠ [])
    (hpe : parseExp rest = some (0, rest)) :
    parseNumFrac neg ip fds rest
      = some (numSign neg
          (mkRat (parseNatChars ip * 10 ^ fds.length + parseNatChars fds)
            (10 ^ fds.length) * tenPow 0), rest) := by
  unfold parseNumFrac
  rw [if_neg hf, hpe]
  rfl

theorem natDigs_head_digit (n : Nat) :
    ∃ c t, natDigs n = c :: t ∧ isDigitChar c = true := by
  cases hh : natDigs n with
  | nil => exact absurd hh (natDigs_ne_nil _)
  | cons c t =>
      refine ⟨c, t, rfl, ?_⟩
      apply natDigs_all_digits n c
      rw [hh]; simp

theorem parseNum_printNum (q : Rat) (hq : numOKq q = true) (rest : List Char)
    (hrest : numStop rest = true) :
    parseNum (printNum q ++ rest) = some (q, rest) := by
  obtain ⟨hnd, hndot, hnexp⟩ := numStop_facts rest hrest
  obtain ⟨k, hk⟩ := Option.isSome_iff_exists.mp hq
  have hden0 : q.den ≠ 0 := q.den_nz
  have hpe := parseExp_stop rest hnexp
  by_cases h0 : k = 0
  · subst h0
    have hmod := decExp_mod q.den 0 hk
    have hden1 : q.den = 1 := by
      have hd := Nat.dvd_of_mod_eq_zero hmod
      rw [pow_zero] at hd
      exact Nat.dvd_one.mp hd
    have hpn := printNum_eq_some q 0 hk
    rw [if_pos rfl] at hpn
    have hm : q.num.natAbs * (10 ^ 0 / q.den) = q.num.natAbs := by
      rw [hden1, pow_zero]
      simp
    rw [hm] at hpn
    have hds := digitsSpan_append (natDigs q.num.natAbs) rest (natDigs_all_digits _) hnd
    have h2 : ((q.num : Int) : Rat) = q := (Rat.den_eq_one_iff q).mp hden1
    by_cases hneg : q.num < 0
    · have hps : printSign q = ['-'] := by unfold printSign; rw [if_pos hneg]
      rw [hpn, hps]
      simp only [List.singleton_append, List.cons_append, List.append_assoc,
        List.nil_append]
      rw [parseNum_neg_head, hds]
      dsimp only
      rw [parseNumTail_noDot true _ rest (natDigs_ne_nil _)
        (natDigs_no_leading_zero _) hndot, hpe]
      simp only [Option.map_some']
      rw [parseNatChars_natDigs, tenPow_zero, mul_one, numSign_true]
      have h1 : ((q.num.natAbs : Nat) : Int) = -q.num := by
        rw [← Int.natAbs_neg]
        exact Int.natAbs_of_nonneg (by omega)
      rw [show ((q.num.natAbs : Nat) : Rat) = (((q.num.natAbs : Nat) : Int) : Rat)
        from (Int.cast_natCast _).symm, h1, Int.cast_neg, h2, neg_neg]
    · have hps : printSign q = [] := by unfold printSign; rw [if_neg hneg]
      rw [hpn, hps]
      simp only [List.singleton_append, List.cons_append, List.append_assoc,
        List.nil_append]
      obtain ⟨c, t, hct, hcdig⟩ := natDigs_head_digit q.num.natAbs
      have hform : natDigs q.num.natAbs ++ rest = c :: (t ++ rest) := by rw [hct]; rfl
      rw [hform, parseNum_digit_head c _ hcdig, ← hform, hds]
      dsimp only
      rw [parseNumTail_noDot false _ rest (natDigs_ne_nil _)
        (natDigs_no_leading_zero _) hndot, hpe]
      simp only [Option.map_some']
      rw [parseNatChars_natDigs, tenPow_zero, mul_one, numSign_false]
      have h1 : ((q.num.natAbs : Nat) : Int) = q.num := Int.natAbs_of_nonneg (by omega)
      rw [show ((q.num.natAbs : Nat) : Rat) = (((q.num.natAbs : Nat) : Int) : Rat)
        from (Int.cast_natCast _).symm, h1, h2]
  · have hk1 : 1 ≤ k := by omega
    have hmod := decExp_mod q.den k hk
    have hdvd : q.den ∣ 10 ^ k := Nat.dvd_of_mod_eq_zero hmod
    have hpow0 : (0 : Nat) < 10 ^ k := pow_pos (by norm_num) k
    have hpn := printNum_eq_some q k hk
    rw [if_neg h0] at hpn
    obtain ⟨m, hm⟩ : ∃ m, m = q.num.natAbs * (10 ^ k / q.den) := ⟨_, rfl⟩
    rw [← hm] at hpn
    have hfdlen : (natDigs (m % 10 ^ k)).length ≤ k :=
      natDigs_len_le _ k hk1 (Nat.mod_lt _ hpow0)
    have hfd_digits : ∀ c ∈ List.replicate (k - (natDigs (m % 10 ^ k)).length) '0'
          ++ natDigs (m % 10 ^ k), isDigitChar c = true := by
      intro c hc
      rcases List.mem_append.mp hc with h | h
      · rw [List.eq_of_mem_replicate h]; decide
      · exact natDigs_all_digits _ c h
    have hds2 := digitsSpan_append _ rest hfd_digits hnd
    have hds2' : digitsSpan (List.replicate (k - (natDigs (m % 10 ^ k)).length) '0'
          ++ (natDigs (m % 10 ^ k) ++ rest))
        = (List.replicate (k - (natDigs (m % 10 ^ k)).length) '0'
            ++ natDigs (m % 10 ^ k), rest) := by
      rw [← List.append_assoc]
      exact hds2
    have hfne : List.replicate (k - (natDigs (m % 10 ^ k)).length) '0'
        ++ natDigs (m % 10 ^ k) ≠ [] := by
      simp [natDigs_ne_nil]
    have hlen : (List.replicate (k - (natDigs (m % 10 ^ k)).length) '0'
        ++ natDigs (m % 10 ^ k)).length = k := by
      rw [List.length_append, List.length_replicate]
      omega
    have hsum : m / 10 ^ k * 10 ^ k + m % 10 ^ k = m := by
      rw [Nat.mul_comm (m / 10 ^ k) (10 ^ k)]
      exact Nat.div_add_mod m (10 ^ k)
    have hsumZ : ((m / 10 ^ k : Nat) : Int) * 10 ^ k + ((m % 10 ^ k : Nat) : Int)
        = ((m : Nat) : Int) := by
      exact_mod_cast hsum
    have hds1 := digitsSpan_append (natDigs (m / 10 ^ k))
      ('.' :: (List.replicate (k - (natDigs (m % 10 ^ k)).length) '0'
        ++ (natDigs (m % 10 ^ k) ++ rest)))
      (natDigs_all_digits _) rfl
    by_cases hneg : q.num < 0
    · have hps : printSign q = ['-'] := by unfold printSign; rw [if_pos hneg]
      rw [hpn, hps]
      simp only [List.singleton_append, List.cons_append, List.append_assoc,
        List.nil_append]
      rw [parseNum_neg_head, hds1]
      dsimp only
      rw [parseNumTail_dot true _ _ (natDigs_ne_nil _) (natDigs_no_leading_zero _)]
      rw [hds2']
      dsimp only
      rw [parseNumFrac_eval true _ _ rest hfne hpe]
      rw [hlen, parseNatChars_natDigs, parseNatChars_zeros, parseNatChars_natDigs,
        hsumZ, tenPow_zero, mul_one, numSign_true, hm,
        mkRat_shift q.num.natAbs q.den k hden0 hdvd]
      have h1 : ((q.num.natAbs : Nat) : Int) = -q.num := by
        rw [← Int.natAbs_neg]
        exact Int.natAbs_of_nonneg (by omega)
      rw [Rat.neg_mkRat, h1, neg_neg, Rat.mkRat_self]
    · have hps : printSign q = [] := by unfold printSign; rw [if_neg hneg]
      rw [hpn, hps]
      simp only [List.singleton_append, List.cons_append, List.append_assoc,
        List.nil_append]
      obtain ⟨c, t, hct, hcdig⟩ := natDigs_head_digit (m / 10 ^ k)
      have hform : natDigs (m / 10 ^ k)
            ++ '.' :: (List.replicate (k - (natDigs (m % 10 ^ k)).length) '0'
              ++ (natDigs (m % 10 ^ k) ++ rest))
          = c :: (t ++ '.' :: (List.replicate (k - (natDigs (m % 10 ^ k)).length) '0'
              ++ (natDigs (m % 10 ^ k) ++ rest))) := by
        rw [hct]; rfl
      rw [hform, parseNum_digit_head c _ hcdig, ← hform, hds1]
      dsimp only
      rw [parseNumTail_dot false _ _ (natDigs_ne_nil _) (natDigs_no_leading_zero _)]
      rw [hds2']
      dsimp only
      rw [parseNumFrac_eval false _ _ rest hfne hpe]
      rw [hlen, parseNatChars_natDigs, parseNatChars_zeros, parseNatChars_natDigs,
        hsumZ, tenPow_zero, mul_one, numSign_false, hm,
        mkRat_shift q.num.natAbs q.den k hden0 hdvd]
      have h1 : ((q.num.natAbs : Nat) : Int) = q.num := Int.natAbs_of_nonneg (by omega)
      rw [h1, Rat.mkRat_self]

/-! ### Parser-printer round-trip -/

theorem parseVal_succ (f : Nat) (cs : List Char) :
    parseVal (f + 1) cs
      = if listPrefixB ['n', 'u', 'l', 'l'] (skipWs cs) then some (.null, (skipWs cs).drop 4)
        else if listPrefixB ['t', 'r', 'u', 'e'] (skipWs cs) then
          some (.bool true, (skipWs cs).drop 4)
        else if listPrefixB ['f', 'a', 'l', 's', 'e'] (skipWs cs) then
          some (.bool false, (skipWs cs).drop 5)
        else if (skipWs cs).head? = some '"' then
          (parseStrBody (skipWs cs).tail).map (fun p => (.str ⟨p.1⟩, p.2))
        else if (skipWs cs).head? = some '[' then
          if (skipWs (skipWs cs).tail).head? = some ']' then
            some (.arr [], (skipWs (skipWs cs).tail).tail)
          else (parseElems f (skipWs (skipWs cs).tail)).map (fun p => (.arr p.1, p.2))
        else if (skipWs cs).head? = some '\x7b' then
          if (skipWs (skipWs cs).tail).head? = some '\x7d' then
            some (.obj [], (skipWs (skipWs cs).tail).tail)
          else (parseMembers f (skipWs (skipWs cs).tail)).map
            (fun p => (.obj (assigns [] p.1), p.2))
        else (parseNum (skipWs cs)).map (fun p => (.num p.1, p.2)) := rfl

theorem parseElems_succ (f : Nat) (cs : List Char) :
    parseElems (f + 1) cs
      = (parseVal f cs).bind (fun pv =>
          if (skipWs pv.2).head? = some ',' then
            (parseElems f (skipWs pv.2).tail).map (fun p => (pv.1 :: p.1, p.2))
          else if (skipWs pv.2).head? = some ']' then some ([pv.1], (skipWs pv.2).tail)
          else none) := rfl

theorem parseMembers_succ (f : Nat) (cs : List Char) :
    parseMembers (f + 1) cs
      = if (skipWs cs).head? = some '"' then
          (parseStrBody (skipWs cs).tail).bind (fun pk =>
            if (skipWs pk.2).head? = some ':' then
              (parseVal f (skipWs pk.2).tail).bind (fun pv =>
                if (skipWs pv.2).head? = some ',' then
                  (parseMembers f (skipWs pv.2).tail).map
                    (fun p => ((⟨pk.1⟩, pv.1) :: p.1, p.2))
                else if (skipWs pv.2).head? = some '\x7d' then
                  some ([(⟨pk.1⟩, pv.1)], (skipWs pv.2).tail)
                else none)
            else none)
        else none := rfl

theorem printNum_head (q : Rat) :
    ∃ h Y, printNum q = h :: Y ∧ (h = '-' ∨ isDigitChar h = true) := by
  have hsign : ∀ (X : List Char) (c : Char) (t : List Char), X = c :: t →
      isDigitChar c = true →
      ∃ h Y, printSign q ++ X = h :: Y ∧ (h = '-' ∨ isDigitChar h = true) := by
    intro X c t hX hc
    by_cases hneg : q.num < 0
    · refine ⟨'-', X, ?_, Or.inl rfl⟩
      unfold printSign
      rw [if_pos hneg]
      rfl
    · refine ⟨c, t, ?_, Or.inr hc⟩
      unfold printSign
      rw [if_neg hneg, hX]
      rfl
  cases hd : decExp q.den with
  | some k =>
      rw [printNum_eq_some q k hd]
      by_cases h0 : k = 0
      · rw [if_pos h0]
        obtain ⟨c, t, hct, hc⟩ := natDigs_head_digit (q.num.natAbs * (10 ^ k / q.den))
        exact hsign _ c t hct hc
      · rw [if_neg h0, List.append_assoc]
        obtain ⟨c, t, hct, hc⟩ := natDigs_head_digit (q.num.natAbs * (10 ^ k / q.den) / 10 ^ k)
        exact hsign
          (natDigs (q.num.natAbs * (10 ^ k / q.den) / 10 ^ k) ++ '.' ::
            (List.replicate (k - (natDigs (q.num.natAbs * (10 ^ k / q.den) % 10 ^ k)).length) '0'
              ++ natDigs (q.num.natAbs * (10 ^ k / q.den) % 10 ^ k)))
          c
          (t ++ '.' ::
            (List.replicate (k - (natDigs (q.num.natAbs * (10 ^ k / q.den) % 10 ^ k)).length) '0'
              ++ natDigs (q.num.natAbs * (10 ^ k / q.den) % 10 ^ k)))
          (by rw [hct]; rfl) hc
  | none =>
      have hnone : printNum q = printSign q ++ natDigs q.num.natAbs ++ '/' :: natDigs q.den := by
        unfold printNum
        rw [hd]
      rw [hnone, List.append_assoc]
      obtain ⟨c, t, hct, hc⟩ := natDigs_head_digit q.num.natAbs
      exact hsign (natDigs q.num.natAbs ++ '/' :: natDigs q.den) c
        (t ++ '/' :: natDigs q.den) (by rw [hct]; rfl) hc

theorem printV_head (d : Nat) (v : Jval) :
    ∃ c t, printV d v = c :: t ∧ isWsChar c = false
      ∧ c ≠ ']' ∧ c ≠ '\x7d' ∧ c ≠ ',' := by
  cases v with
  | null => exact ⟨'n', _, rfl, by decide, by decide, by decide, by decide⟩
  | bool b =>
      cases b with
      | true => exact ⟨'t', _, rfl, by decide, by decide, by decide, by decide⟩
      | false => exact ⟨'f', _, rfl, by decide, by decide, by decide, by decide⟩
  | str s => exact ⟨'"', escStr s.data ++ ['"'], rfl, by decide, by decide, by decide, by decide⟩
  | num q =>
      obtain ⟨h, Y, hpq, hh⟩ := printNum_head q
      refine ⟨h, Y, hpq, ?_, ?_, ?_, ?_⟩
      · rcases hh with h1 | h1
        · subst h1; decide
        · exact digit_not_ws h h1
      · rcases hh with h1 | h1
        · subst h1; decide
        · exact digit_ne h ']' h1 (by decide)
      · rcases hh with h1 | h1
        · subst h1; decide
        · exact digit_ne h '\x7d' h1 (by decide)
      · rcases hh with h1 | h1
        · subst h1; decide
        · exact digit_ne h ',' h1 (by decide)
  | arr xs =>
      cases xs with
      | nil => exact ⟨'[', _, rfl, by decide, by decide, by decide, by decide⟩
      | cons x xs' => exact ⟨'[', _, rfl, by decide, by decide, by decide, by decide⟩
  | obj kvs =>
      cases kvs with
      | nil => exact ⟨'\x7b', _, rfl, by decide, by decide, by decide, by decide⟩
      | cons m ms => exact ⟨'\x7b', _, rfl, by decide, by decide, by decide, by decide⟩

theorem skipWs_print (d : Nat) (v : Jval) (X : List Char) :
    skipWs (printV d v ++ X) = printV d v ++ X := by
  obtain ⟨c, t, hct, hws, _, _, _⟩ := printV_head d v
  rw [hct, List.cons_append, skipWs_cons_not_ws c _ hws]

theorem listPrefixB_head_ne (p c : Char) (ps Y : List Char) (hne : c ≠ p) :
    listPrefixB (p :: ps) (c :: Y) = false := by
  show (decide (p = c) && listPrefixB ps Y) = false
  rw [decide_eq_false (fun h => hne h.symm)]
  rfl

theorem parseVal_succ_num (f : Nat) (cs : List Char) (h : Char) (Y : List Char)
    (hcs : skipWs cs = h :: Y)
    (hn : h ≠ 'n') (ht : h ≠ 't') (hf : h ≠ 'f') (hq : h ≠ '"')
    (hlb : h ≠ '[') (hob : h ≠ '\x7b') :
    parseVal (f + 1) cs = (parseNum (h :: Y)).map (fun p => (.num p.1, p.2)) := by
  rw [parseVal_succ, hcs, listPrefixB_head_ne 'n' h _ _ hn,
    listPrefixB_head_ne 't' h _ _ ht, listPrefixB_head_ne 'f' h _ _ hf,
    if_neg (show ¬(false = true) by simp), if_neg (show ¬(false = true) by simp),
    if_neg (show ¬(false = true) by simp),
    show ((h :: Y).head? : Option Char) = some h from rfl,
    if_neg (by simp [hq]), if_neg (by simp [hlb]), if_neg (by simp [hob])]

theorem numsOKL_mem (xs : List Jval) (h : numsOKL xs = true) :
    ∀ x ∈ xs, numsOK x = true := by
  induction xs with
  | nil => intro x hx; simp at hx
  | cons y rest ih =>
      intro x hx
      have h' : (numsOK y && numsOKL rest) = true := h
      rw [Bool.and_eq_true] at h'
      rcases List.mem_cons.mp hx with h1 | h1
      · rw [h1]; exact h'.1
      · exact ih h'.2 x h1

theorem numsOKM_mem (ms : List (String × Jval)) (h : numsOKM ms = true) :
    ∀ p ∈ ms, numsOK p.2 = true := by
  induction ms with
  | nil => intro p hp; simp at hp
  | cons q rest ih =>
      intro p hp
      obtain ⟨a, b⟩ := q
      have h' : (numsOK b && numsOKM rest) = true := h
      rw [Bool.and_eq_true] at h'
      rcases List.mem_cons.mp hp with h1 | h1
      · rw [h1]; exact h'.1
      · exact ih h'.2 p h1

theorem assigns_nil_nodup (ms : List (String × Jval)) (h : nodupKeysB ms = true) :
    assigns [] ms = ms := by
  have := assigns_disjoint ms [] h (fun p _ => rfl)
  simpa using this

/-- The round-trip property of one value: the parser recovers the value
and the unread remainder from any text whose whitespace-trimmed form is
its printed form. -/
def RTv (v : Jval) : Prop :=
  ∀ (fuel d : Nat) (rest cs : List Char),
    costV v ≤ fuel → numStop rest = true → skipWs cs = printV d v ++ rest →
    parseVal fuel cs = some (v, rest)

theorem skipWs_printItems_nil (di : Nat) (x : Jval) (X : List Char) :
    skipWs (printItems di [x] ++ X) = printV di x ++ X := by
  show skipWs ((indentSp di ++ printV di x) ++ X) = _
  rw [List.append_assoc, skipWs_indentSp, skipWs_print]

theorem skipWs_printItems_cons (di : Nat) (x y : Jval) (ys : List Jval) (X : List Char) :
    skipWs (printItems di (x :: y :: ys) ++ X)
      = printV di x ++ ((',' :: '\n' :: printItems di (y :: ys)) ++ X) := by
  show skipWs (((indentSp di ++ printV di x)
    ++ (',' :: '\n' :: printItems di (y :: ys))) ++ X) = _
  rw [List.append_assoc, List.append_assoc, skipWs_indentSp, skipWs_print]

theorem skipWs_printItems_head (di : Nat) (x : Jval) (xs : List Jval) (X : List Char) :
    ∃ c t, skipWs (printItems di (x :: xs) ++ X) = c :: t ∧ c ≠ ']' ∧ c ≠ '\x7d' := by
  obtain ⟨c, t, hct, _, h1, h2, _⟩ := printV_head di x
  cases xs with
  | nil =>
      refine ⟨c, t ++ X, ?_, h1, h2⟩
      rw [skipWs_printItems_nil, hct]
      rfl
  | cons y ys =>
      refine ⟨c, t ++ ((',' :: '\n' :: printItems di (y :: ys)) ++ X), ?_, h1, h2⟩
      rw [skipWs_printItems_cons, hct]
      rfl

theorem skipWs_printMembers_nil (di : Nat) (k : String) (v : Jval) (X : List Char) :
    skipWs (printMembers di [(k, v)] ++ X)
      = '"' :: ((escStr k.data ++ ['"']) ++ ((':' :: ' ' :: printV di v) ++ X)) := by
  show skipWs (((indentSp di ++ qstr k.data) ++ (':' :: ' ' :: printV di v)) ++ X) = _
  rw [List.append_assoc, List.append_assoc, skipWs_indentSp]
  show skipWs ('"' :: ((escStr k.data ++ ['"']) ++ ((':' :: ' ' :: printV di v) ++ X))) = _
  exact skipWs_cons_not_ws _ _ (by decide)

theorem skipWs_printMembers_cons (di : Nat) (k : String) (v : Jval) (n : String × Jval)
    (ns : List (String × Jval)) (X : List Char) :
    skipWs (printMembers di ((k, v) :: n :: ns) ++ X)
      = '"' :: ((escStr k.data ++ ['"']) ++ ((':' :: ' ' :: printV di v)
          ++ ((',' :: '\n' :: printMembers di (n :: ns)) ++ X))) := by
  show skipWs ((((indentSp di ++ qstr k.data) ++ (':' :: ' ' :: printV di v))
    ++ (',' :: '\n' :: printMembers di (n :: ns))) ++ X) = _
  rw [List.append_assoc, List.append_assoc, List.append_assoc, skipWs_indentSp]
  show skipWs ('"' :: ((escStr k.data ++ ['"']) ++ ((':' :: ' ' :: printV di v)
    ++ ((',' :: '\n' :: printMembers di (n :: ns)) ++ X)))) = _
  exact skipWs_cons_not_ws _ _ (by decide)

theorem skipWs_printMembers_head (di : Nat) (m : String × Jval)
    (ms : List (String × Jval)) (X : List Char) :
    ∃ t, skipWs (printMembers di (m :: ms) ++ X) = '"' :: t := by
  obtain ⟨k, v⟩ := m
  cases ms with
  | nil => exact ⟨_, skipWs_printMembers_nil di k v X⟩
  | cons n ns => exact ⟨_, skipWs_printMembers_cons di k v n ns X⟩

theorem parseElems_print (xs : List Jval) : ∀ (x : Jval), RTv x → (∀ y ∈ xs, RTv y) →
    ∀ (f di : Nat) (close rest cs : List Char),
    costL (x :: xs) ≤ f → skipWs close = ']' :: rest → numStop close = true →
    skipWs cs = skipWs (printItems di (x :: xs) ++ close) →
    parseElems f cs = some (x :: xs, rest) := by
  induction xs with
  | nil =>
      intro x hx _ f di close rest cs hcost hclose hstop hcs
      have e1 : costL [x] = 1 + costV x + costL [] := rfl
      have e2 : costL ([] : List Jval) = 0 := rfl
      cases f with
      | zero => omega
      | succ f =>
          rw [skipWs_printItems_nil] at hcs
          have hv : parseVal f cs = some (x, close) :=
            hx f di close cs (by omega) hstop hcs
          rw [parseElems_succ, hv]
          show (if (skipWs close).head? = some ',' then
              (parseElems f (skipWs close).tail).map (fun p => (x :: p.1, p.2))
            else if (skipWs close).head? = some ']' then some ([x], (skipWs close).tail)
            else none) = some ([x], rest)
          rw [hclose]
          rfl
  | cons y ys ih =>
      intro x hx hys f di close rest cs hcost hclose hstop hcs
      have e1 : costL (x :: y :: ys) = 1 + costV x + costL (y :: ys) := rfl
      cases f with
      | zero => omega
      | succ f =>
          rw [skipWs_printItems_cons] at hcs
          have hv : parseVal f cs
              = some (x, (',' :: '\n' :: printItems di (y :: ys)) ++ close) :=
            hx f di _ cs (by omega) rfl hcs
          rw [parseElems_succ, hv]
          show (parseElems f (('\n' :: printItems di (y :: ys)) ++ close)).map
            (fun p => (x :: p.1, p.2)) = some (x :: y :: ys, rest)
          rw [ih y (hys y (by simp)) (fun z hz => hys z (by simp [hz])) f di close rest
            (('\n' :: printItems di (y :: ys)) ++ close) (by omega) hclose hstop
            (by
              show skipWs ('\n' :: (printItems di (y :: ys) ++ close)) = _
              rw [skipWs_cons_ws _ _ (by decide)])]
          rfl

theorem parseMembers_print (ms : List (String × Jval)) : ∀ (k : String) (v : Jval),
    RTv v → (∀ p ∈ ms, RTv p.2) →
    ∀ (f di : Nat) (close rest cs : List Char),
    costM ((k, v) :: ms) ≤ f → skipWs close = '\x7d' :: rest → numStop close = true →
    skipWs cs = skipWs (printMembers di ((k, v) :: ms) ++ close) →
    parseMembers f cs = some ((k, v) :: ms, rest) := by
  induction ms with
  | nil =>
      intro k v hv _ f di close rest cs hcost hclose hstop hcs
      have e1 : costM [(k, v)] = 1 + costV v + costM [] := rfl
      have e2 : costM ([] : List (String × Jval)) = 0 := rfl
      cases f with
      | zero => omega
      | succ f =>
          rw [skipWs_printMembers_nil] at hcs
          rw [parseMembers_succ, hcs]
          show (parseStrBody ((escStr k.data ++ ['"'])
            ++ ((':' :: ' ' :: printV di v) ++ close))).bind _ = _
          rw [show ((escStr k.data ++ ['"']) ++ ((':' :: ' ' :: printV di v) ++ close)
              : List Char)
              = escStr k.data ++ '"' :: ((':' :: ' ' :: printV di v) ++ close) from by
            rw [List.append_assoc]
            rfl]
          rw [parseStrBody_escStr]
          have hv' : parseVal f ((' ' :: printV di v) ++ close) = some (v, close) := by
            apply hv f di close
            · omega
            · exact hstop
            · show skipWs (' ' :: (printV di v ++ close)) = printV di v ++ close
              rw [skipWs_cons_ws _ _ (by decide), skipWs_print]
          show (parseVal f ((' ' :: printV di v) ++ close)).bind _ = _
          rw [hv']
          show (if (skipWs close).head? = some ',' then
              (parseMembers f (skipWs close).tail).map (fun p => ((k, v) :: p.1, p.2))
            else if (skipWs close).head? = some '\x7d' then
              some ([(k, v)], (skipWs close).tail)
            else none) = some ([(k, v)], rest)
          rw [hclose]
          rfl
  | cons n ns ih =>
      intro k v hv hms f di close rest cs hcost hclose hstop hcs
      obtain ⟨k2, v2⟩ := n
      have e1 : costM ((k, v) :: (k2, v2) :: ns) = 1 + costV v + costM ((k2, v2) :: ns) := rfl
      cases f with
      | zero => omega
      | succ f =>
          rw [skipWs_printMembers_cons] at hcs
          rw [parseMembers_succ, hcs]
          show (parseStrBody ((escStr k.data ++ ['"']) ++ ((':' :: ' ' :: printV di v)
            ++ ((',' :: '\n' :: printMembers di ((k2, v2) :: ns)) ++ close)))).bind _ = _
          rw [show ((escStr k.data ++ ['"']) ++ ((':' :: ' ' :: printV di v)
              ++ ((',' :: '\n' :: printMembers di ((k2, v2) :: ns)) ++ close)) : List Char)
              = escStr k.data ++ '"' :: ((':' :: ' ' :: printV di v)
                ++ ((',' :: '\n' :: printMembers di ((k2, v2) :: ns)) ++ close)) from by
            rw [List.append_assoc]
            rfl]
          rw [parseStrBody_escStr]
          have hv' : parseVal f ((' ' :: printV di v)
              ++ ((',' :: '\n' :: printMembers di ((k2, v2) :: ns)) ++ close))
              = some (v, (',' :: '\n' :: printMembers di ((k2, v2) :: ns)) ++ close) := by
            apply hv f di
            · omega
            · rfl
            · show skipWs (' ' :: (printV di v
                ++ ((',' :: '\n' :: printMembers di ((k2, v2) :: ns)) ++ close))) = _
              rw [skipWs_cons_ws _ _ (by decide), skipWs_print]
          show (parseVal f ((' ' :: printV di v)
            ++ ((',' :: '\n' :: printMembers di ((k2, v2) :: ns)) ++ close))).bind _ = _
          rw [hv']
          show (parseMembers f (('\n' :: printMembers di ((k2, v2) :: ns)) ++ close)).map
            (fun p => ((k, v) :: p.1, p.2)) = _
          rw [ih k2 v2 (hms (k2, v2) (by simp)) (fun p hp => hms p (by simp [hp]))
            f di close rest (('\n' :: printMembers di ((k2, v2) :: ns)) ++ close)
            (by omega) hclose hstop
            (by
              show skipWs ('\n' :: (printMembers di ((k2, v2) :: ns) ++ close)) = _
              rw [skipWs_cons_ws _ _ (by decide)])]
          rfl

theorem parseVal_succ_str (f : Nat) (cs T : List Char) (hcs : skipWs cs = '"' :: T) :
    parseVal (f + 1) cs = (parseStrBody T).map (fun p => (.str ⟨p.1⟩, p.2)) := by
  rw [parseVal_succ, hcs]
  rfl

theorem parseVal_succ_arr (f : Nat) (cs T : List Char) (hcs : skipWs cs = '[' :: T) :
    parseVal (f + 1) cs
      = if (skipWs T).head? = some ']' then some (.arr [], (skipWs T).tail)
        else (parseElems f (skipWs T)).map (fun p => (.arr p.1, p.2)) := by
  rw [parseVal_succ, hcs]
  rfl

theorem parseVal_succ_obj (f : Nat) (cs T : List Char) (hcs : skipWs cs = '\x7b' :: T) :
    parseVal (f + 1) cs
      = if (skipWs T).head? = some '\x7d' then some (.obj [], (skipWs T).tail)
        else (parseMembers f (skipWs T)).map (fun p => (.obj (assigns [] p.1), p.2)) := by
  rw [parseVal_succ, hcs]
  rfl

theorem parseVal_print : ∀ v : Jval, canonKeys v = true → numsOK v = true → RTv v := by
  intro v
  induction v using Jval.induct with
  | hnull =>
      intro _ _ fuel d rest cs hcost hstop hcs
      have e : costV .null = 1 := rfl
      cases fuel with
      | zero => omega
      | succ f =>
          rw [parseVal_succ, hcs]
          rfl
  | hbool b =>
      intro _ _ fuel d rest cs hcost hstop hcs
      have e : costV (.bool b) = 1 := rfl
      cases fuel with
      | zero => omega
      | succ f =>
          cases b with
          | true =>
              rw [parseVal_succ, hcs]
              rfl
          | false =>
              rw [parseVal_succ, hcs]
              rfl
  | hnum q =>
      intro _ hn fuel d rest cs hcost hstop hcs
      have hq : numOKq q = true := hn
      have e : costV (.num q) = 1 := rfl
      cases fuel with
      | zero => omega
      | succ f =>
          obtain ⟨hd, Y, hpq, hh⟩ := printNum_head q
          have hcs' : skipWs cs = hd :: (Y ++ rest) := by
            rw [hcs]
            show printNum q ++ rest = hd :: (Y ++ rest)
            rw [hpq]
            rfl
          have hd1 : hd ≠ 'n' := by
            rcases hh with h1 | h1
            · subst h1; decide
            · exact digit_ne hd 'n' h1 (by decide)
          have hd2 : hd ≠ 't' := by
            rcases hh with h1 | h1
            · subst h1; decide
            · exact digit_ne hd 't' h1 (by decide)
          have hd3 : hd ≠ 'f' := by
            rcases hh with h1 | h1
            · subst h1; decide
            · exact digit_ne hd 'f' h1 (by decide)
          have hd4 : hd ≠ '"' := by
            rcases hh with h1 | h1
            · subst h1; decide
            · exact digit_ne hd '"' h1 (by decide)
          have hd5 : hd ≠ '[' := by
            rcases hh with h1 | h1
            · subst h1; decide
            · exact digit_ne hd '[' h1 (by decide)
          have hd6 : hd ≠ '\x7b' := by
            rcases hh with h1 | h1
            · subst h1; decide
            · exact digit_ne hd '\x7b' h1 (by decide)
          rw [parseVal_succ_num f cs hd (Y ++ rest) hcs' hd1 hd2 hd3 hd4 hd5 hd6]
          rw [show (hd :: (Y ++ rest) : List Char) = printNum q ++ rest from by
            rw [hpq]; rfl]
          rw [parseNum_printNum q hq rest hstop]
          rfl
  | hstr s =>
      intro _ _ fuel d rest cs hcost hstop hcs
      have e : costV (.str s) = 1 := rfl
      cases fuel with
      | zero => omega
      | succ f =>
          have hcs' : skipWs cs = '"' :: ((escStr s.data ++ ['"']) ++ rest) := hcs
          rw [parseVal_succ_str f cs _ hcs']
          rw [show ((escStr s.data ++ ['"']) ++ rest : List Char)
              = escStr s.data ++ '"' :: rest from by rw [List.append_assoc]; rfl]
          rw [parseStrBody_escStr]
          rfl
  | harr xs hP =>
      intro hc hn fuel d rest cs hcost hstop hcs
      cases xs with
      | nil =>
          have e : costV (.arr []) = 1 := rfl
          cases fuel with
          | zero => omega
          | succ f =>
              rw [parseVal_succ, hcs]
              rfl
      | cons x xs' =>
          have e : costV (.arr (x :: xs')) = 1 + costL (x :: xs') := rfl
          cases fuel with
          | zero => omega
          | succ f =>
              have hcl : canonList (x :: xs') = true := hc
              have hnl : numsOKL (x :: xs') = true := hn
              have hRT : ∀ y ∈ x :: xs', RTv y := fun y hy =>
                hP y hy (canonList_mem _ hcl y hy) (numsOKL_mem _ hnl y hy)
              have hcs' : skipWs cs
                  = '[' :: (((('\n' :: printItems (d + 1) (x :: xs'))
                    ++ ('\n' :: indentSp d)) ++ [']']) ++ rest) := hcs
              rw [parseVal_succ_arr f cs _ hcs']
              have hT : skipWs (((('\n' :: printItems (d + 1) (x :: xs'))
                    ++ ('\n' :: indentSp d)) ++ [']']) ++ rest)
                  = skipWs (((printItems (d + 1) (x :: xs')
                    ++ ('\n' :: indentSp d)) ++ [']']) ++ rest) := by
                show skipWs ('\n' :: (((printItems (d + 1) (x :: xs')
                  ++ ('\n' :: indentSp d)) ++ [']']) ++ rest)) = _
                exact skipWs_cons_ws _ _ (by decide)
              have hT2 : ((printItems (d + 1) (x :: xs') ++ ('\n' :: indentSp d)) ++ [']'])
                    ++ rest
                  = printItems (d + 1) (x :: xs')
                    ++ ((('\n' :: indentSp d) ++ [']']) ++ rest) := by
                simp [List.append_assoc]
              have hclose : skipWs ((('\n' :: indentSp d) ++ [']']) ++ rest)
                  = ']' :: rest := by
                have hc1 : skipWs ((('\n' :: indentSp d) ++ [']']) ++ rest)
                    = skipWs ((indentSp d ++ [']']) ++ rest) := by
                  show skipWs ('\n' :: ((indentSp d ++ [']']) ++ rest)) = _
                  exact skipWs_cons_ws _ _ (by decide)
                rw [hc1, List.append_assoc, skipWs_indentSp]
                exact skipWs_cons_not_ws _ _ (by decide)
              obtain ⟨c, t, hsk, hcne1, hcne2⟩ :=
                skipWs_printItems_head (d + 1) x xs' ((('\n' :: indentSp d) ++ [']']) ++ rest)
              have hskT : skipWs (((('\n' :: printItems (d + 1) (x :: xs'))
                    ++ ('\n' :: indentSp d)) ++ [']']) ++ rest) = c :: t := by
                rw [hT, hT2, hsk]
              rw [hskT, if_neg (by simp [hcne1])]
              rw [parseElems_print xs' x (hRT x (by simp))
                (fun y hy => hRT y (by simp [hy])) f (d + 1)
                ((('\n' :: indentSp d) ++ [']']) ++ rest) rest (c :: t)
                (by omega) hclose rfl
                (by
                  rw [← hsk]
                  exact skipWs_idem _)]
              rfl
  | hobj kvs hP =>
      intro hc hn fuel d rest cs hcost hstop hcs
      cases kvs with
      | nil =>
          have e : costV (.obj []) = 1 := rfl
          cases fuel with
          | zero => omega
          | succ f =>
              rw [parseVal_succ, hcs]
              rfl
      | cons m ms =>
          obtain ⟨k, v⟩ := m
          have e : costV (.obj ((k, v) :: ms)) = 1 + costM ((k, v) :: ms) := rfl
          cases fuel with
          | zero => omega
          | succ f =>
              have hnd : nodupKeysB ((k, v) :: ms) = true := by
                have h' : (nodupKeysB ((k, v) :: ms) && canonKVs ((k, v) :: ms)) = true := hc
                exact (Bool.and_eq_true _ _ |>.mp h').1
              have hckv : canonKVs ((k, v) :: ms) = true := by
                have h' : (nodupKeysB ((k, v) :: ms) && canonKVs ((k, v) :: ms)) = true := hc
                exact (Bool.and_eq_true _ _ |>.mp h').2
              have hnm : numsOKM ((k, v) :: ms) = true := hn
              have hRT : ∀ p ∈ (k, v) :: ms, RTv p.2 := fun p hp =>
                hP p hp (canonKVs_mem _ hckv p hp) (numsOKM_mem _ hnm p hp)
              have hcs' : skipWs cs
                  = '\x7b' :: (((('\n' :: printMembers (d + 1) ((k, v) :: ms))
                    ++ ('\n' :: indentSp d)) ++ ['\x7d']) ++ rest) := hcs
              rw [parseVal_succ_obj f cs _ hcs']
              have hT : skipWs (((('\n' :: printMembers (d + 1) ((k, v) :: ms))
                    ++ ('\n' :: indentSp d)) ++ ['\x7d']) ++ rest)
                  = skipWs (((printMembers (d + 1) ((k, v) :: ms)
                    ++ ('\n' :: indentSp d)) ++ ['\x7d']) ++ rest) := by
                show skipWs ('\n' :: (((printMembers (d + 1) ((k, v) :: ms)
                  ++ ('\n' :: indentSp d)) ++ ['\x7d']) ++ rest)) = _
                exact skipWs_cons_ws _ _ (by decide)
              have hT2 : ((printMembers (d + 1) ((k, v) :: ms) ++ ('\n' :: indentSp d))
                    ++ ['\x7d']) ++ rest
                  = printMembers (d + 1) ((k, v) :: ms)
                    ++ ((('\n' :: indentSp d) ++ ['\x7d']) ++ rest) := by
                simp [List.append_assoc]
              have hclose : skipWs ((('\n' :: indentSp d) ++ ['\x7d']) ++ rest)
                  = '\x7d' :: rest := by
                have hc1 : skipWs ((('\n' :: indentSp d) ++ ['\x7d']) ++ rest)
                    = skipWs ((indentSp d ++ ['\x7d']) ++ rest) := by
                  show skipWs ('\n' :: ((indentSp d ++ ['\x7d']) ++ rest)) = _
                  exact skipWs_cons_ws _ _ (by decide)
                rw [hc1, List.append_assoc, skipWs_indentSp]
                exact skipWs_cons_not_ws _ _ (by decide)
              obtain ⟨t, hsk⟩ := skipWs_printMembers_head (d + 1) (k, v) ms
                ((('\n' :: indentSp d) ++ ['\x7d']) ++ rest)
              have hskT : skipWs (((('\n' :: printMembers (d + 1) ((k, v) :: ms))
                    ++ ('\n' :: indentSp d)) ++ ['\x7d']) ++ rest) = '"' :: t := by
                rw [hT, hT2, hsk]
              rw [hskT, if_neg (by simp)]
              rw [parseMembers_print ms k v (hRT (k, v) (by simp))
                (fun p hp => hRT p (by simp [hp])) f (d + 1)
                ((('\n' :: indentSp d) ++ ['\x7d']) ++ rest) rest ('"' :: t)
                (by omega) hclose rfl
                (by
                  rw [← hsk]
                  exact skipWs_idem _)]
              show some (Jval.obj (assigns [] ((k, v) :: ms)), rest)
                = some (Jval.obj ((k, v) :: ms), rest)
              rw [assigns_nil_nodup _ hnd]

theorem costL_le_print (d : Nat) : ∀ (x : Jval) (xs : List Jval),
    (∀ y ∈ x :: xs, ∀ d' : Nat, costV y ≤ (printV d' y).length + 1) →
    costL (x :: xs) ≤ (printItems d (x :: xs)).length + 2 := by
  intro x xs
  induction xs generalizing x with
  | nil =>
      intro h
      have e1 : costL [x] = 1 + costV x + costL [] := rfl
      have e2 : costL ([] : List Jval) = 0 := rfl
      have e3 : printItems d [x] = indentSp d ++ printV d x := rfl
      have e4 : (printItems d [x]).length = (indentSp d).length + (printV d x).length := by
        rw [e3, List.length_append]
      have hx := h x (by simp) d
      omega
  | cons y ys ih =>
      intro h
      have e1 : costL (x :: y :: ys) = 1 + costV x + costL (y :: ys) := rfl
      have e3 : printItems d (x :: y :: ys)
          = (indentSp d ++ printV d x) ++ (',' :: '\n' :: printItems d (y :: ys)) := rfl
      have e4 : (printItems d (x :: y :: ys)).length
          = (indentSp d).length + (printV d x).length
            + ((printItems d (y :: ys)).length + 2) := by
        rw [e3]
        simp only [List.length_append, List.length_cons]
      have hx := h x (by simp) d
      have hih := ih y (fun z hz => h z (by simp [hz]))
      omega

theorem costM_le_print (d : Nat) : ∀ (m : String × Jval) (ms : List (String × Jval)),
    (∀ p ∈ m :: ms, ∀ d' : Nat, costV p.2 ≤ (printV d' p.2).length + 1) →
    costM (m :: ms) ≤ (printMembers d (m :: ms)).length + 2 := by
  intro m ms
  induction ms generalizing m with
  | nil =>
      intro h
      obtain ⟨k, v⟩ := m
      have e1 : costM [(k, v)] = 1 + costV v + costM [] := rfl
      have e2 : costM ([] : List (String × Jval)) = 0 := rfl
      have e3 : printMembers d [(k, v)]
          = (indentSp d ++ qstr k.data) ++ (':' :: ' ' :: printV d v) := rfl
      have e4 : (printMembers d [(k, v)]).length
          = (indentSp d).length + (qstr k.data).length + ((printV d v).length + 2) := by
        rw [e3]
        simp only [List.length_append, List.length_cons]
      have hx : costV v ≤ (printV d v).length + 1 := h (k, v) (by simp) d
      omega
  | cons n ns ih =>
      intro h
      obtain ⟨k, v⟩ := m
      have e1 : costM ((k, v) :: n :: ns) = 1 + costV v + costM (n :: ns) := rfl
      have e3 : printMembers d ((k, v) :: n :: ns)
          = ((indentSp d ++ qstr k.data) ++ (':' :: ' ' :: printV d v))
            ++ (',' :: '\n' :: printMembers d (n :: ns)) := rfl
      have e4 : (printMembers d ((k, v) :: n :: ns)).length
          = (indentSp d).length + (qstr k.data).length + (printV d v).length
            + ((printMembers d (n :: ns)).length + 4) := by
        rw [e3]
        simp only [List.length_append, List.length_cons]
        omega
      have hx : costV v ≤ (printV d v).length + 1 := h (k, v) (by simp) d
      have hih := ih n (fun p hp => h p (by simp [hp]))
      omega

theorem costV_le_print : ∀ (v : Jval) (d : Nat), costV v ≤ (printV d v).length + 1 := by
  intro v
  induction v using Jval.induct with
  | hnull =>
      intro d
      have e : costV .null = 1 := rfl
      omega
  | hbool b =>
      intro d
      have e : costV (.bool b) = 1 := rfl
      omega
  | hnum q =>
      intro d
      have e : costV (.num q) = 1 := rfl
      omega
  | hstr s =>
      intro d
      have e : costV (.str s) = 1 := rfl
      omega
  | harr xs h =>
      intro d
      cases xs with
      | nil =>
          have e : costV (.arr []) = 1 := rfl
          omega
      | cons x xs' =>
          have e : costV (.arr (x :: xs')) = 1 + costL (x :: xs') := rfl
          have hL := costL_le_print (d + 1) x xs' h
          have e3 : printV d (.arr (x :: xs'))
              = (('[' :: '\n' :: printItems (d + 1) (x :: xs'))
                ++ ('\n' :: indentSp d)) ++ [']'] := rfl
          have e4 : (printV d (.arr (x :: xs'))).length
              = (printItems (d + 1) (x :: xs')).length + (indentSp d).length + 4 := by
            rw [e3]
            simp only [List.length_append, List.length_cons, List.length_nil]
            omega
          omega
  | hobj kvs h =>
      intro d
      cases kvs with
      | nil =>
          have e : costV (.obj []) = 1 := rfl
          omega
      | cons m ms =>
          have e : costV (.obj (m :: ms)) = 1 + costM (m :: ms) := rfl
          have hM := costM_le_print (d + 1) m ms h
          have e3 : printV d (.obj (m :: ms))
              = (('\x7b' :: '\n' :: printMembers (d + 1) (m :: ms))
                ++ ('\n' :: indentSp d)) ++ ['\x7d'] := rfl
          have e4 : (printV d (.obj (m :: ms))).length
              = (printMembers (d + 1) (m :: ms)).length + (indentSp d).length + 4 := by
            rw [e3]
            simp only [List.length_append, List.length_cons, List.length_nil]
            omega
          omega

theorem jsonParse_print (v : Jval) (hc : canonKeys v = true) (hn : numsOK v = true) :
    jsonParse ⟨printV 0 v⟩ = .ok v := by
  have hrt := parseVal_print v hc hn
  have hp : parseVal (2 * (⟨printV 0 v⟩ : String).data.length + 2)
      (⟨printV 0 v⟩ : String).data = some (v, []) := by
    apply hrt _ 0 []
    · show costV v ≤ 2 * (printV 0 v).length + 2
      have := costV_le_print v 0
      omega
    · rfl
    · show skipWs (printV 0 v) = printV 0 v ++ []
      have h1 := skipWs_print 0 v []
      rw [List.append_nil] at h1
      rw [List.append_nil]
      exact h1
  unfold jsonParse
  rw [hp]
  rfl

/-! ### Validity is preserved by normalization -/

theorem specAccepts_true_elim (kvs : List (String × Jval))
    (h : specAccepts (.obj kvs) = true) :
    ∃ cam, lookupKV "camera" kvs = some cam ∧
      isArrO (getProp? cam "position") = true ∧
      isArrO (getProp? cam "lookAt") = true ∧
      isArrO (lookupKV "lights" kvs) = true ∧
      isArrO (lookupKV "objects" kvs) = true := by
  have h' : (match lookupKV "camera" kvs with
      | some cam =>
          isArrO (getProp? cam "position") && isArrO (getProp? cam "lookAt")
            && isArrO (lookupKV "lights" kvs) && isArrO (lookupKV "objects" kvs)
      | none => false) = true := h
  cases hcam : lookupKV "camera" kvs with
  | none =>
      rw [hcam] at h'
      simp at h'
  | some cam =>
      rw [hcam] at h'
      have h2 : (isArrO (getProp? cam "position") && isArrO (getProp? cam "lookAt")
          && isArrO (lookupKV "lights" kvs) && isArrO (lookupKV "objects" kvs)) = true := h'
      simp only [Bool.and_eq_true] at h2
      exact ⟨cam, rfl, h2.1.1.1, h2.1.1.2, h2.1.2, h2.2⟩

theorem specAccepts_obj_of (L : List (String × Jval)) (cam : Jval)
    (hcam : lookupKV "camera" L = some cam)
    (h1 : isArrO (getProp? cam "position") = true)
    (h2 : isArrO (getProp? cam "lookAt") = true)
    (h3 : isArrO (lookupKV "lights" L) = true)
    (h4 : isArrO (lookupKV "objects" L) = true) :
    specAccepts (.obj L) = true := by
  show (match lookupKV "camera" L with
    | some c =>
        isArrO (getProp? c "position") && isArrO (getProp? c "lookAt")
          && isArrO (lookupKV "lights" L) && isArrO (lookupKV "objects" L)
    | none => false) = true
  rw [hcam]
  show (isArrO (getProp? cam "position") && isArrO (getProp? cam "lookAt")
      && isArrO (lookupKV "lights" L) && isArrO (lookupKV "objects" L)) = true
  rw [h1, h2, h3, h4]
  rfl

/-- The output of `normalizeDSL` on a validated, canonically-keyed input is
again accepted by `validateDSL`. -/
theorem validateDSL_normalize (v D : Jval) (hval : validateDSL v = true)
    (hcv : canonKeys v = true) (hD : normalizeDSL v = .ok D) :
    validateDSL D = true := by
  rw [validateDSL_eq_specAccepts] at hval
  cases v with
  | null => exact absurd hval (by simp [specAccepts])
  | bool b => exact absurd hval (by simp [specAccepts])
  | num q => exact absurd hval (by simp [specAccepts])
  | str s => exact absurd hval (by simp [specAccepts])
  | arr xs => exact absurd hval (by simp [specAccepts])
  | obj kvs =>
      obtain ⟨cam, hcam, hp, hl, hlights, hobjsA⟩ := specAccepts_true_elim kvs hval
      obtain ⟨pos, hpos⟩ := isArrO_shape _ hp
      obtain ⟨camkvs, hcamobj⟩ := getProp?_some_obj cam "position" _ hpos
      subst hcamobj
      obtain ⟨la, hla⟩ := isArrO_shape _ hl
      obtain ⟨xs, hxs⟩ := isArrO_shape _ hobjsA
      have hcamv : getProp? (Jval.obj kvs) "camera" = some (Jval.obj camkvs) := hcam
      have hccam : canonKeys (Jval.obj camkvs) = true :=
        canon_getProp? (Jval.obj kvs) _ "camera" hcv hcamv
      have hobjs2 : getProp? (Jval.obj kvs) "objects" = some (Jval.arr xs) := hxs
      rw [normalizeDSL_eq (Jval.obj kvs) rfl xs hobjs2] at hD
      cases hmap : mapME normObj xs with
      | error e =>
          rw [hmap] at hD
          have hD3 : (Except.error e : Except String Jval) = Except.ok D := hD
          exact absurd hD3 (by simp)
      | ok objs =>
          rw [hmap] at hD
          have hD2 : Except.ok (Jval.obj (insertKV (insertKV (insertKV kvs
                "camera" (Jval.obj (assigns fovDefault
                  (objSpreadO (getProp? (Jval.obj kvs) "camera")))))
                "background" (jsOr (getProp? (Jval.obj kvs) "background")
                  (Jval.str "#000000")))
                "objects" (Jval.arr objs))) = Except.ok D := hD
          rw [hcamv] at hD2
          injection hD2 with hDL
          subst hDL
          rw [validateDSL_eq_specAccepts]
          have hposL : lookupKV "position"
              (assigns fovDefault (objSpreadO (some (Jval.obj camkvs))))
              = some (Jval.arr pos) := by
            have hAs := lookupKV_assigns (objSpreadO (some (Jval.obj camkvs)))
              fovDefault "position"
            have hrev : lookupKV "position" (objSpreadO (some (Jval.obj camkvs))).reverse
                = lookupKV "position" (objSpreadO (some (Jval.obj camkvs))) :=
              revLookup_eq_fwd_spread (Jval.obj camkvs) hccam "position" (by decide)
            rw [hrev] at hAs
            have hpos2 : lookupKV "position" (objSpreadO (some (Jval.obj camkvs)))
                = some (Jval.arr pos) := hpos
            rw [hpos2] at hAs
            exact hAs
          have hlaL : lookupKV "lookAt"
              (assigns fovDefault (objSpreadO (some (Jval.obj camkvs))))
              = some (Jval.arr la) := by
            have hAs := lookupKV_assigns (objSpreadO (some (Jval.obj camkvs)))
              fovDefault "lookAt"
            have hrev : lookupKV "lookAt" (objSpreadO (some (Jval.obj camkvs))).reverse
                = lookupKV "lookAt" (objSpreadO (some (Jval.obj camkvs))) :=
              revLookup_eq_fwd_spread (Jval.obj camkvs) hccam "lookAt" (by decide)
            rw [hrev] at hAs
            have hla2 : lookupKV "lookAt" (objSpreadO (some (Jval.obj camkvs)))
                = some (Jval.arr la) := hla
            rw [hla2] at hAs
            exact hAs
          have ne1 : ("objects" : String) ≠ "camera" := by decide
          have ne2 : ("background" : String) ≠ "camera" := by decide
          have ne3 : ("objects" : String) ≠ "lights" := by decide
          have ne4 : ("background" : String) ≠ "lights" := by decide
          have ne5 : ("camera" : String) ≠ "lights" := by decide
          refine specAccepts_obj_of _ (Jval.obj (assigns fovDefault
              (objSpreadO (some (Jval.obj camkvs))))) ?_ ?_ ?_ ?_ ?_
          · rw [lookupKV_insertKV, if_neg ne1, lookupKV_insertKV, if_neg ne2,
                lookupKV_insertKV, if_pos rfl]
          · have hg : getProp? (Jval.obj (assigns fovDefault
                (objSpreadO (some (Jval.obj camkvs))))) "position"
                = some (Jval.arr pos) := hposL
            simp [hg, isArrO]
          · have hg : getProp? (Jval.obj (assigns fovDefault
                (objSpreadO (some (Jval.obj camkvs))))) "lookAt"
                = some (Jval.arr la) := hlaL
            simp [hg, isArrO]
          · rw [lookupKV_insertKV, if_neg ne3, lookupKV_insertKV, if_neg ne4,
                lookupKV_insertKV, if_neg ne5]
            exact hlights
          · rw [lookupKV_insertKV, if_pos rfl]
            rfl

/-! ### The parse contract -/

theorem parseDSL_err_eq (text : String) (m : String) (h : jsonParse text = .error m) :
    parseDSL text = .error (.parseError ("DSL parsing error: " ++ m)) := by
  unfold parseDSL
  rw [h]

theorem parseDSL_ok_eq (text : String) (p : Jval) (h : jsonParse text = .ok p) :
    parseDSL text =
      (if validateDSL p = true then
        match normalizeDSL p with
        | .ok D => Except.ok D
        | .error m => Except.error (JsErr.other m)
      else Except.error (JsErr.structureError "Invalid DSL structure")) := by
  unfold parseDSL
  rw [h]

/-- C2: for every normalized scene description `D` — the result of
`normalizeDSL` on a validator-accepted input `v` — parsing the serialized
form round-trips: `parseDSL (stringifyDSL D)` succeeds and returns a value
structurally equal to `D`.  The canonicity hypotheses (`canonKeys`, `numsOK`)
restrict the shallow embedding to the values an actual JavaScript runtime can
hold: objects with unique keys and numbers with a finite decimal expansion. -/
theorem c2_roundtrip (v D : Jval) (hval : validateDSL v = true)
    (hcv : canonKeys v = true) (hD : normalizeDSL v = .ok D)
    (hcD : canonKeys D = true) (hnD : numsOK D = true) :
    parseDSL (stringifyDSL D) = .ok D := by
  have hjp : jsonParse (stringifyDSL D) = .ok D := jsonParse_print D hcD hnD
  rw [parseDSL_ok_eq _ D hjp, if_pos (validateDSL_normalize v D hval hcv hD),
      normalizeDSL_fixpoint v D hD]

theorem c2_witness :
    validateDSL witnessDSL = true ∧ canonKeys witnessDSL = true ∧
      normalizeDSL witnessDSL = Except.ok witnessDSLNorm ∧
      canonKeys witnessDSLNorm = true ∧ numsOK witnessDSLNorm = true ∧
      parseDSL (stringifyDSL witnessDSLNorm) = Except.ok witnessDSLNorm :=
  ⟨by with_unfolding_all rfl, by with_unfolding_all rfl, by with_unfolding_all rfl,
   by with_unfolding_all rfl, by with_unfolding_all rfl,
   c2_roundtrip witnessDSL witnessDSLNorm (by with_unfolding_all rfl)
     (by with_unfolding_all rfl) (by with_unfolding_all rfl)
     (by with_unfolding_all rfl) (by with_unfolding_all rfl)⟩

/-- C5: for every input string, `parseDSL` fails with a parse error exactly
when the text is not well-formed JSON, fails with the structure error exactly
when the text parses but is rejected by `validateDSL`, and otherwise returns
the result of `normalizeDSL` on the parsed value — except that when
`normalizeDSL` itself raises (a `TypeError` on a `null` element of `objects`),
the caller receives that third error kind unwrapped, contradicting the spec's
claim that only the two error kinds reach the caller. -/
theorem c5_parse_classification (text : String) :
    (∀ m, jsonParse text = .error m →
        parseDSL text = .error (.parseError ("DSL parsing error: " ++ m))) ∧
    (∀ p, jsonParse text = .ok p → validateDSL p = false →
        parseDSL text = .error (.structureError "Invalid DSL structure")) ∧
    (∀ p D, jsonParse text = .ok p → validateDSL p = true →
        normalizeDSL p = .ok D → parseDSL text = .ok D) ∧
    (∀ p m, jsonParse text = .ok p → validateDSL p = true →
        normalizeDSL p = .error m → parseDSL text = .error (.other m)) := by
  refine ⟨?_, ?_, ?_, ?_⟩
  · intro m h
    exact parseDSL_err_eq text m h
  · intro p h hv
    have hv2 : ¬ (validateDSL p = true) := by simp [hv]
    rw [parseDSL_ok_eq text p h, if_neg hv2]
  · intro p D h hv hn
    rw [parseDSL_ok_eq text p h, if_pos hv, hn]
  · intro p m h hv hn
    rw [parseDSL_ok_eq text p h, if_pos hv, hn]

theorem c5_witness :
    jsonParse (stringifyDSL badDSL) = Except.ok badDSL ∧
      validateDSL badDSL = true ∧
      normalizeDSL badDSL = Except.error "TypeError" ∧
      parseDSL (stringifyDSL badDSL) = Except.error (.other "TypeError") :=
  ⟨by with_unfolding_all rfl, by with_unfolding_all rfl, by with_unfolding_all rfl,
   (c5_parse_classification (stringifyDSL badDSL)).2.2.2 badDSL "TypeError"
     (by with_unfolding_all rfl) (by with_unfolding_all rfl)
     (by with_unfolding_all rfl)⟩

/-- A validator-accepted text on which `DSLParser.parse` raises neither of the
spec's two error kinds: the `TypeError` from `normalizeDSL` reaches the caller
as a third, unwrapped error. -/
theorem c5_counterexample :
    parseDSL (stringifyDSL badDSL) = Except.error (.other "TypeError") := by
  with_unfolding_all rfl
